import Mathlib

/-!
# PostNL Lovelace card: aggregation engine

A shallow embedding of the aggregation logic of `src/postnl-card.js` (the
multi-source card) and of the single-source card `src/main.js`.

Conventions of the embedding.

* A JavaScript object holding a shipment or a letter is an association list
  from property names to JSON scalars (`Obj`); reading a property that is not
  there gives `undefined`. Property names are taken to be distinct, as in any
  JavaScript object.
* An element of an `enroute` / `delivered` array or a value of a `letters`
  mapping is an `Item`: an object, or JSON `null`.
* `moment` is an external library. Its clock, its string parser and its calendar
  arithmetic are the fields of `Clock`; the embedding fixes how the card calls
  them. A moment is `Option Int`: `some ms` for a valid instant (milliseconds
  since the epoch), `none` for an invalid one. A number is valid only within
  the range of a JavaScript `Date` (`maxDate` milliseconds on either side of
  the epoch); the instants that the clock and the parser give are assumed to
  stay in that range, and the clock does not advance during one call.
* `Array.prototype.sort` is stable; a comparator result `NaN` counts as `+0`.
  It is embedded as a stable insertion sort. ECMAScript fixes the result of
  `sort` only for a consistent comparator, which the comparators of the card
  are when every date they compare is valid; with an invalid date among them
  the order is the engine's own, and `jsSort` is then one admissible outcome.
  Statements on the order of a collection are made where the dates are valid.
* The snapshot table `hass.states` and the table `TRANSLATIONS` are read by
  their own keys in the card-level methods (`resolve`, `TRANSLATIONS`). They
  are plain objects, which also answer to the names inherited from
  `Object.prototype`; `_updateEntities` with that property read is embedded
  in full in the namespace `PlainObject`, and agrees with the card-level
  method for every key that is a key of the table or not an inherited name.
* A method that can throw returns the card as it is when the exception leaves
  the method, together with the exception (`none` when it returned normally).
-/

namespace PostNL

/-! ## JavaScript values and objects -/

/-- JSON scalar values, plus `undefined` for the value of an absent property. -/
inductive JsVal where
  | undefined
  | null
  | num (n : Int)
  | str (s : String)
  deriving DecidableEq, Repr

/-- JavaScript truthiness (`!!v`). -/
def truthy : JsVal → Bool
  | .undefined => false
  | .null => false
  | .num n => n != 0
  | .str s => s != ""

/-- The value of `a || b`. -/
def jsOr (a b : JsVal) : JsVal :=
  if truthy a then a else b

/-- ToPropertyKey: the property name used by `obj[v]`. -/
def propertyKey : JsVal → String
  | .undefined => "undefined"
  | .null => "null"
  | .num n => toString n
  | .str s => s

/-- An object with scalar properties, in property order. -/
abbrev Obj := List (String × JsVal)

/-- Property read `o.k`. -/
def Obj.get (o : Obj) (k : String) : JsVal :=
  match o.lookup k with
  | some v => v
  | none => .undefined

/-- Property write on a fresh copy: an existing property keeps its place, a new
one is added last. -/
def Obj.set (o : Obj) (k : String) (v : JsVal) : Obj :=
  if o.any (fun p => p.1 == k) then
    o.map (fun p => if p.1 == k then (k, v) else p)
  else
    o ++ [(k, v)]

/-- An array element or mapping value: an object (`some`) or `null` (`none`). -/
abbrev Item := Option Obj

/-- The own properties copied by the spread `...item`. -/
def spread : Item → Obj
  | some o => o
  | none => []

/-- The arrow function `x => ({...x, sender_name: name})`. -/
def annotate (name : JsVal) (x : Item) : Obj :=
  (spread x).set "sender_name" name

/-! ## moment -/

/-- The parts of `moment` the card relies on. -/
structure Clock where
  /-- Value of `moment()`: the current instant. -/
  now : Int
  /-- Value of `moment(s)` for a non-empty string `s`; `none` when invalid. -/
  parse : String → Option Int
  /-- Value of `m.subtract(n, 'days')`. -/
  subtractDays : Int → Int → Int
  /-- Value of `m.startOf('day')`. -/
  startOfDay : Int → Int

/-- The largest time value of a JavaScript `Date`, `8.64e15` milliseconds. -/
def maxDate : Int := 8640000000000000

/-- Constructor call `moment(v)`: `undefined` is the current instant, `null` and
the empty string are invalid, a number is a count of milliseconds, valid when
`new Date(n)` is: within `maxDate` of the epoch. -/
def moment (k : Clock) : JsVal → Option Int
  | .undefined => some k.now
  | .null => none
  | .num n => if -maxDate ≤ n ∧ n ≤ maxDate then some n else none
  | .str s => if s = "" then none else k.parse s

/-- Method `m.isSameOrAfter(other)` for a valid `other`. -/
def isSameOrAfter (m : Option Int) (other : Int) : Bool :=
  match m with
  | some t => decide (other ≤ t)
  | none => false

/-- Method `a.diff(b)` in milliseconds; `none` is `NaN`. -/
def diff (a b : Option Int) : Option Int :=
  match a, b with
  | some x, some y => some (x - y)
  | _, _ => none

/-- The cutoff `now.clone().subtract(pastDays, 'days').startOf('day')`. -/
def pastDate (k : Clock) (pastDays : Int) : Int :=
  k.startOfDay (k.subtractDays k.now pastDays)

/-- ISO 8601 strings of the concrete runs and the instants they denote. -/
def isoTable : List (String × Int) :=
  [("2024-03-11T12:00:00Z", 1710158400000),
   ("2024-03-10T12:00:00Z", 1710072000000),
   ("2024-03-09T12:00:00Z", 1709985600000),
   ("2024-03-05T12:00:00Z", 1709640000000)]

/-- A clock in UTC, for concrete runs: days are 86400000 ms, and the parser
knows the strings of `isoTable` (every other string is invalid). -/
def utcClock (now : Int) : Clock where
  now := now
  parse := fun s => isoTable.lookup s
  subtractDays := fun t n => t - n * 86400000
  startOfDay := fun t => t - t % 86400000

/-- The instant 2024-03-10T15:30:00Z, the current time of the concrete runs. -/
def sampleNow : Int := 1710084600000

/-! ## Array.prototype.sort -/

/-- Whether a comparator result puts its first argument after its second:
positive, with `NaN` read as `+0`. -/
def placesAfter : Option Int → Bool
  | some v => decide (0 < v)
  | none => false

/-- Insert `a`, which stood before every element of the list, keeping it in front
of the first element that does not have to precede it. -/
def sortInsert {α : Type} (cmp : α → α → Option Int) (a : α) : List α → List α
  | [] => [a]
  | b :: l => if placesAfter (cmp a b) then b :: sortInsert cmp a l else a :: b :: l

/-- Stable sort `xs.sort(cmp)`: the result of every engine when `cmp` is a
consistent comparator, and one admissible result when it is not. -/
def jsSort {α : Type} (cmp : α → α → Option Int) : List α → List α
  | [] => []
  | a :: l => sortInsert cmp a (jsSort cmp l)

/-- Comparator `(a, b) => moment(b[field]).diff(moment(a[field]))`. -/
def byDateDesc (k : Clock) (field : String) (a b : Obj) : Option Int :=
  diff (moment k (b.get field)) (moment k (a.get field))

/-! ## Data model of the card -/

/-- The `attributes` bag of a snapshot. -/
structure Attributes where
  name : JsVal := .undefined
  enroute : Option (List Item) := none
  delivered : Option (List Item) := none
  letters : Option (List (String × Item)) := none
  deriving DecidableEq, Repr

/-- A state object of the snapshot table. -/
structure Snapshot where
  attributes : Attributes
  deriving DecidableEq, Repr

/-- A resolved source: `{state, name}`. -/
structure Source where
  state : Snapshot
  name : JsVal
  deriving DecidableEq, Repr

/-- A descriptor `{entity, name?}`. -/
structure Descriptor where
  entity : String
  name : JsVal := .undefined
  deriving DecidableEq, Repr

/-- An element of `deliveryConfigs` and its siblings: a descriptor object, or a
bare identifier string. -/
inductive ConfigItem where
  | desc (d : Descriptor)
  | ident (s : String)
  deriving DecidableEq, Repr

/-- The value of `config.delivery` and its siblings. -/
inductive Group where
  | absent
  | single (s : String)
  | list (ds : List Descriptor)
  deriving DecidableEq, Repr

/-- The card configuration object. -/
structure Config where
  delivery : Group := .absent
  distribution : Group := .absent
  letters : Group := .absent
  name : JsVal := .undefined
  icon : JsVal := .undefined
  date_format : JsVal := .undefined
  time_format : JsVal := .undefined
  past_days : Option Int := none
  language : JsVal := .undefined
  hide_delivered : Option Bool := none
  deriving DecidableEq, Repr

/-- The `hass` object: ambient language and snapshot table. -/
structure Hass where
  language : String := "en"
  states : List (String × Snapshot) := []
  deriving DecidableEq, Repr

/-- The two tabs. -/
inductive Tab where
  | shipments
  | letters
  deriving DecidableEq, Repr

/-- One entry of `TRANSLATIONS`: the texts of a language. -/
structure Translations where
  letters : String
  letter : String
  enroute : String
  delivered : String
  shipments : String
  title : String
  status : String
  deliveryDate : String
  today : String
  tomorrow : String
  unknown : String
  unavailable_entities : String
  no_enroute : String
  no_delivered : String
  no_letters : String
  deriving DecidableEq, Repr

/-- The entry `TRANSLATIONS.en`. -/
def translationsEn : Translations where
  letters := "Letters"
  letter := "Letter"
  enroute := "Enroute"
  delivered := "Delivered"
  shipments := "Shipments"
  title := "Title"
  status := "Status"
  deliveryDate := "Delivery Date"
  today := "Today"
  tomorrow := "Tomorrow"
  unknown := "Unknown"
  unavailable_entities :=
    "The given entities are not available. Please check your card configuration"
  no_enroute := "No enroute shipments"
  no_delivered := "No delivered shipments"
  no_letters := "No letters"

/-- The entry `TRANSLATIONS.nl`. -/
def translationsNl : Translations where
  letters := "Brieven"
  letter := "Brief"
  enroute := "Onderweg"
  delivered := "Bezorgd"
  shipments := "Zendingen"
  title := "Titel"
  status := "Status"
  deliveryDate := "Bezorgdatum"
  today := "Vandaag"
  tomorrow := "Morgen"
  unknown := "Onbekend"
  unavailable_entities :=
    "De opgegeven entiteiten zijn niet beschikbaar. Controleer je card configuratie"
  no_enroute := "Geen zendingen onderweg"
  no_delivered := "Geen bezorgde zendingen"
  no_letters := "Geen brieven"

/-- The lookup `this.TRANSLATIONS[language]` by the own keys of the table:
`undefined` (`none`) for every language other than `en` and `nl`. For a
language that names a property inherited from `Object.prototype` (such as
`constructor`) the lookup of the card gives that property, an object without
texts; the embedding does not cover these languages. -/
def TRANSLATIONS (language : JsVal) : Option Translations :=
  if propertyKey language = "en" then some translationsEn
  else if propertyKey language = "nl" then some translationsNl
  else none

/-- Instance fields of `PostNLCard` in `postnl-card.js`. -/
structure Card where
  /-- Field `this.config`; `none` until `setConfig` has stored one. -/
  config : Option Config
  /-- Field `this._hass`; `none` until the setter `hass` has run. -/
  hass : Option Hass
  deliveryConfigs : List ConfigItem
  distributionConfigs : List ConfigItem
  lettersConfigs : List ConfigItem
  delivery : List Source
  distribution : List Source
  letters : List Source
  name : JsVal
  icon : JsVal
  dateFormat : JsVal
  timeFormat : JsVal
  pastDays : Int
  language : JsVal
  /-- Field `this.t`; `none` while it is `undefined`. -/
  t : Option Translations
  hideDelivered : Bool
  enrouteShipments : List Obj
  deliveredShipments : List Obj
  letterItems : List Obj
  /-- Field `this._currentTab`. -/
  currentTab : Tab
  deriving DecidableEq, Repr

/-- The constructor of `PostNLCard`. -/
def Card.new : Card where
  config := none
  hass := none
  deliveryConfigs := []
  distributionConfigs := []
  lettersConfigs := []
  delivery := []
  distribution := []
  letters := []
  name := .str "PostNL"
  icon := .str "mdi:mailbox"
  dateFormat := .str "DD MMM YYYY"
  timeFormat := .str "HH:mm"
  pastDays := 1
  language := .str "nl"
  t := none
  hideDelivered := false
  enrouteShipments := []
  deliveredShipments := []
  letterItems := []
  currentTab := .shipments

/-! ## setConfig -/

/-- The test `!g || g.length === 0` on a group. -/
def Group.isEmpty : Group → Bool
  | .absent => true
  | .single s => s == ""
  | .list ds => ds.isEmpty

/-- The expression `Array.isArray(g) ? g : g ? [g] : []`. -/
def Group.configs : Group → List ConfigItem
  | .absent => []
  | .single s => if s = "" then [] else [.ident s]
  | .list ds => ds.map .desc

/-- The expression `config.past_days || 1`. -/
def pastDaysOf (past_days : Option Int) : Int :=
  match past_days with
  | some n => if n = 0 then 1 else n
  | none => 1

/-- Method `setConfig(config)` of `postnl-card.js`. -/
def setConfig (c : Card) (config : Config) : Card × Option String :=
  if config.delivery.isEmpty && config.distribution.isEmpty && config.letters.isEmpty then
    (c, some "Please define at least one entity (delivery, distribution, or letters)")
  else
    ({ c with
        config := some config
        name := jsOr config.name (.str "PostNL")
        icon := jsOr config.icon (.str "mdi:mailbox")
        dateFormat := jsOr config.date_format (.str "DD MMM YYYY")
        timeFormat := jsOr config.time_format (.str "HH:mm")
        pastDays := pastDaysOf config.past_days
        language := jsOr config.language (.str "en")
        t := TRANSLATIONS (jsOr config.language (.str "en"))
        hideDelivered := config.hide_delivered.getD false
        deliveryConfigs := config.delivery.configs
        distributionConfigs := config.distribution.configs
        lettersConfigs := config.letters.configs
        delivery := []
        distribution := []
        letters := [] }, none)

/-! ## _updateEntities -/

/-- Property read `config.entity` on an element of a configs list. -/
def ConfigItem.entity : ConfigItem → JsVal
  | .desc d => .str d.entity
  | .ident _ => .undefined

/-- Property read `config.name` on an element of a configs list. -/
def ConfigItem.name : ConfigItem → JsVal
  | .desc d => d.name
  | .ident _ => .undefined

/-- The callback of `map` in `_updateEntities`: `null` (`none`) when the table
has no snapshot under `config.entity`. The table is read by its own keys; the
read with the names a plain object inherits is `PlainObject.resolve`. -/
def resolve (hass : Hass) (x : ConfigItem) : Option Source :=
  match hass.states.lookup (propertyKey x.entity) with
  | none => none
  | some state => some { state := state, name := jsOr x.name (jsOr state.attributes.name .null) }

/-- The call `xs.filter(Boolean)` on an array of objects and `null`s. -/
def filterBoolean {α : Type} : List (Option α) → List α
  | [] => []
  | none :: xs => filterBoolean xs
  | some a :: xs => a :: filterBoolean xs

/-- One group of `_updateEntities`: `configs.map(...).filter(Boolean)`. -/
def resolveAll (hass : Hass) (configs : List ConfigItem) : List Source :=
  filterBoolean (configs.map (resolve hass))

/-- Method `_updateEntities()` of `postnl-card.js`. -/
def _updateEntities (c : Card) : Card :=
  match c.hass with
  | none => c
  | some hass =>
    { c with
        delivery := resolveAll hass c.deliveryConfigs
        distribution := resolveAll hass c.distributionConfigs
        letters := resolveAll hass c.lettersConfigs }

/-! ## _updateData -/

/-- One round of the `forEach` over shipment sources: the annotated `enroute`
and `delivered` arrays of the source are appended to the running pair. -/
def addShipments (acc : List Obj × List Obj) (e : Source) : List Obj × List Obj :=
  (acc.1 ++ (e.state.attributes.enroute.getD []).map (annotate e.name),
   acc.2 ++ (e.state.attributes.delivered.getD []).map (annotate e.name))

/-- The filter predicate of the delivered collection:
`s => s.delivery_date && moment(s.delivery_date).isSameOrAfter(pastDate)`. -/
def keepDelivered (k : Clock) (cutoff : Int) (o : Obj) : Bool :=
  truthy (o.get "delivery_date") && isSameOrAfter (moment k (o.get "delivery_date")) cutoff

/-- The filter predicate of the letters:
`l => moment(l.delivery_date).isSameOrAfter(pastDate)`; reading a property of
`null` throws (`none`). -/
def keepLetter (k : Clock) (cutoff : Int) : Item → Option Bool
  | none => none
  | some o => some (isSameOrAfter (moment k (o.get "delivery_date")) cutoff)

/-- The call `values.filter(keepLetter)`; `none` when the predicate throws. -/
def filterLetters (k : Clock) (cutoff : Int) : List Item → Option (List Obj)
  | [] => some []
  | x :: xs =>
    match keepLetter k cutoff x, x with
    | some b, some o =>
      match filterLetters k cutoff xs with
      | some r => some (if b then o :: r else r)
      | none => none
    | _, _ => none

/-- The `forEach` over letter sources, from the running `letterItems`: the
result and the exception that ended the loop, if any. -/
def lettersLoop (k : Clock) (cutoff : Int) : List Source → List Obj → List Obj × Option String
  | [], acc => (acc, none)
  | e :: rest, acc =>
    match e.state.attributes.letters with
    | none => lettersLoop k cutoff rest acc
    | some m =>
      match filterLetters k cutoff (m.map Prod.snd) with
      | none => (acc, some "TypeError: Cannot read properties of null")
      | some kept =>
        lettersLoop k cutoff rest (acc ++ kept.map (fun o => annotate e.name (some o)))

/-- Method `_updateData()` of `postnl-card.js`. -/
def _updateData (k : Clock) (c : Card) : Card × Option String :=
  let cutoff := pastDate k c.pastDays
  let both := c.distribution.foldl addShipments (c.delivery.foldl addShipments ([], []))
  let c1 := { c with
    enrouteShipments := jsSort (byDateDesc k "planned_date") both.1
    deliveredShipments :=
      jsSort (byDateDesc k "delivery_date") (both.2.filter (keepDelivered k cutoff))
    letterItems := [] }
  match lettersLoop k cutoff c.letters [] with
  | (items, some err) => ({ c1 with letterItems := items }, some err)
  | (items, none) =>
    ({ c1 with letterItems := jsSort (byDateDesc k "delivery_date") items }, none)

/-! ## set hass -/

/-- Setter `set hass(hass)` of `postnl-card.js`; reading `this.config.language`
throws when no configuration was stored. -/
def setHass (k : Clock) (c : Card) (hass : Hass) : Card × Option String :=
  match c.config with
  | none => ({ c with hass := some hass }, some "TypeError: Cannot read properties of undefined")
  | some config =>
    let c1 := { c with hass := some hass }
    let c2 :=
      if truthy config.language then c1
      else { c1 with
        language := .str (if hass.language = "nl" then "nl" else "en")
        t := TRANSLATIONS (.str (if hass.language = "nl" then "nl" else "en")) }
    _updateData k (_updateEntities c2)

/-! ## Words of the specification -/

/-- The `enroute` list of a source (absent list = empty), each entry with
`sender_name` set to the display name of the source. -/
def annotatedEnroute (e : Source) : List Obj :=
  (e.state.attributes.enroute.getD []).map (fun x => (spread x).set "sender_name" e.name)

/-- The `delivered` list of a source (absent list = empty), each entry with
`sender_name` set to the display name of the source. -/
def annotatedDelivered (e : Source) : List Obj :=
  (e.state.attributes.delivered.getD []).map (fun x => (spread x).set "sender_name" e.name)

/-- The values of the `letters` mapping of a source (absent mapping = no
letters), each with `sender_name` set to the display name of the source. -/
def annotatedLetters (e : Source) : List Obj :=
  ((e.state.attributes.letters.getD []).map Prod.snd).map
    (fun x => (spread x).set "sender_name" e.name)

/-- A record whose property `field` is present and is a valid date at or after
`cutoff`. -/
def DatedSince (k : Clock) (field : String) (cutoff : Int) (o : Obj) : Prop :=
  truthy (o.get field) = true ∧ ∃ t, moment k (o.get field) = some t ∧ cutoff ≤ t

instance (k : Clock) (field : String) (cutoff : Int) (o : Obj) :
    Decidable (DatedSince k field cutoff o) := by
  unfold DatedSince
  cases h : moment k (o.get field) with
  | none => exact isFalse (by simp)
  | some t => exact decidable_of_iff (truthy (o.get field) = true ∧ cutoff ≤ t) (by simp)

/-- Two records in descending order of a date property that both carry. -/
def DescBy (k : Clock) (field : String) (a b : Obj) : Prop :=
  truthy (a.get field) = true ∧ truthy (b.get field) = true ∧
    ∃ ta tb, moment k (a.get field) = some ta ∧ moment k (b.get field) = some tb ∧ tb ≤ ta

/-- A letter that carries a valid `delivery_date`: an object whose
`delivery_date` is present and is a valid date. -/
def hasValidDate (k : Clock) : Item → Bool
  | none => false
  | some o => truthy (o.get "delivery_date") && (moment k (o.get "delivery_date")).isSome

/-- The instant by which an enroute entry is ordered when its `planned_date` is
absent or valid: the current instant for an entry that lacks `planned_date`,
the planned date otherwise. -/
def plannedOrNow (k : Clock) (o : Obj) : Option Int :=
  if o.get "planned_date" = .undefined then some k.now else moment k (o.get "planned_date")

/-- An enroute entry whose `planned_date` is absent or a valid date. -/
def plannedAbsentOrValid (k : Clock) (x : Item) : Bool :=
  (spread x).get "planned_date" == .undefined ||
    (moment k ((spread x).get "planned_date")).isSome

/-- Every entry that lacks `planned_date` comes after every entry that has
one. -/
def MissingLast (out : List Obj) : Prop :=
  out.Pairwise (fun a b => a.get "planned_date" = .undefined → b.get "planned_date" = .undefined)

instance (out : List Obj) : Decidable (MissingLast out) := by
  unfold MissingLast
  infer_instance

/-- The display name of the specification: the explicit name of the descriptor
if set, else the name carried in the attributes of the snapshot, else `null`;
a name is set when it is truthy (neither absent nor empty). -/
def displayName (d : Descriptor) (state : Snapshot) : JsVal :=
  if truthy d.name then d.name
  else if truthy state.attributes.name then state.attributes.name
  else .null

/-- The Source Normalizer of the specification: one pair per descriptor whose
entity id has a snapshot in the table, in descriptor order. -/
def normalize (descriptors : List Descriptor) (snapshots : List (String × Snapshot)) :
    List Source :=
  descriptors.filterMap (fun d =>
    match snapshots.lookup d.entity with
    | some state => some { state := state, name := displayName d state }
    | none => none)

/-- A group that is absent or empty. -/
def Group.AbsentOrEmpty : Group → Prop
  | .absent => True
  | .single s => s = ""
  | .list ds => ds = []

/-! ## Auxiliary definitions -/

/-- The instant a record carries in `field`, `0` when it carries none. -/
def instantOf (k : Clock) (field : String) (o : Obj) : Int :=
  (moment k (o.get field)).getD 0

/-- The letters of a source that pass the filter, annotated: the value appended
to `letterItems` in one round of the loop. -/
def keptLetters (k : Clock) (cutoff : Int) (e : Source) : List Obj :=
  ((((e.state.attributes.letters.getD []).map Prod.snd).filterMap id).filter
    (fun o => isSameOrAfter (moment k (o.get "delivery_date")) cutoff)).map
      (fun o => annotate e.name (some o))

/-! ## The single-source card `main.js` -/

/-- Truthiness of a group value. -/
def Group.truthy : Group → Bool
  | .absent => false
  | .single s => s != ""
  | .list _ => true

/-- The property name used by `hass.states[g]` for a group value `g`: a string
is its own name, an array is the comma-joined string forms of its elements. -/
def Group.key : Group → String
  | .absent => "undefined"
  | .single s => s
  | .list ds => ",".intercalate (ds.map fun _ => "[object Object]")

/-- In `set hass` of `main.js`, the statement
`if (this.config.delivery) { this.delivery = hass.states[this.config.delivery]; }`
and its two siblings: the new value of the field, `none` for `null` and
`undefined`. -/
def Main.assignSource (field : Option Snapshot) (g : Group) (hass : Hass) : Option Snapshot :=
  if g.truthy then hass.states.lookup g.key else field

/-! ## Concrete runs -/

/-- The card after `setConfig(config)` and `hass = h` on a fresh card, at
`sampleNow` in UTC. -/
def run (config : Config) (h : Hass) : Card :=
  (setHass (utcClock sampleNow) (setConfig Card.new config).1 h).1

/-- Scenario A, first source: one enroute parcel planned for tomorrow and one
parcel delivered yesterday at noon. -/
def snapshotA : Snapshot :=
  { attributes :=
    { enroute := some [some [("name", .str "parcel 1"),
                             ("planned_date", .str "2024-03-11T12:00:00Z")]]
      delivered := some [some [("name", .str "parcel 2"),
                               ("delivery_date", .str "2024-03-09T12:00:00Z")]] } }

/-- Scenario A: the snapshot table, with a second delivery source that has no
shipments. -/
def hassA : Hass :=
  { states := [("sensor.postnl_delivery", snapshotA),
               ("sensor.postnl_delivery_2", { attributes := {} })] }

/-- Scenario A: two delivery sources and the given `past_days`. -/
def configA (past_days : Option Int) : Config :=
  { delivery := .list [{ entity := "sensor.postnl_delivery" },
                       { entity := "sensor.postnl_delivery_2", name := .str "Second" }]
    past_days := past_days }

/-- A letters source with one letter that has no `delivery_date`, and a
delivery source with one delivered parcel that has none either. -/
def hassUndated : Hass :=
  { states :=
    [("sensor.postnl_letters",
        { attributes := { letters := some [("7", some [("id", .str "7"),
                                                        ("status_message", .str "scanned")])] } }),
     ("sensor.postnl_delivery",
        { attributes := { delivered := some [some [("name", .str "parcel 3")]] } })] }

/-- The configuration of `hassUndated`, with `past_days: 1`. -/
def configUndated : Config :=
  { delivery := .list [{ entity := "sensor.postnl_delivery" }]
    letters := .list [{ entity := "sensor.postnl_letters" }]
    past_days := some 1 }

/-- Scenario B: one letters source; its letters are dated yesterday, five days
ago and today (at noon), in this order. -/
def hassB : Hass :=
  { states :=
    [("sensor.postnl_letters",
        { attributes :=
          { letters := some
              [("101", some [("id", .str "101"), ("delivery_date", .str "2024-03-09T12:00:00Z")]),
               ("102", some [("id", .str "102"), ("delivery_date", .str "2024-03-05T12:00:00Z")]),
               ("103", some [("id", .str "103"), ("delivery_date", .str "2024-03-10T12:00:00Z")])] } })] }

/-- Scenario B: the configuration, with `past_days: 1`. -/
def configB : Config :=
  { letters := .list [{ entity := "sensor.postnl_letters", name := .str "Home" }]
    past_days := some 1 }

/-- Scenario B: the card on which `set hass` calls `_updateData`. -/
def cardB : Card :=
  _updateEntities
    { (setConfig Card.new configB).1 with hass := some hassB, language := .str "en" }

/-- One delivery source with two enroute parcels: the first was planned for
yesterday at noon, the second has no `planned_date`. -/
def hassLate : Hass :=
  { states :=
    [("sensor.postnl_delivery",
        { attributes :=
          { enroute := some
              [some [("name", .str "late parcel"), ("planned_date", .str "2024-03-09T12:00:00Z")],
               some [("name", .str "unplanned parcel")]] } })] }

/-- The configuration of `hassLate`. -/
def configLate : Config :=
  { delivery := .list [{ entity := "sensor.postnl_delivery" }] }

/-- The card on which `set hass` calls `_updateData` in the run of
`configLate`. -/
def cardLate : Card :=
  _updateEntities
    { (setConfig Card.new configLate).1 with hass := some hassLate, language := .str "en" }

/-- The delivery group given as a single source identifier. -/
def configSingle : Config :=
  { delivery := .single "sensor.postnl_delivery", past_days := some 1 }

/-- A letters source whose mapping holds a `null` value next to a letter of
today. -/
def hassNullLetter : Hass :=
  { states :=
    [("sensor.postnl_letters",
        { attributes :=
          { letters := some
              [("201", none),
               ("202", some [("id", .str "202"),
                             ("delivery_date", .str "2024-03-10T12:00:00Z")])] } })] }

/-- The configuration of `hassNullLetter`. -/
def configNullLetter : Config :=
  { letters := .list [{ entity := "sensor.postnl_letters" }], past_days := some 1 }

/-- Sources with malformed records and no `null` letter. The enroute list holds
`null` and a parcel without dates; the delivered list holds `null`, a parcel
without `delivery_date`, one whose `delivery_date` is not a date, one whose
`delivery_date` is `null` and one delivered yesterday; the letters are one of
today, one whose `delivery_date` is `null` and one whose `delivery_date` is not
a date. -/
def hassMalformed : Hass :=
  { states :=
    [("sensor.postnl_delivery",
        { attributes :=
          { enroute := some [none, some [("name", .str "parcel 4")]]
            delivered := some
              [none,
               some [("name", .str "parcel 5")],
               some [("name", .str "parcel 6"), ("delivery_date", .str "soon")],
               some [("name", .str "parcel 7"), ("delivery_date", .null)],
               some [("name", .str "parcel 8"),
                     ("delivery_date", .str "2024-03-09T12:00:00Z")]] } }),
     ("sensor.postnl_letters",
        { attributes :=
          { letters := some
              [("301", some [("id", .str "301"),
                             ("delivery_date", .str "2024-03-10T12:00:00Z")]),
               ("302", some [("id", .str "302"), ("delivery_date", .null)]),
               ("303", some [("id", .str "303"), ("delivery_date", .str "soon")])] } })] }

/-- The configuration of `hassMalformed`. -/
def configMalformed : Config :=
  { delivery := .list [{ entity := "sensor.postnl_delivery" }]
    letters := .list [{ entity := "sensor.postnl_letters" }]
    past_days := some 1 }

/-- The card on which `set hass` calls `_updateData` in the run of
`configMalformed`. -/
def cardMalformed : Card :=
  _updateEntities
    { (setConfig Card.new configMalformed).1 with hass := some hassMalformed }

/-- One delivery source with two delivered parcels whose `delivery_date` is a
number: the first is one millisecond past the range of a `Date`, the second is
yesterday noon. -/
def hassOutOfRange : Hass :=
  { states :=
    [("sensor.postnl_delivery",
        { attributes :=
          { delivered := some
              [some [("name", .str "parcel 11"), ("delivery_date", .num 8640000000000001)],
               some [("name", .str "parcel 12"), ("delivery_date", .num 1709985600000)]] } })] }

/-! ## Rendering -/

/-- The keys of a calendar specification of `moment`. -/
inductive CalendarKey where
  | sameDay
  | nextDay
  | nextWeek
  | lastDay
  | lastWeek
  | sameElse
  deriving DecidableEq, Repr

/-- The parts of `moment` that rendering relies on, next to those of `Clock`. -/
structure Formatter where
  /-- Value of `m.utcOffset()` in minutes, for the instant `m`. -/
  utcOffset : Int → Int
  /-- Value of `m.format(pattern)` for a valid instant `m`. -/
  format : Int → JsVal → String
  /-- Value of `m.localeData().calendar(key, m, now)`: the pattern of the locale
  for a calendar key. -/
  calendar : CalendarKey → Int → String
  /-- Value of `m.localeData().invalidDate()`, the text of an invalid moment. -/
  invalidDate : String

/-- Milliseconds in a day, the constant `864e5` of `moment`. -/
def msPerDay : Int := 86400000

/-- The difference `m.diff(sod, 'days', true)` in milliseconds, before the
division by `864e5`: the offset change between the two instants is taken out. -/
def diffDaysMs (f : Formatter) (m sod : Int) : Int :=
  m - sod - (f.utcOffset sod - f.utcOffset m) * 60000

/-- Function `getCalendarFormat` of `moment`, on the difference in milliseconds. -/
def calendarFormat (d : Int) : CalendarKey :=
  if d < -6 * msPerDay then .sameElse
  else if d < -1 * msPerDay then .lastWeek
  else if d < 0 then .lastDay
  else if d < msPerDay then .sameDay
  else if d < 2 * msPerDay then .nextDay
  else if d < 7 * msPerDay then .nextWeek
  else .sameElse

/-- The lookup `formats[key]` in the object that `_formatDate` passes to
`calendar`: only three keys are given. -/
def calendarFormats (tr : Translations) (dateFormat : JsVal) : CalendarKey → JsVal
  | .sameDay => .str tr.today
  | .nextDay => .str tr.tomorrow
  | .sameElse => dateFormat
  | _ => .undefined

/-- The body of `_formatDate(date)`, the same in `postnl-card.js` and `main.js`,
on the fields `this.t` and `this.dateFormat`. Reading `this.t.today` throws
while `this.t` is `undefined`; an invalid moment is rendered as the locale's
text for it. -/
def formatCalendar (k : Clock) (f : Formatter) (t : Option Translations) (dateFormat : JsVal)
    (date : JsVal) : Except String String :=
  match t with
  | none => .error "TypeError: Cannot read properties of undefined"
  | some tr =>
    match moment k date with
    | none => .ok f.invalidDate
    | some m =>
      let key := calendarFormat (diffDaysMs f m (k.startOfDay k.now))
      .ok (f.format m (jsOr (calendarFormats tr dateFormat key) (.str (f.calendar key m))))

/-- The body of `_formatTime(date)`, on the field `this.timeFormat`. -/
def formatClock (k : Clock) (f : Formatter) (timeFormat : JsVal) (date : JsVal) : String :=
  match moment k date with
  | none => f.invalidDate
  | some m => f.format m timeFormat

/-- Method `_formatDate(date)` of `postnl-card.js`. -/
def _formatDate (k : Clock) (f : Formatter) (c : Card) (date : JsVal) : Except String String :=
  formatCalendar k f c.t c.dateFormat date

/-- Method `_formatTime(date)` of `postnl-card.js`. -/
def _formatTime (k : Clock) (f : Formatter) (c : Card) (date : JsVal) : String :=
  formatClock k f c.timeFormat date

/-- The text of a value inside a template literal. -/
def jsString : JsVal → String
  | .undefined => "undefined"
  | .null => "null"
  | .num n => toString n
  | .str s => s

/-- The bindings of the table row that `_renderShipmentRow` returns. -/
structure ShipmentRow where
  className : String
  icon : String
  href : JsVal
  title : JsVal
  status : JsVal
  deliveryDate : String
  deriving DecidableEq, Repr

/-- The value of the variable `deliveryDate` at the end of `_renderShipmentRow`,
the same statements in `postnl-card.js` and `main.js`. -/
def deliveryDateLabel (k : Clock) (f : Formatter) (t : Option Translations)
    (dateFormat timeFormat : JsVal) (shipment : Obj) : Except String String :=
  match t with
  | none => .error "TypeError: Cannot read properties of undefined"
  | some tr =>
    if truthy (shipment.get "delivery_date") then
      formatCalendar k f t dateFormat (shipment.get "delivery_date")
    else if truthy (shipment.get "planned_date") then
      if truthy (shipment.get "expected_datetime") then
        (formatCalendar k f t dateFormat (shipment.get "expected_datetime")).map fun d =>
          d ++ " " ++ formatClock k f timeFormat (shipment.get "expected_datetime")
      else
        (formatCalendar k f t dateFormat (shipment.get "planned_date")).map fun d =>
          d ++ " " ++ formatClock k f timeFormat (shipment.get "planned_from") ++ " - " ++
            formatClock k f timeFormat (shipment.get "planned_to")
    else .ok tr.unknown

/-- Method `_renderShipmentRow(shipment, status)` of `postnl-card.js`. -/
def _renderShipmentRow (k : Clock) (f : Formatter) (c : Card) (shipment : Obj)
    (status : String) : Except String ShipmentRow :=
  match c.t with
  | none => .error "TypeError: Cannot read properties of undefined"
  | some tr =>
    (deliveryDateLabel k f c.t c.dateFormat c.timeFormat shipment).map fun deliveryDate =>
      { className := status
        icon := if status = "delivered" then "mdi:check-circle" else "mdi:truck"
        href := shipment.get "url"
        title :=
          if truthy (shipment.get "sender_name") then
            .str (jsString (shipment.get "name") ++ " (" ++
              jsString (shipment.get "sender_name") ++ ")")
          else .str (jsString (shipment.get "name"))
        status := jsOr (shipment.get "status_message") (.str tr.unknown)
        deliveryDate := deliveryDate }

/-- What the tabs area shows: the tab buttons offered and the tab whose
content is rendered. -/
structure TabsView where
  buttons : List Tab
  shown : Tab
  deriving DecidableEq, Repr

/-- The result of `render`, reduced to the state it selects: the not-found
message, or the card content with its tabs area. -/
inductive View where
  | notFound (message : String)
  | content (tabs : TabsView)
  deriving DecidableEq, Repr

/-- Method `_renderTabs()`: the Shipments button always, the Letters button
when `this.letters.length > 0`, and the content of the current tab. -/
def _renderTabs (c : Card) : TabsView :=
  { buttons := .shipments :: (if c.letters.length > 0 then [.letters] else [])
    shown := c.currentTab }

/-- Method `render()` of `postnl-card.js`. Both branches read properties of
`this.t` and throw while it is `undefined`. -/
def render (c : Card) : Except String View :=
  if c.delivery.length = 0 ∧ c.distribution.length = 0 ∧ c.letters.length = 0 then
    match c.t with
    | none => .error "TypeError: Cannot read properties of undefined"
    | some tr => .ok (.notFound tr.unavailable_entities)
  else
    match c.t with
    | none => .error "TypeError: Cannot read properties of undefined"
    | some _ => .ok (.content (_renderTabs c))

/-- Method `_selectTab(tab)`. -/
def _selectTab (c : Card) (tab : Tab) : Card :=
  { c with currentTab := tab }

/-- The locale data `en` of `moment`: calendar patterns and invalid-date text;
in UTC. For concrete runs the formatted text is symbolic: it names the pattern
and the instant that `format` received. -/
def momentEn : Formatter where
  utcOffset := fun _ => 0
  format := fun m pattern => "format(" ++ toString m ++ ", " ++ jsString pattern ++ ")"
  calendar := fun key _ =>
    match key with
    | .sameDay => "[Today at] LT"
    | .nextDay => "[Tomorrow at] LT"
    | .nextWeek => "dddd [at] LT"
    | .lastDay => "[Yesterday at] LT"
    | .lastWeek => "[Last] dddd [at] LT"
    | .sameElse => "L"
  invalidDate := "Invalid date"

/-! ## The single-source card `main.js`: state and methods -/

/-- Instance fields of `PostNLCard` in `main.js`: the three sources are single
snapshots (`none` for `null` and `undefined`), the collections hold the
entries of the snapshots as they are. -/
structure Main.Card where
  config : Option Config
  hass : Option Hass
  delivery : Option Snapshot
  distribution : Option Snapshot
  letters : Option Snapshot
  name : JsVal
  icon : JsVal
  dateFormat : JsVal
  timeFormat : JsVal
  pastDays : Int
  language : JsVal
  t : Option Translations
  hideDelivered : Bool
  enrouteShipments : List Item
  deliveredShipments : List Item
  letterItems : List Item
  currentTab : Tab
  deriving DecidableEq, Repr

/-- The constructor of `PostNLCard` in `main.js`. -/
def Main.Card.new : Main.Card where
  config := none
  hass := none
  delivery := none
  distribution := none
  letters := none
  name := .str "PostNL"
  icon := .str "mdi:mailbox"
  dateFormat := .str "DD MMM YYYY"
  timeFormat := .str "HH:mm"
  pastDays := 1
  language := .str "nl"
  t := none
  hideDelivered := false
  enrouteShipments := []
  deliveredShipments := []
  letterItems := []
  currentTab := .shipments

/-- The comparator `(a, b) => moment(b[field]).diff(moment(a[field]))` on array
elements that may be `null`: reading a property of `null` throws (`none`). -/
def byDateDescItem (k : Clock) (field : String) (a b : Item) : Option (Option Int) :=
  match b, a with
  | some ob, some oa => some (diff (moment k (ob.get field)) (moment k (oa.get field)))
  | _, _ => none

/-- The insertion step of `sortInsert` with a comparator that may throw. -/
def sortInsertThrowing {α : Type} (cmp : α → α → Option (Option Int)) (a : α) :
    List α → Option (List α)
  | [] => some [a]
  | b :: l =>
    match cmp a b with
    | none => none
    | some r =>
      if placesAfter r then (sortInsertThrowing cmp a l).map (fun l2 => b :: l2)
      else some (a :: b :: l)

/-- Stable sort `xs.sort(cmp)` with a comparator that may throw; `none` when it
throws. An array of fewer than two elements is returned without a call of the
comparator. -/
def jsSortThrowing {α : Type} (cmp : α → α → Option (Option Int)) : List α → Option (List α)
  | [] => some []
  | a :: l => (jsSortThrowing cmp l).bind (sortInsertThrowing cmp a)

/-- The call `xs.filter(p)` with a predicate that may throw; `none` when it
throws. -/
def filterThrowing {α : Type} (p : α → Option Bool) : List α → Option (List α)
  | [] => some []
  | x :: xs =>
    match p x with
    | none => none
    | some b =>
      match filterThrowing p xs with
      | none => none
      | some r => some (if b then x :: r else r)

/-- The filter predicate of the delivered collection in `main.js`, on array
elements that may be `null`. -/
def keepDeliveredItem (k : Clock) (cutoff : Int) : Item → Option Bool
  | none => none
  | some o => some (keepDelivered k cutoff o)

/-- The filter predicate of the letters in `main.js`, on mapping values that may
be `null`. -/
def keepLetterItem (k : Clock) (cutoff : Int) : Item → Option Bool
  | none => none
  | some o => some (isSameOrAfter (moment k (o.get "delivery_date")) cutoff)

/-- The arrays `enroute` and `delivered` of `main.js` after the two `push`
blocks. -/
def Main.pushed (sel : Attributes → Option (List Item)) (c : Main.Card) : List Item :=
  (match c.delivery with
    | some d => (sel d.attributes).getD []
    | none => []) ++
  (match c.distribution with
    | some s => (sel s.attributes).getD []
    | none => [])

/-- Method `_updateData()` of `main.js`. A `TypeError` leaves the collections
assigned so far. -/
def Main._updateData (k : Clock) (c : Main.Card) : Main.Card × Option String :=
  let cutoff := pastDate k c.pastDays
  let c0 := { c with enrouteShipments := [], deliveredShipments := [], letterItems := [] }
  match jsSortThrowing (byDateDescItem k "planned_date") (Main.pushed (fun a => a.enroute) c) with
  | none => (c0, some "TypeError: Cannot read properties of null")
  | some enroute =>
    let c1 := { c0 with enrouteShipments := enroute }
    match (filterThrowing (keepDeliveredItem k cutoff)
        (Main.pushed (fun a => a.delivered) c)).bind
          (jsSortThrowing (byDateDescItem k "delivery_date")) with
    | none => (c1, some "TypeError: Cannot read properties of null")
    | some delivered =>
      let c2 := { c1 with deliveredShipments := delivered }
      match c.letters.bind (fun l => l.attributes.letters) with
      | none => (c2, none)
      | some m =>
        match (filterThrowing (keepLetterItem k cutoff) (m.map Prod.snd)).bind
            (jsSortThrowing (byDateDescItem k "delivery_date")) with
        | none => (c2, some "TypeError: Cannot read properties of null")
        | some letters => ({ c2 with letterItems := letters }, none)

/-- Method `_formatDate(date)` of `main.js`. -/
def Main._formatDate (k : Clock) (f : Formatter) (c : Main.Card) (date : JsVal) :
    Except String String :=
  formatCalendar k f c.t c.dateFormat date

/-- Method `_formatTime(date)` of `main.js`. -/
def Main._formatTime (k : Clock) (f : Formatter) (c : Main.Card) (date : JsVal) : String :=
  formatClock k f c.timeFormat date

/-- Method `_renderShipmentRow(shipment, status)` of `main.js`; reading a
property of a `null` shipment throws. -/
def Main._renderShipmentRow (k : Clock) (f : Formatter) (c : Main.Card) (shipment : Item)
    (status : String) : Except String ShipmentRow :=
  match c.t, shipment with
  | none, _ => .error "TypeError: Cannot read properties of undefined"
  | some _, none => .error "TypeError: Cannot read properties of null"
  | some tr, some o =>
    (deliveryDateLabel k f c.t c.dateFormat c.timeFormat o).map fun deliveryDate =>
      { className := status
        icon := if status = "delivered" then "mdi:check-circle" else "mdi:truck"
        href := o.get "url"
        title := o.get "name"
        status := jsOr (o.get "status_message") (.str tr.unknown)
        deliveryDate := deliveryDate }

instance {ε α : Type} [DecidableEq ε] [DecidableEq α] : DecidableEq (Except ε α)
  | .ok a, .ok b =>
    if h : a = b then isTrue (by rw [h]) else isFalse (fun e => h (by cases e; rfl))
  | .error a, .error b =>
    if h : a = b then isTrue (by rw [h]) else isFalse (fun e => h (by cases e; rfl))
  | .ok _, .error _ => isFalse (fun e => by cases e)
  | .error _, .ok _ => isFalse (fun e => by cases e)

/-- A card with the texts of `en` and the default patterns, as after
`setConfig` of Scenario A. -/
def cardEn : Card := (setConfig Card.new (configA (some 1))).1

/-- A shipment with an expected instant but neither `delivery_date` nor
`planned_date`. -/
def shipmentExpectedOnly : Obj :=
  [("name", .str "parcel 9"), ("expected_datetime", .str "2024-03-11T12:00:00Z")]

/-- Scenario C: a shipment with only `planned_date`, `planned_from` and
`planned_to`. -/
def shipmentPlanned : Obj :=
  [("name", .str "parcel 10"), ("planned_date", .str "2024-03-11T12:00:00Z"),
   ("planned_from", .str "2024-03-11T12:00:00Z"), ("planned_to", .str "2024-03-11T12:00:00Z")]

/-- The source identifiers that a group configures. -/
def Group.ids : Group → List String
  | .absent => []
  | .single s => if s = "" then [] else [s]
  | .list ds => ds.map (fun d => d.entity)

/-- The source identifiers that a configuration names, over the three
groups. -/
def Config.ids (config : Config) : List String :=
  config.delivery.ids ++ config.distribution.ids ++ config.letters.ids

/-- A group given as a list of descriptors, or absent. -/
def Group.IsDescriptors : Group → Prop
  | .single _ => False
  | _ => True

/-- Scenario A with `language: de`, a language without texts. -/
def configGerman : Config :=
  { configA (some 1) with language := .str "de" }

/-- A tab that the card currently offers: `render` shows the card content and
the tab has a button. -/
def Offers (c : Card) (tab : Tab) : Prop :=
  ∃ tabs, render c = .ok (.content tabs) ∧ tab ∈ tabs.buttons

/-- The states reachable from a fresh card by `setConfig` calls that `allowed`
admits, snapshot updates (each at its own time) and selections of an offered
tab. -/
inductive Reachable (allowed : Card → Config → Prop) : Card → Prop where
  | start : Reachable allowed Card.new
  | configure (c : Card) (config : Config) :
      Reachable allowed c → allowed c config → Reachable allowed (setConfig c config).1
  | update (k : Clock) (c : Card) (hass : Hass) :
      Reachable allowed c → Reachable allowed (setHass k c hass).1
  | select (c : Card) (tab : Tab) :
      Reachable allowed c → Offers c tab → Reachable allowed (_selectTab c tab)

/-- Every `setConfig` call is admitted. -/
def anyConfig : Card → Config → Prop :=
  fun _ _ => True

/-- A `setConfig` call that is accepted while the Letters tab is active
configures at least one letter source. -/
def keepsLetters : Card → Config → Prop :=
  fun c config =>
    c.currentTab = .letters → (setConfig c config).2 = none → ¬ config.letters.AbsentOrEmpty

/-- The card of Scenario B once the Letters tab is selected. -/
def cardLettersTab : Card :=
  _selectTab (run configB hassB) .letters

/-- The card `cardLettersTab` after `setConfig` with the configuration of
`hassLate`, which has no letters group. -/
def cardStaleTab : Card :=
  (setConfig cardLettersTab configLate).1

/-- The card `cardStaleTab` after the next snapshot update. -/
def cardStaleTabShown : Card :=
  (setHass (utcClock sampleNow) cardStaleTab hassLate).1

/-- The invariant behind C16: the stored letter descriptors are those of the
stored configuration, letter sources are resolved only from them, and the
Letters tab is active only when there are some. -/
def TabInvariant (c : Card) : Prop :=
  (c.lettersConfigs = match c.config with
    | some config => config.letters.configs
    | none => []) ∧
  (c.letters ≠ [] → c.lettersConfigs ≠ []) ∧
  (c.currentTab = .letters → c.lettersConfigs ≠ [])

/-- A record with its `sender_name` property erased. -/
def eraseSender (o : Obj) : Obj :=
  o.filter (fun p => p.1 != "sender_name")

/-- The source list of `postnl-card.js` that corresponds to an optional
snapshot of `main.js`: at most one source, with display name `null`. -/
def asSources (s : Option Snapshot) : List Source :=
  match s with
  | some state => [{ state := state, name := .null }]
  | none => []

/-- An optional snapshot whose `enroute` and `delivered` lists hold no `null`
entry. -/
def noNullShipments (s : Option Snapshot) : Prop :=
  ∀ state, s = some state →
    (∀ x ∈ state.attributes.enroute.getD [], x ≠ none) ∧
    (∀ x ∈ state.attributes.delivered.getD [], x ≠ none)

/-- A delivery snapshot whose only enroute entry is `null`. -/
def snapshotNullEnroute : Snapshot :=
  { attributes := { enroute := some [none] } }

/-- The card of `postnl-card.js` that corresponds to a card of `main.js`: each
source list holds the snapshot of `main.js`, if any, with display name `null`,
and `pastDays` is the same. -/
def asCard (c : Card) (mc : Main.Card) : Card :=
  { c with
    delivery := asSources mc.delivery
    distribution := asSources mc.distribution
    letters := asSources mc.letters
    pastDays := mc.pastDays }

/-- A card of `main.js` with the delivery snapshot of Scenario A and the letters
snapshot of Scenario B. -/
def mainCardAB : Main.Card :=
  { Main.Card.new with
    delivery := some snapshotA
    letters := hassB.states.lookup "sensor.postnl_letters" }

/-! ## Arrays and records with identity

The functions above treat arrays and records as values. To state that the
aggregation does not mutate its inputs, `_updateData` is embedded a second
time over a heap: every array, mapping and record is a cell with an address,
an array holds the addresses of its elements, and each call of the JavaScript
array API either allocates a new cell (`map`, `concat`, `filter`,
`Object.values`, an array or object literal) or overwrites the cell of its
receiver (`sort`, `push`). -/

/-- A heap cell. An element of an array or a value of a mapping is the address
of a record, or `null` (`none`). -/
inductive Cell where
  | record (fields : Obj)
  | array (elems : List (Option Nat))
  | mapping (entries : List (String × Option Nat))
  deriving DecidableEq, Repr

/-- The heap: the cell at address `a` is the `a`-th element. -/
abbrev Heap := List Cell

/-- A new cell: the heap that holds it and its address. -/
def Heap.alloc (h : Heap) (c : Cell) : Heap × Nat :=
  (h ++ [c], h.length)

/-- The elements of the array at an address. -/
def Heap.elems (h : Heap) (a : Nat) : List (Option Nat) :=
  match h.get? a with
  | some (.array es) => es
  | _ => []

/-- The values of the mapping at an address, in property order. -/
def Heap.values (h : Heap) (a : Nat) : List (Option Nat) :=
  match h.get? a with
  | some (.mapping entries) => entries.map Prod.snd
  | _ => []

/-- The record that an element refers to; `none` for `null`. -/
def Heap.fields (h : Heap) (r : Option Nat) : Item :=
  match r with
  | none => none
  | some a =>
    match h.get? a with
    | some (.record o) => some o
    | _ => none

/-- The array at an address, as a list of items. -/
def Heap.items (h : Heap) (a : Nat) : List Item :=
  (h.elems a).map h.fields

/-- One round of `arr.map(x => ({...x, sender_name: name}))`: the object literal
allocates a record, whose address is added to the result. -/
def annotateStep (name : JsVal) (st : Heap × List (Option Nat)) (r : Option Nat) :
    Heap × List (Option Nat) :=
  (st.1 ++ [.record (annotate name (Heap.fields st.1 r))], st.2 ++ [some st.1.length])

/-- The call `arr.map(x => ({...x, sender_name: name}))`: new records and a new
array. -/
def Heap.mapAnnotate (h : Heap) (arr : Nat) (name : JsVal) : Heap × Nat :=
  Heap.alloc ((h.elems arr).foldl (annotateStep name) (h, [])).1
    (.array ((h.elems arr).foldl (annotateStep name) (h, [])).2)

/-- The call `a.concat(b)`: a new array. -/
def Heap.concat (h : Heap) (a b : Nat) : Heap × Nat :=
  h.alloc (.array (h.elems a ++ h.elems b))

/-- The call `Object.values(m)`: a new array. -/
def Heap.objectValues (h : Heap) (m : Nat) : Heap × Nat :=
  h.alloc (.array (h.values m))

/-- The call `arr.filter(p)` with a predicate that may throw: a new array, or
the heap as it is and `none` when `p` throws. -/
def Heap.filter (h : Heap) (arr : Nat) (p : Item → Option Bool) : Heap × Option Nat :=
  match filterThrowing (fun r => p (h.fields r)) (h.elems arr) with
  | some kept => ((h.alloc (.array kept)).1, some (h.alloc (.array kept)).2)
  | none => (h, none)

/-- The call `arr.sort(cmp)` with a comparator that may throw: the cell of `arr`
is overwritten with the sorted elements; `false` when `cmp` throws (the array
is then left as it was). -/
def Heap.sortInPlace (h : Heap) (arr : Nat) (cmp : Item → Item → Option (Option Int)) :
    Heap × Bool :=
  match jsSortThrowing (fun a b => cmp (h.fields a) (h.fields b)) (h.elems arr) with
  | some sorted => (h.set arr (.array sorted), true)
  | none => (h, false)

/-- The call `arr.push(...other)`: the cell of `arr` is overwritten. -/
def Heap.pushAll (h : Heap) (arr other : Nat) : Heap :=
  h.set arr (.array (h.elems arr ++ h.elems other))

/-- A resolved source of `postnl-card.js` whose arrays live in the heap: the
display name and the addresses of `attributes.enroute`, `attributes.delivered`
and `attributes.letters`, where present. -/
structure SourceRef where
  name : JsVal
  enroute : Option Nat
  delivered : Option Nat
  letters : Option Nat
  deriving DecidableEq, Repr

/-- The expression `list || []`: the array of the snapshot, or a new empty
array. -/
def Heap.orEmpty (h : Heap) (list : Option Nat) : Heap × Nat :=
  match list with
  | some a => (h, a)
  | none => h.alloc (.array [])

/-- The state of the shipment loops: the heap and the addresses of the
running arrays `enroute` and `delivered`. -/
structure ShipmentLoop where
  heap : Heap
  enroute : Nat
  delivered : Nat

/-- One round of the `forEach` over shipment sources, on the heap. -/
def addShipmentsRef (st : ShipmentLoop) (e : SourceRef) : ShipmentLoop :=
  let e1 := st.heap.orEmpty e.enroute
  let e2 := e1.1.mapAnnotate e1.2 e.name
  let d1 := e2.1.orEmpty e.delivered
  let d2 := d1.1.mapAnnotate d1.2 e.name
  let en := d2.1.concat st.enroute e2.2
  let de := en.1.concat st.delivered d2.2
  { heap := de.1, enroute := en.2, delivered := de.2 }

/-- The state of the letters loop: the heap, the address of `this.letterItems`
and whether a `TypeError` ended the loop. -/
structure LettersLoop where
  heap : Heap
  letterItems : Nat
  thrown : Bool

/-- One round of the `forEach` over letter sources, on the heap. -/
def addLettersRef (k : Clock) (cutoff : Int) (st : LettersLoop) (e : SourceRef) : LettersLoop :=
  if st.thrown then st
  else
    match e.letters with
    | none => st
    | some m =>
      let values := st.heap.objectValues m
      match (values.1.filter values.2 (keepLetterItem k cutoff)) with
      | (h1, none) => { st with heap := h1, thrown := true }
      | (h1, some kept) =>
        let mapped := h1.mapAnnotate kept e.name
        let joined := mapped.1.concat st.letterItems mapped.2
        { heap := joined.1, letterItems := joined.2, thrown := false }

/-- The result of `_updateData` on the heap: the final heap, the addresses held
by `this.enrouteShipments`, `this.deliveredShipments` and `this.letterItems`,
and whether a `TypeError` was raised. -/
structure HeapRun where
  heap : Heap
  enrouteShipments : Nat
  deliveredShipments : Nat
  letterItems : Nat
  thrown : Bool

/-- The statements of `_updateData()` of `postnl-card.js` after the two shipment
loops, on the heap: `f1`, `f2` and `f3` are the addresses of the empty arrays
that the three fields received at the start. -/
def finishOnHeap (k : Clock) (cutoff : Int) (f1 f2 f3 : Nat) (loop : ShipmentLoop)
    (letters : List SourceRef) : HeapRun :=
  let s1 := loop.heap.sortInPlace loop.enroute (byDateDescItem k "planned_date")
  if s1.2 = false then
    { heap := s1.1, enrouteShipments := f1, deliveredShipments := f2, letterItems := f3,
      thrown := true }
  else
    match s1.1.filter loop.delivered (keepDeliveredItem k cutoff) with
    | (h2, none) =>
      { heap := h2, enrouteShipments := loop.enroute, deliveredShipments := f2,
        letterItems := f3, thrown := true }
    | (h2, some kept) =>
      let s2 := h2.sortInPlace kept (byDateDescItem k "delivery_date")
      if s2.2 = false then
        { heap := s2.1, enrouteShipments := loop.enroute, deliveredShipments := f2,
          letterItems := f3, thrown := true }
      else
        let ll := letters.foldl (addLettersRef k cutoff)
          { heap := s2.1, letterItems := f3, thrown := false }
        if ll.thrown then
          { heap := ll.heap, enrouteShipments := loop.enroute, deliveredShipments := kept,
            letterItems := ll.letterItems, thrown := true }
        else
          let s3 := ll.heap.sortInPlace ll.letterItems (byDateDescItem k "delivery_date")
          { heap := s3.1, enrouteShipments := loop.enroute, deliveredShipments := kept,
            letterItems := ll.letterItems, thrown := (s3.2 = false) }

/-- Method `_updateData()` of `postnl-card.js` on the heap `h`, for sources whose
arrays and mappings live in `h`: the three fields and the two local arrays
start as new empty arrays, the shipment loops run, and `finishOnHeap` does the
rest. -/
def updateDataOnHeap (k : Clock) (h : Heap) (delivery distribution letters : List SourceRef)
    (pastDays : Int) : HeapRun :=
  let f1 := h.alloc (.array [])
  let f2 := f1.1.alloc (.array [])
  let f3 := f2.1.alloc (.array [])
  let en0 := f3.1.alloc (.array [])
  let de0 := en0.1.alloc (.array [])
  finishOnHeap k (pastDate k pastDays) f1.2 f2.2 f3.2
    (distribution.foldl addShipmentsRef
      (delivery.foldl addShipmentsRef { heap := de0.1, enroute := en0.2, delivered := de0.2 }))
    letters

/-- The two `push` calls of `main.js` for one of its shipment sources, if the
source is there. -/
def Main.pushShipments (h : Heap) (enroute delivered : Nat) (source : Option SourceRef) : Heap :=
  match source with
  | none => h
  | some s =>
    let e := h.orEmpty s.enroute
    let d := e.1.orEmpty s.delivered
    (d.1.pushAll enroute e.2).pushAll delivered d.2

/-- The statements of `_updateData()` of `main.js` after the `push` blocks, on
the heap `pushed`: `enroute` and `delivered` are the addresses of the two local
arrays. -/
def Main.finishOnHeap (k : Clock) (cutoff : Int) (f1 f2 f3 : Nat) (pushed : Heap)
    (enroute delivered : Nat) (letters : Option SourceRef) : HeapRun :=
  let s1 := pushed.sortInPlace enroute (byDateDescItem k "planned_date")
  if s1.2 = false then
    { heap := s1.1, enrouteShipments := f1, deliveredShipments := f2, letterItems := f3,
      thrown := true }
  else
    match s1.1.filter delivered (keepDeliveredItem k cutoff) with
    | (h2, none) =>
      { heap := h2, enrouteShipments := enroute, deliveredShipments := f2,
        letterItems := f3, thrown := true }
    | (h2, some kept) =>
      let s2 := h2.sortInPlace kept (byDateDescItem k "delivery_date")
      if s2.2 = false then
        { heap := s2.1, enrouteShipments := enroute, deliveredShipments := f2,
          letterItems := f3, thrown := true }
      else
        match letters.bind (fun l => l.letters) with
        | none =>
          { heap := s2.1, enrouteShipments := enroute, deliveredShipments := kept,
            letterItems := f3, thrown := false }
        | some m =>
          let values := s2.1.objectValues m
          match values.1.filter values.2 (keepLetterItem k cutoff) with
          | (h3, none) =>
            { heap := h3, enrouteShipments := enroute, deliveredShipments := kept,
              letterItems := f3, thrown := true }
          | (h3, some keptLetters) =>
            let s3 := h3.sortInPlace keptLetters (byDateDescItem k "delivery_date")
            if s3.2 = false then
              { heap := s3.1, enrouteShipments := enroute, deliveredShipments := kept,
                letterItems := f3, thrown := true }
            else
              { heap := s3.1, enrouteShipments := enroute, deliveredShipments := kept,
                letterItems := keptLetters, thrown := false }

/-- Method `_updateData()` of `main.js` on the heap `h`, for snapshots whose
arrays and mappings live in `h`. -/
def Main.updateDataOnHeap (k : Clock) (h : Heap) (delivery distribution letters : Option SourceRef)
    (pastDays : Int) : HeapRun :=
  let f1 := h.alloc (.array [])
  let f2 := f1.1.alloc (.array [])
  let f3 := f2.1.alloc (.array [])
  let en0 := f3.1.alloc (.array [])
  let de0 := en0.1.alloc (.array [])
  Main.finishOnHeap k (pastDate k pastDays) f1.2 f2.2 f3.2
    (Main.pushShipments (Main.pushShipments de0.1 en0.2 de0.2 delivery) en0.2 de0.2 distribution)
    en0.2 de0.2 letters

/-- The value of a source whose arrays live in the heap: the snapshot that the
functions on values receive. -/
def SourceRef.toSource (h : Heap) (e : SourceRef) : Source :=
  { state :=
    { attributes :=
      { enroute := e.enroute.map h.items
        delivered := e.delivered.map h.items
        letters := e.letters.map (fun m =>
          match h.get? m with
          | some (.mapping entries) => entries.map (fun p => (p.1, h.fields p.2))
          | _ => []) } }
    name := e.name }

/-- A heap with the records, arrays and mapping of two sources: a delivery
source with one enroute parcel and a delivered list that holds a parcel of
yesterday, `null` and a parcel without date, and a letters source with the
letters of Scenario B. -/
def sampleHeap : Heap :=
  [.record [("name", .str "parcel 1"), ("planned_date", .str "2024-03-11T12:00:00Z")],
   .record [("name", .str "parcel 2"), ("delivery_date", .str "2024-03-09T12:00:00Z")],
   .record [("name", .str "parcel 5")],
   .array [some 0],
   .array [some 1, none, some 2],
   .record [("id", .str "101"), ("delivery_date", .str "2024-03-09T12:00:00Z")],
   .record [("id", .str "102"), ("delivery_date", .str "2024-03-05T12:00:00Z")],
   .record [("id", .str "103"), ("delivery_date", .str "2024-03-10T12:00:00Z")],
   .mapping [("101", some 5), ("102", some 6), ("103", some 7)]]

/-- The delivery source of `sampleHeap`. -/
def sampleDelivery : SourceRef :=
  { name := .str "Home", enroute := some 3, delivered := some 4, letters := none }

/-- The letters source of `sampleHeap`. -/
def sampleLetters : SourceRef :=
  { name := .null, enroute := none, delivered := none, letters := some 8 }

/-! ## The snapshot table as a plain object

`hass.states` is a plain object. The property read `states[key]` gives the
snapshot stored under `key`; for a name that the table does not hold itself it
gives the property of that name inherited from `Object.prototype`, if there is
one. The inherited values are functions (for `__proto__`, the prototype
object): truthy values that have no property `attributes`. In this section
`_updateEntities` is embedded with that property read. -/

/-- The names of the properties of `Object.prototype`. -/
def objectPrototypeKeys : List String :=
  ["constructor", "__defineGetter__", "__defineSetter__", "hasOwnProperty",
   "__lookupGetter__", "__lookupSetter__", "isPrototypeOf", "propertyIsEnumerable",
   "toString", "valueOf", "__proto__", "toLocaleString"]

/-- A value of the property read `states[key]` other than `undefined`: a
snapshot of the table, or the property of `Object.prototype` with that name. -/
inductive PlainObject.StateValue where
  | snapshot (state : Snapshot)
  | inherited (key : String)
  deriving DecidableEq, Repr

/-- Property read `this._hass.states[key]`; `none` for `undefined`. -/
def PlainObject.read (hass : Hass) (key : String) : Option PlainObject.StateValue :=
  match hass.states.lookup key with
  | some state => some (.snapshot state)
  | none => if key ∈ objectPrototypeKeys then some (.inherited key) else none

/-- An object `{state, name}` made by `_updateEntities`, whatever `state` is. -/
structure PlainObject.Pair where
  state : PlainObject.StateValue
  name : JsVal
  deriving DecidableEq, Repr

/-- The callback of `map` in `_updateEntities`. The guard `if (!state)` lets
every truthy value pass; `config.name || state.attributes.name || null` then
reads `state.attributes.name` unless `config.name` is truthy, and throws when
`state.attributes` is `undefined`. -/
def PlainObject.resolve (hass : Hass) (x : ConfigItem) :
    Except String (Option PlainObject.Pair) :=
  match PlainObject.read hass (propertyKey x.entity) with
  | none => .ok none
  | some (.snapshot state) =>
    .ok (some { state := .snapshot state, name := jsOr x.name (jsOr state.attributes.name .null) })
  | some (.inherited key) =>
    if truthy x.name then .ok (some { state := .inherited key, name := x.name })
    else .error "TypeError: Cannot read properties of undefined"

/-- The call `configs.map(callback)`: the first exception of the callback ends
it. -/
def PlainObject.mapResolve (hass : Hass) :
    List ConfigItem → Except String (List (Option PlainObject.Pair))
  | [] => .ok []
  | x :: xs =>
    match PlainObject.resolve hass x with
    | .error e => .error e
    | .ok p =>
      match PlainObject.mapResolve hass xs with
      | .error e => .error e
      | .ok ps => .ok (p :: ps)

/-- One group of `_updateEntities`: `configs.map(...).filter(Boolean)`. -/
def PlainObject.resolveAll (hass : Hass) (configs : List ConfigItem) :
    Except String (List PlainObject.Pair) :=
  match PlainObject.mapResolve hass configs with
  | .error e => .error e
  | .ok ps => .ok (filterBoolean ps)

/-- The fields of the card that `_updateEntities` reads and writes. -/
structure PlainObject.Card where
  hass : Option Hass
  deliveryConfigs : List ConfigItem
  distributionConfigs : List ConfigItem
  lettersConfigs : List ConfigItem
  delivery : List PlainObject.Pair
  distribution : List PlainObject.Pair
  letters : List PlainObject.Pair
  deriving DecidableEq, Repr

/-- Method `_updateEntities()` of `postnl-card.js`: the three groups are
resolved and assigned one after the other, and an exception leaves the fields
assigned so far. -/
def PlainObject._updateEntities (c : PlainObject.Card) : PlainObject.Card × Option String :=
  match c.hass with
  | none => (c, none)
  | some hass =>
    match PlainObject.resolveAll hass c.deliveryConfigs with
    | .error e => (c, some e)
    | .ok delivery =>
      match PlainObject.resolveAll hass c.distributionConfigs with
      | .error e => ({ c with delivery := delivery }, some e)
      | .ok distribution =>
        match PlainObject.resolveAll hass c.lettersConfigs with
        | .error e => ({ c with delivery := delivery, distribution := distribution }, some e)
        | .ok letters =>
          ({ c with delivery := delivery, distribution := distribution, letters := letters },
            none)

/-- A resolved source as a pair of this section. -/
def Source.toPair (e : Source) : PlainObject.Pair :=
  { state := .snapshot e.state, name := e.name }

/-- The fields of a card that `_updateEntities` reads and writes. -/
def PlainObject.ofCard (c : PostNL.Card) : PlainObject.Card :=
  { hass := c.hass
    deliveryConfigs := c.deliveryConfigs
    distributionConfigs := c.distributionConfigs
    lettersConfigs := c.lettersConfigs
    delivery := c.delivery.map Source.toPair
    distribution := c.distribution.map Source.toPair
    letters := c.letters.map Source.toPair }

/-- A key that the table answers by its own keys: it holds a snapshot under the
key, or the key is not the name of an inherited property. -/
def PlainObject.ReadsOwn (hass : Hass) (key : String) : Prop :=
  hass.states.lookup key = none → key ∉ objectPrototypeKeys

/-- The fields of a card after `setConfig` with the given delivery descriptors,
once `this._hass` is the table of Scenario A. -/
def PlainObject.cardA (delivery : List Descriptor) : PlainObject.Card :=
  PlainObject.ofCard
    { (setConfig PostNL.Card.new { delivery := .list delivery }).1 with hass := some hassA }

/-- A descriptor whose entity id is the name `constructor`, followed by the
first source of Scenario A. -/
def descriptorsInherited : List Descriptor :=
  [{ entity := "constructor" }, { entity := "sensor.postnl_delivery" }]

/-- A descriptor with a name whose entity id is the name `constructor`. -/
def descriptorsInheritedNamed : List Descriptor :=
  [{ entity := "constructor", name := .str "Parcels" }]

/-! ## Lemmas on objects -/

theorem lookup_cons_eq (a pk : String) (pv : JsVal) (o : Obj) (h : (a == pk) = true) :
    List.lookup a ((pk, pv) :: o) = some pv := by
  simp only [List.lookup, h]

theorem lookup_cons_ne (a pk : String) (pv : JsVal) (o : Obj) (h : (a == pk) = false) :
    List.lookup a ((pk, pv) :: o) = List.lookup a o := by
  simp only [List.lookup, h]

theorem beq_false_symm {a b : String} (h : ¬ a = b) : (b == a) = false := by
  simpa [beq_eq_false_iff_ne] using fun e => h e.symm

theorem beq_false_of_ne {a b : String} (h : ¬ a = b) : (a == b) = false := by
  simpa [beq_eq_false_iff_ne] using h

theorem lookup_replace_same (key : String) (v : JsVal) :
    ∀ o : Obj, (o.any fun p => p.1 == key) = true →
      List.lookup key (o.map fun p => if p.1 == key then (key, v) else p) = some v
  | [], h => by simp at h
  | (pk, pv) :: o, h => by
    by_cases hp : pk = key
    · subst hp
      simp only [List.map_cons, beq_self_eq_true, if_true]
      exact lookup_cons_eq _ _ _ _ (by simp)
    · have hpk : (pk == key) = false := beq_false_of_ne hp
      have h2 : (o.any fun p => p.1 == key) = true := by
        simpa [List.any_cons, hpk] using h
      simp only [List.map_cons, hpk]
      rw [if_neg (by simp), lookup_cons_ne _ _ _ _ (beq_false_symm hp)]
      exact lookup_replace_same key v o h2

theorem lookup_append_same (key : String) (v : JsVal) :
    ∀ o : Obj, (o.any fun p => p.1 == key) = false →
      List.lookup key (o ++ [(key, v)]) = some v
  | [], _ => lookup_cons_eq _ _ _ _ (by simp)
  | (pk, pv) :: o, h => by
    simp only [List.any_cons, Bool.or_eq_false_iff] at h
    have hp : ¬ pk = key := by simpa [beq_eq_false_iff_ne] using h.1
    rw [List.cons_append, lookup_cons_ne _ _ _ _ (beq_false_symm hp)]
    exact lookup_append_same key v o h.2

theorem lookup_replace_other (key other : String) (v : JsVal) (hne : other ≠ key) :
    ∀ o : Obj, List.lookup other (o.map fun p => if p.1 == key then (key, v) else p)
      = List.lookup other o
  | [] => rfl
  | (pk, pv) :: o => by
    have h1 : (other == key) = false := beq_false_of_ne hne
    by_cases hp : pk = key
    · subst hp
      simp only [List.map_cons, beq_self_eq_true, if_true]
      rw [lookup_cons_ne _ _ _ _ h1, lookup_cons_ne _ _ _ _ h1]
      exact lookup_replace_other pk other v hne o
    · have hpk : (pk == key) = false := beq_false_of_ne hp
      simp only [List.map_cons, hpk]
      rw [if_neg (by simp)]
      by_cases ho : (other == pk) = true
      · rw [lookup_cons_eq _ _ _ _ ho, lookup_cons_eq _ _ _ _ ho]
      · have ho2 : (other == pk) = false := by simpa using ho
        rw [lookup_cons_ne _ _ _ _ ho2, lookup_cons_ne _ _ _ _ ho2]
        exact lookup_replace_other key other v hne o

theorem lookup_append_other (key other : String) (v : JsVal) (hne : other ≠ key) :
    ∀ o : Obj, List.lookup other (o ++ [(key, v)]) = List.lookup other o
  | [] => by
    rw [List.nil_append, lookup_cons_ne _ _ _ _ (beq_false_of_ne hne)]
  | (pk, pv) :: o => by
    rw [List.cons_append]
    by_cases ho : (other == pk) = true
    · rw [lookup_cons_eq _ _ _ _ ho, lookup_cons_eq _ _ _ _ ho]
    · have ho2 : (other == pk) = false := by simpa using ho
      rw [lookup_cons_ne _ _ _ _ ho2, lookup_cons_ne _ _ _ _ ho2]
      exact lookup_append_other key other v hne o

theorem Obj.get_set_same (o : Obj) (key : String) (v : JsVal) : (o.set key v).get key = v := by
  unfold Obj.set Obj.get
  by_cases h : (o.any fun p => p.1 == key) = true
  · rw [if_pos h, lookup_replace_same key v o h]
  · rw [if_neg h, lookup_append_same key v o (Bool.eq_false_iff.mpr h)]

theorem Obj.get_set_other (o : Obj) (key other : String) (v : JsVal) (hne : other ≠ key) :
    (o.set key v).get other = o.get other := by
  unfold Obj.set Obj.get
  by_cases h : (o.any fun p => p.1 == key) = true
  · rw [if_pos h, lookup_replace_other key other v hne o]
  · rw [if_neg h, lookup_append_other key other v hne o]

/-! ## Lemmas on sorting and on the shipment loops -/

theorem sortInsert_perm {α : Type} (cmp : α → α → Option Int) (a : α) :
    ∀ l : List α, (sortInsert cmp a l).Perm (a :: l)
  | [] => List.Perm.refl _
  | b :: l => by
    unfold sortInsert
    split
    · exact ((sortInsert_perm cmp a l).cons b).trans (List.Perm.swap a b l)
    · exact List.Perm.refl _

theorem jsSort_perm {α : Type} (cmp : α → α → Option Int) :
    ∀ l : List α, (jsSort cmp l).Perm l
  | [] => List.Perm.refl _
  | a :: l => (sortInsert_perm cmp a (jsSort cmp l)).trans ((jsSort_perm cmp l).cons a)

theorem mem_jsSort {α : Type} (cmp : α → α → Option Int) (l : List α) (x : α) :
    x ∈ jsSort cmp l ↔ x ∈ l :=
  (jsSort_perm cmp l).mem_iff

theorem sortInsert_pairwise {α : Type} (t : α → Int) (cmp : α → α → Option Int) (a : α) :
    ∀ l : List α, (∀ b ∈ l, cmp a b = some (t b - t a)) →
      l.Pairwise (fun x y => t y ≤ t x) →
      (sortInsert cmp a l).Pairwise (fun x y => t y ≤ t x)
  | [], _, _ => List.pairwise_singleton _ _
  | b :: l, h, hs => by
    have hb : cmp a b = some (t b - t a) := h b (List.mem_cons_self b l)
    have hl : ∀ x ∈ l, t x ≤ t b := (List.pairwise_cons.mp hs).1
    unfold sortInsert
    by_cases hlt : t a < t b
    · have hp : placesAfter (cmp a b) = true := by
        rw [hb]; simp only [placesAfter, decide_eq_true_eq]; omega
      rw [if_pos hp]
      refine List.pairwise_cons.mpr ⟨?_, ?_⟩
      · intro x hx
        rcases List.mem_cons.mp ((sortInsert_perm cmp a l).mem_iff.mp hx) with rfl | hx
        · exact le_of_lt hlt
        · exact hl x hx
      · exact sortInsert_pairwise t cmp a l
          (fun x hx => h x (List.mem_cons_of_mem b hx)) (List.pairwise_cons.mp hs).2
    · have hp : ¬ placesAfter (cmp a b) = true := by
        rw [hb]; simp only [placesAfter, decide_eq_true_eq]; omega
      rw [if_neg hp]
      refine List.pairwise_cons.mpr ⟨?_, hs⟩
      intro x hx
      rcases List.mem_cons.mp hx with rfl | hx
      · omega
      · have := hl x hx
        omega

theorem jsSort_pairwise {α : Type} (t : α → Int) (cmp : α → α → Option Int) :
    ∀ l : List α, (∀ a ∈ l, ∀ b ∈ l, cmp a b = some (t b - t a)) →
      (jsSort cmp l).Pairwise (fun x y => t y ≤ t x)
  | [], _ => List.Pairwise.nil
  | a :: l, h => by
    unfold jsSort
    apply sortInsert_pairwise
    · intro b hb
      exact h a (List.mem_cons_self a l) b
        (List.mem_cons_of_mem a ((mem_jsSort cmp l b).mp hb))
    · exact jsSort_pairwise t cmp l
        (fun x hx y hy => h x (List.mem_cons_of_mem a hx) y (List.mem_cons_of_mem a hy))

theorem foldl_addShipments (srcs : List Source) :
    ∀ acc : List Obj × List Obj, srcs.foldl addShipments acc =
      (acc.1 ++ srcs.flatMap annotatedEnroute, acc.2 ++ srcs.flatMap annotatedDelivered) := by
  induction srcs with
  | nil => intro acc; simp
  | cons e srcs ih =>
    intro acc
    rw [List.foldl_cons, ih]
    simp only [addShipments, annotatedEnroute, annotatedDelivered, List.flatMap_cons,
      List.append_assoc]
    rfl

/-- The running `enroute` and `delivered` arrays after both `forEach` loops. -/
theorem collected_shipments (delivery distribution : List Source) :
    distribution.foldl addShipments (delivery.foldl addShipments ([], [])) =
      ((delivery ++ distribution).flatMap annotatedEnroute,
       (delivery ++ distribution).flatMap annotatedDelivered) := by
  rw [foldl_addShipments, foldl_addShipments]
  simp [List.flatMap_append]

theorem updateData_enroute (k : Clock) (c : Card) :
    (_updateData k c).1.enrouteShipments =
      jsSort (byDateDesc k "planned_date") ((c.delivery ++ c.distribution).flatMap annotatedEnroute) := by
  unfold _updateData
  simp only [collected_shipments]
  split <;> rfl

theorem updateData_delivered (k : Clock) (c : Card) :
    (_updateData k c).1.deliveredShipments =
      jsSort (byDateDesc k "delivery_date")
        (((c.delivery ++ c.distribution).flatMap annotatedDelivered).filter
          (keepDelivered k (pastDate k c.pastDays))) := by
  unfold _updateData
  simp only [collected_shipments]
  split <;> rfl

/-! ## Delivered and enroute collections -/

theorem keepDelivered_iff (k : Clock) (cutoff : Int) (o : Obj) :
    keepDelivered k cutoff o = true ↔ DatedSince k "delivery_date" cutoff o := by
  unfold keepDelivered DatedSince isSameOrAfter
  cases h : moment k (o.get "delivery_date") with
  | none => simp
  | some t => simp

theorem byDateDesc_of_valid (k : Clock) (field : String) (a b : Obj)
    (ha : (moment k (a.get field)).isSome = true) (hb : (moment k (b.get field)).isSome = true) :
    byDateDesc k field a b = some (instantOf k field b - instantOf k field a) := by
  unfold byDateDesc instantOf diff
  cases h1 : moment k (a.get field) with
  | none => rw [h1] at ha; simp at ha
  | some x =>
    cases h2 : moment k (b.get field) with
    | none => rw [h2] at hb; simp at hb
    | some y => rfl

theorem descBy_of_le (k : Clock) (field : String) (a b : Obj)
    (ta : truthy (a.get field) = true) (tb : truthy (b.get field) = true)
    (ha : (moment k (a.get field)).isSome = true) (hb : (moment k (b.get field)).isSome = true)
    (hle : instantOf k field b ≤ instantOf k field a) : DescBy k field a b := by
  unfold instantOf at hle
  cases h1 : moment k (a.get field) with
  | none => rw [h1] at ha; simp at ha
  | some x =>
    cases h2 : moment k (b.get field) with
    | none => rw [h2] at hb; simp at hb
    | some y =>
      rw [h1, h2] at hle
      exact ⟨ta, tb, x, y, h1 ▸ rfl, h2 ▸ rfl, by simpa using hle⟩

theorem DatedSince.valid {k : Clock} {field : String} {cutoff : Int} {o : Obj}
    (h : DatedSince k field cutoff o) : (moment k (o.get field)).isSome = true := by
  obtain ⟨_, t, ht, _⟩ := h
  rw [ht]; rfl

theorem mem_delivered_iff (k : Clock) (c : Card) (o : Obj) :
    o ∈ (_updateData k c).1.deliveredShipments ↔
      o ∈ (c.delivery ++ c.distribution).flatMap annotatedDelivered ∧
        DatedSince k "delivery_date" (pastDate k c.pastDays) o := by
  rw [updateData_delivered, mem_jsSort, List.mem_filter, keepDelivered_iff]

/-- C1: for every card state (resolved delivery and distribution sources,
`pastDays`) and every clock, the delivered collection produced by `_updateData`
consists of exactly the annotated entries of the sources' `delivered` lists whose
`delivery_date` is present and at or after `startOfDay(now - pastDays days)`:
it is a rearrangement of those entries, so none is left out and no other record
is in it. -/
theorem delivered_is_exactly_the_window (k : Clock) (c : Card) :
    (_updateData k c).1.deliveredShipments.Perm
      (((c.delivery ++ c.distribution).flatMap annotatedDelivered).filter (fun o =>
        decide (DatedSince k "delivery_date" (k.startOfDay (k.subtractDays k.now c.pastDays)) o))) ∧
    (∀ o, o ∈ (_updateData k c).1.deliveredShipments ↔
        o ∈ (c.delivery ++ c.distribution).flatMap annotatedDelivered ∧
          DatedSince k "delivery_date" (k.startOfDay (k.subtractDays k.now c.pastDays)) o) := by
  rw [updateData_delivered]
  constructor
  · have hf : ((c.delivery ++ c.distribution).flatMap annotatedDelivered).filter
          (keepDelivered k (pastDate k c.pastDays)) =
        ((c.delivery ++ c.distribution).flatMap annotatedDelivered).filter (fun o =>
          decide (DatedSince k "delivery_date" (pastDate k c.pastDays) o)) :=
      List.filter_congr (fun o _ => by
        rw [Bool.eq_iff_iff, keepDelivered_iff, decide_eq_true_iff])
    rw [hf]
    exact jsSort_perm _ _
  · intro o
    rw [← updateData_delivered]
    exact mem_delivered_iff k c o

/-- A number past the range of a `Date` is no date: `moment` of it is invalid,
and a delivered parcel with such a `delivery_date` is not in the delivered
collection, although the number is larger than the cutoff. -/
theorem out_of_range_date_is_dropped :
    moment (utcClock sampleNow) (.num 8640000000000001) = none ∧
    moment (utcClock sampleNow) (.num 8640000000000000) = some 8640000000000000 ∧
    moment (utcClock sampleNow) (.num (-8640000000000001)) = none ∧
    (run configLate hassOutOfRange).deliveredShipments =
      [[("name", .str "parcel 12"), ("delivery_date", .num 1709985600000),
        ("sender_name", .null)]] := by
  decide

/-- C2: the delivered collection produced by `_updateData` is sorted
non-increasing by `delivery_date`: any entry and any later entry, and so any two
adjacent entries, carry valid delivery dates of which the first is not earlier
than the second. -/
theorem delivered_sorted_descending (k : Clock) (c : Card) :
    (_updateData k c).1.deliveredShipments.Pairwise (DescBy k "delivery_date") ∧
    (_updateData k c).1.deliveredShipments.Chain' (DescBy k "delivery_date") := by
  have hmem : ∀ o ∈ (_updateData k c).1.deliveredShipments,
      DatedSince k "delivery_date" (pastDate k c.pastDays) o :=
    fun o ho => ((mem_delivered_iff k c o).mp ho).2
  have hp : (_updateData k c).1.deliveredShipments.Pairwise (DescBy k "delivery_date") := by
    have hs := jsSort_pairwise (instantOf k "delivery_date") (byDateDesc k "delivery_date")
      (((c.delivery ++ c.distribution).flatMap annotatedDelivered).filter
        (keepDelivered k (pastDate k c.pastDays)))
      (fun a ha b hb => byDateDesc_of_valid k _ a b
        ((keepDelivered_iff k _ a).mp (List.mem_filter.mp ha).2).valid
        ((keepDelivered_iff k _ b).mp (List.mem_filter.mp hb).2).valid)
    rw [← updateData_delivered] at hs
    exact hs.imp_of_mem (fun {a b} ha hb hle =>
      descBy_of_le k _ a b (hmem a ha).1 (hmem b hb).1 (hmem a ha).valid (hmem b hb).valid hle)
  exact ⟨hp, hp.chain'⟩

theorem sender_name_annotatedEnroute (e : Source) :
    ∀ o ∈ annotatedEnroute e, o.get "sender_name" = e.name := by
  intro o ho
  obtain ⟨x, _, rfl⟩ := List.mem_map.mp ho
  exact Obj.get_set_same _ _ _

/-- C7: the enroute collection produced by `_updateData` is a rearrangement of
the concatenation, over the delivery and distribution sources, of each
source's `enroute` list (absent = empty) with `sender_name` set to the source's
display name: nothing is dropped by the time window, nothing is added, and the
`sender_name` of every element is the display name of its source. -/
theorem enroute_is_all_entries_annotated (k : Clock) (c : Card) :
    (_updateData k c).1.enrouteShipments.Perm
        ((c.delivery ++ c.distribution).flatMap annotatedEnroute) ∧
    (_updateData k c).1.enrouteShipments.length =
        ((c.delivery ++ c.distribution).map
          (fun e => (e.state.attributes.enroute.getD []).length)).sum ∧
    (∀ o ∈ (_updateData k c).1.enrouteShipments, ∃ e ∈ c.delivery ++ c.distribution,
        o ∈ annotatedEnroute e ∧ o.get "sender_name" = e.name) := by
  rw [updateData_enroute]
  refine ⟨jsSort_perm _ _, ?_, ?_⟩
  · rw [(jsSort_perm _ _).length_eq]
    induction (c.delivery ++ c.distribution) with
    | nil => rfl
    | cons e l ih => simp [List.flatMap_cons, ih, annotatedEnroute]
  · intro o ho
    rw [mem_jsSort] at ho
    obtain ⟨e, he, hoe⟩ := List.mem_flatMap.mp ho
    exact ⟨e, he, hoe, sender_name_annotatedEnroute e o hoe⟩

/-! ## The window size and undated letters -/

/-- C3: evaluation at the failing input `past_days: 0` of Scenario A.
`setConfig` stores `pastDays = 1` for `past_days: 0` (the expression
`config.past_days || 1`), the cutoff of the following aggregation is the start
of yesterday instead of the start of today, and the parcel delivered yesterday
is kept, exactly as for `past_days: 1`. The first part holds for every card and
every accepted configuration with `past_days: 0`. -/
theorem past_days_zero_is_read_as_one :
    (∀ (c : Card) (config : Config), config.past_days = some 0 →
      (setConfig c config).2 = none → (setConfig c config).1.pastDays = 1) ∧
    (setConfig Card.new (configA (some 0))).1.pastDays = 1 ∧
    pastDate (utcClock sampleNow) (run (configA (some 0)) hassA).pastDays
      = sampleNow - 86400000 - (sampleNow - 86400000) % 86400000 ∧
    (run (configA (some 0)) hassA).deliveredShipments =
      [[("name", .str "parcel 2"), ("delivery_date", .str "2024-03-09T12:00:00Z"),
        ("sender_name", .null)]] ∧
    (run (configA (some 0)) hassA).deliveredShipments =
      (run (configA (some 1)) hassA).deliveredShipments := by
  refine ⟨?_, by decide, by decide, by decide, by decide⟩
  intro c config h0 hret
  unfold setConfig at hret ⊢
  split
  · rename_i h
    rw [if_pos h] at hret
    cases hret
  · simp [pastDaysOf, h0]

/-- C4: evaluation at the failing input, a letter without `delivery_date`.
The letter is kept in the letters collection and nothing is raised
(`moment(undefined)` is the current instant, which is after the cutoff), while
the delivered parcel without `delivery_date` of the same run is dropped by the
guard `shipment.delivery_date &&` that the letters filter lacks. -/
theorem undated_letter_is_kept :
    (setHass (utcClock sampleNow) (setConfig Card.new configUndated).1 hassUndated).2 = none ∧
    (run configUndated hassUndated).letterItems =
      [[("id", .str "7"), ("status_message", .str "scanned"), ("sender_name", .null)]] ∧
    (run configUndated hassUndated).deliveredShipments = [] := by
  decide

/-! ## The letters collection -/

theorem filterLetters_of_objects (k : Clock) (cutoff : Int) :
    ∀ xs : List Item, (∀ x ∈ xs, x ≠ none) →
      filterLetters k cutoff xs = some ((xs.filterMap id).filter
        (fun o => isSameOrAfter (moment k (o.get "delivery_date")) cutoff))
  | [], _ => rfl
  | none :: xs, h => absurd rfl (h none (List.mem_cons_self _ _))
  | some o :: xs, h => by
    have ih := filterLetters_of_objects k cutoff xs
      (fun x hx => h x (List.mem_cons_of_mem _ hx))
    simp only [filterLetters, keepLetter, ih, List.filterMap_cons, id, List.filter_cons]

theorem lettersLoop_of_objects (k : Clock) (cutoff : Int) :
    ∀ (srcs : List Source) (acc : List Obj),
      (∀ e ∈ srcs, ∀ p ∈ e.state.attributes.letters.getD [], p.2 ≠ none) →
      lettersLoop k cutoff srcs acc = (acc ++ srcs.flatMap (keptLetters k cutoff), none)
  | [], acc, _ => by simp [lettersLoop]
  | e :: rest, acc, h => by
    have ih := fun acc2 => lettersLoop_of_objects k cutoff rest acc2
      (fun e2 he2 => h e2 (List.mem_cons_of_mem _ he2))
    have he := h e (List.mem_cons_self _ _)
    unfold lettersLoop
    cases hl : e.state.attributes.letters with
    | none =>
      simp only [ih, List.flatMap_cons, keptLetters, hl]
      simp
    | some m =>
      have hm : ∀ x ∈ m.map Prod.snd, x ≠ none := by
        intro x hx
        obtain ⟨p, hp, rfl⟩ := List.mem_map.mp hx
        exact he p (by rw [hl]; exact hp)
      simp only [filterLetters_of_objects k cutoff _ hm, ih, List.flatMap_cons, keptLetters, hl,
        Option.getD_some, List.append_assoc]

theorem updateData_letters_of_objects (k : Clock) (c : Card)
    (h : ∀ e ∈ c.letters, ∀ p ∈ e.state.attributes.letters.getD [], p.2 ≠ none) :
    (_updateData k c).2 = none ∧
    (_updateData k c).1.letterItems =
      jsSort (byDateDesc k "delivery_date")
        (c.letters.flatMap (keptLetters k (pastDate k c.pastDays))) := by
  unfold _updateData
  simp only [lettersLoop_of_objects k _ c.letters [] h, List.nil_append]
  trivial

theorem get_delivery_date_annotate (name : JsVal) (x : Item) :
    (annotate name x).get "delivery_date" = (spread x).get "delivery_date" :=
  Obj.get_set_other _ _ _ _ (by decide)

theorem datedSince_annotate_iff (k : Clock) (cutoff : Int) (name : JsVal) (o : Obj)
    (ht : truthy (o.get "delivery_date") = true) :
    DatedSince k "delivery_date" cutoff (annotate name (some o)) ↔
      isSameOrAfter (moment k (o.get "delivery_date")) cutoff = true := by
  unfold DatedSince
  rw [get_delivery_date_annotate]
  simp only [spread, ht, true_and]
  unfold isSameOrAfter
  cases moment k (o.get "delivery_date") <;> simp

theorem keptLetters_eq_filter_aux (k : Clock) (cutoff : Int) (name : JsVal) :
    ∀ xs : List Item, (∀ x ∈ xs, hasValidDate k x = true) →
      ((xs.filterMap id).filter
        (fun o => isSameOrAfter (moment k (o.get "delivery_date")) cutoff)).map
          (fun o => annotate name (some o)) =
      (xs.map (fun x => (spread x).set "sender_name" name)).filter
        (fun o => decide (DatedSince k "delivery_date" cutoff o))
  | [], _ => rfl
  | none :: xs, h => by
    have := h none (List.mem_cons_self _ _)
    simp [hasValidDate] at this
  | some o :: xs, h => by
    have ih := keptLetters_eq_filter_aux k cutoff name xs
      (fun x hx => h x (List.mem_cons_of_mem _ hx))
    have hv := h (some o) (List.mem_cons_self _ _)
    simp only [hasValidDate, Bool.and_eq_true] at hv
    have hiff := datedSince_annotate_iff k cutoff name o hv.1
    simp only [List.filterMap_cons, id, List.map_cons, List.filter_cons]
    by_cases hp : isSameOrAfter (moment k (o.get "delivery_date")) cutoff = true
    · have hq : decide (DatedSince k "delivery_date" cutoff
          ((spread (some o)).set "sender_name" name)) = true :=
        decide_eq_true (hiff.mpr hp)
      rw [if_pos hp, if_pos hq, List.map_cons, ih]
      rfl
    · have hq : ¬ decide (DatedSince k "delivery_date" cutoff
          ((spread (some o)).set "sender_name" name)) = true := by
        rw [decide_eq_true_iff]
        exact fun hd => hp (hiff.mp hd)
      rw [if_neg hp, if_neg hq, ih]

theorem keptLetters_eq_filter (k : Clock) (cutoff : Int) (e : Source)
    (h : ∀ p ∈ e.state.attributes.letters.getD [], hasValidDate k p.2 = true) :
    keptLetters k cutoff e =
      (annotatedLetters e).filter (fun o => decide (DatedSince k "delivery_date" cutoff o)) := by
  unfold keptLetters annotatedLetters
  apply keptLetters_eq_filter_aux
  intro x hx
  obtain ⟨p, hp, rfl⟩ := List.mem_map.mp hx
  exact h p hp

theorem flatMap_keptLetters (k : Clock) (cutoff : Int) :
    ∀ srcs : List Source,
      (∀ e ∈ srcs, ∀ p ∈ e.state.attributes.letters.getD [], hasValidDate k p.2 = true) →
      srcs.flatMap (keptLetters k cutoff) =
        (srcs.flatMap annotatedLetters).filter
          (fun o => decide (DatedSince k "delivery_date" cutoff o))
  | [], _ => rfl
  | e :: rest, h => by
    rw [List.flatMap_cons, List.flatMap_cons, List.filter_append,
      keptLetters_eq_filter k cutoff e (h e (List.mem_cons_self _ _)),
      flatMap_keptLetters k cutoff rest (fun e2 he2 => h e2 (List.mem_cons_of_mem _ he2))]

theorem hasValidDate_ne_none (k : Clock) (x : Item) (h : hasValidDate k x = true) : x ≠ none := by
  intro hx
  rw [hx] at h
  simp [hasValidDate] at h

theorem sender_name_annotatedLetters (e : Source) :
    ∀ o ∈ annotatedLetters e, o.get "sender_name" = e.name := by
  intro o ho
  obtain ⟨x, _, rfl⟩ := List.mem_map.mp ho
  exact Obj.get_set_same _ _ _

/-- C5: when every letter of every resolved letter source carries a valid
`delivery_date`, `_updateData` returns normally and the letters collection is
the values of all sources' `letters` mappings, each annotated with the display
name of its source, merged into one collection, restricted to those with
`delivery_date >= startOfDay(now - pastDays days)` (a rearrangement of exactly
these), and ordered descending by `delivery_date`. -/
theorem letters_merged_filtered_sorted (k : Clock) (c : Card)
    (h : ∀ e ∈ c.letters, ∀ p ∈ e.state.attributes.letters.getD [],
      hasValidDate k p.2 = true) :
    (_updateData k c).2 = none ∧
    (_updateData k c).1.letterItems.Perm
      ((c.letters.flatMap annotatedLetters).filter (fun o =>
        decide (DatedSince k "delivery_date"
          (k.startOfDay (k.subtractDays k.now c.pastDays)) o))) ∧
    (_updateData k c).1.letterItems.Pairwise (DescBy k "delivery_date") ∧
    (∀ o ∈ (_updateData k c).1.letterItems, ∃ e ∈ c.letters,
        o ∈ annotatedLetters e ∧ o.get "sender_name" = e.name) := by
  have hobj : ∀ e ∈ c.letters, ∀ p ∈ e.state.attributes.letters.getD [], p.2 ≠ none :=
    fun e he p hp => hasValidDate_ne_none k p.2 (h e he p hp)
  obtain ⟨hret, hitems⟩ := updateData_letters_of_objects k c hobj
  rw [flatMap_keptLetters k _ c.letters h] at hitems
  have hmem : ∀ o ∈ (_updateData k c).1.letterItems,
      DatedSince k "delivery_date" (pastDate k c.pastDays) o := by
    intro o ho
    rw [hitems, mem_jsSort, List.mem_filter, decide_eq_true_iff] at ho
    exact ho.2
  refine ⟨hret, ?_, ?_, ?_⟩
  · rw [hitems]
    exact jsSort_perm _ _
  rotate_left
  · intro o ho
    rw [hitems, mem_jsSort] at ho
    obtain ⟨e, he, hoe⟩ := List.mem_flatMap.mp (List.mem_filter.mp ho).1
    exact ⟨e, he, hoe, sender_name_annotatedLetters e o hoe⟩
  · have hs := jsSort_pairwise (instantOf k "delivery_date") (byDateDesc k "delivery_date")
      ((c.letters.flatMap annotatedLetters).filter (fun o =>
        decide (DatedSince k "delivery_date" (pastDate k c.pastDays) o)))
      (fun a ha b hb => byDateDesc_of_valid k _ a b
        (decide_eq_true_iff.mp (List.mem_filter.mp ha).2).valid
        (decide_eq_true_iff.mp (List.mem_filter.mp hb).2).valid)
    rw [← hitems] at hs
    exact hs.imp_of_mem (fun {a b} ha hb hle =>
      descBy_of_le k _ a b (hmem a ha).1 (hmem b hb).1 (hmem a ha).valid (hmem b hb).valid hle)

/-- C5, Scenario B: one source whose letters are dated yesterday, five days ago
and today, with `past_days: 1`. Every letter carries a valid date, so the
result applies to the card on which `set hass` runs `_updateData`; the
collection is exactly the letter of today followed by the letter of
yesterday. -/
theorem letters_scenario_B :
    (∀ e ∈ cardB.letters, ∀ p ∈ e.state.attributes.letters.getD [],
      hasValidDate (utcClock sampleNow) p.2 = true) ∧
    ((_updateData (utcClock sampleNow) cardB).2 = none ∧
      (_updateData (utcClock sampleNow) cardB).1.letterItems.Perm
        ((cardB.letters.flatMap annotatedLetters).filter (fun o =>
          decide (DatedSince (utcClock sampleNow) "delivery_date"
            ((utcClock sampleNow).startOfDay
              ((utcClock sampleNow).subtractDays (utcClock sampleNow).now cardB.pastDays)) o))) ∧
      (_updateData (utcClock sampleNow) cardB).1.letterItems.Pairwise
        (DescBy (utcClock sampleNow) "delivery_date") ∧
      (∀ o ∈ (_updateData (utcClock sampleNow) cardB).1.letterItems, ∃ e ∈ cardB.letters,
        o ∈ annotatedLetters e ∧ o.get "sender_name" = e.name)) ∧
    setHass (utcClock sampleNow) (setConfig Card.new configB).1 hassB =
      _updateData (utcClock sampleNow) cardB ∧
    (run configB hassB).letterItems =
      [[("id", .str "103"), ("delivery_date", .str "2024-03-10T12:00:00Z"),
        ("sender_name", .str "Home")],
       [("id", .str "101"), ("delivery_date", .str "2024-03-09T12:00:00Z"),
        ("sender_name", .str "Home")]] :=
  ⟨by decide, letters_merged_filtered_sorted (utcClock sampleNow) cardB (by decide),
   by decide, by decide⟩

/-! ## Order of the enroute collection -/

theorem get_planned_date_annotate (name : JsVal) (x : Item) :
    (annotate name x).get "planned_date" = (spread x).get "planned_date" :=
  Obj.get_set_other _ _ _ _ (by decide)

theorem plannedOrNow_eq_moment (k : Clock) (o : Obj) :
    plannedOrNow k o = moment k (o.get "planned_date") := by
  unfold plannedOrNow
  split
  · rename_i h
    rw [h]
    rfl
  · rfl

theorem moment_isSome_of_plannedAbsentOrValid (k : Clock) (x : Item)
    (h : plannedAbsentOrValid k x = true) :
    (moment k ((spread x).get "planned_date")).isSome = true := by
  unfold plannedAbsentOrValid at h
  rcases Bool.or_eq_true _ _ |>.mp h with h1 | h1
  · rw [beq_iff_eq] at h1
    rw [h1]
    rfl
  · exact h1

theorem valid_of_mem_annotatedEnroute (k : Clock) (srcs : List Source)
    (h : ∀ e ∈ srcs, ∀ x ∈ e.state.attributes.enroute.getD [], plannedAbsentOrValid k x = true) :
    ∀ o ∈ srcs.flatMap annotatedEnroute, (moment k (o.get "planned_date")).isSome = true := by
  intro o ho
  obtain ⟨e, he, hoe⟩ := List.mem_flatMap.mp ho
  obtain ⟨x, hx, rfl⟩ := List.mem_map.mp hoe
  have := moment_isSome_of_plannedAbsentOrValid k x (h e he x hx)
  rw [← get_planned_date_annotate e.name x] at this
  exact this

/-- C6, as stated, fails: in the run of `configLate` the enroute collection is
the parcel without `planned_date` followed by the parcel planned for
yesterday, so an entry that lacks `planned_date` stands before one that has
it. -/
theorem enroute_missing_not_last :
    (run configLate hassLate).enrouteShipments =
      [[("name", .str "unplanned parcel"), ("sender_name", .null)],
       [("name", .str "late parcel"), ("planned_date", .str "2024-03-09T12:00:00Z"),
        ("sender_name", .null)]] ∧
    ¬ MissingLast (run configLate hassLate).enrouteShipments := by
  decide

/-- C6, amended: when the `planned_date` of every enroute entry is absent or a
valid date, the enroute collection produced by `_updateData` is ordered
descending by `planned_date`, an entry that lacks `planned_date` being ordered
as if it were planned for the current instant. -/
theorem enroute_sorted_missing_as_now (k : Clock) (c : Card)
    (h : ∀ e ∈ c.delivery ++ c.distribution, ∀ x ∈ e.state.attributes.enroute.getD [],
      plannedAbsentOrValid k x = true) :
    (_updateData k c).1.enrouteShipments.Pairwise (fun a b =>
      ∃ ta tb, plannedOrNow k a = some ta ∧ plannedOrNow k b = some tb ∧ tb ≤ ta) := by
  have hv := valid_of_mem_annotatedEnroute k (c.delivery ++ c.distribution) h
  have hs := jsSort_pairwise (instantOf k "planned_date") (byDateDesc k "planned_date")
    ((c.delivery ++ c.distribution).flatMap annotatedEnroute)
    (fun a ha b hb => byDateDesc_of_valid k _ a b (hv a ha) (hv b hb))
  rw [← updateData_enroute] at hs
  have hmem : ∀ o ∈ (_updateData k c).1.enrouteShipments,
      (moment k (o.get "planned_date")).isSome = true := by
    intro o ho
    rw [updateData_enroute, mem_jsSort] at ho
    exact hv o ho
  refine hs.imp_of_mem (fun {a b} ha hb hle => ?_)
  rw [plannedOrNow_eq_moment, plannedOrNow_eq_moment]
  unfold instantOf at hle
  have h1 := hmem a ha
  have h2 := hmem b hb
  cases ea : moment k (a.get "planned_date") with
  | none => rw [ea] at h1; simp at h1
  | some x =>
    cases eb : moment k (b.get "planned_date") with
    | none => rw [eb] at h2; simp at h2
    | some y =>
      rw [ea, eb] at hle
      exact ⟨x, y, rfl, rfl, by simpa using hle⟩

/-- C6, amended, at the run of `configLate`: both enroute entries have an absent
or valid `planned_date`, and the collection is ordered with the entry without
`planned_date` counted as planned now. -/
theorem enroute_sorted_missing_as_now_late :
    (∀ e ∈ cardLate.delivery ++ cardLate.distribution,
      ∀ x ∈ e.state.attributes.enroute.getD [],
        plannedAbsentOrValid (utcClock sampleNow) x = true) ∧
    (_updateData (utcClock sampleNow) cardLate).1.enrouteShipments.Pairwise (fun a b =>
      ∃ ta tb, plannedOrNow (utcClock sampleNow) a = some ta ∧
        plannedOrNow (utcClock sampleNow) b = some tb ∧ tb ≤ ta) ∧
    setHass (utcClock sampleNow) (setConfig Card.new configLate).1 hassLate =
      _updateData (utcClock sampleNow) cardLate :=
  ⟨by decide, enroute_sorted_missing_as_now (utcClock sampleNow) cardLate (by decide), by decide⟩

/-! ## The Source Normalizer -/

theorem resolve_desc (hass : Hass) (d : Descriptor) :
    resolve hass (.desc d) =
      match hass.states.lookup d.entity with
      | some state => some { state := state, name := displayName d state }
      | none => none := by
  unfold resolve displayName jsOr
  simp only [ConfigItem.entity, ConfigItem.name, propertyKey]
  cases hass.states.lookup d.entity with
  | none => rfl
  | some state => rfl

theorem resolveAll_eq_normalize (hass : Hass) :
    ∀ ds : List Descriptor, resolveAll hass (ds.map .desc) = normalize ds hass.states
  | [] => rfl
  | d :: ds => by
    have ih := resolveAll_eq_normalize hass ds
    unfold resolveAll at ih ⊢
    unfold normalize at ih ⊢
    rw [List.map_cons, List.map_cons, resolve_desc, List.filterMap_cons]
    cases hass.states.lookup d.entity with
    | none => simpa [filterBoolean] using ih
    | some state => simpa [filterBoolean] using ih

theorem filterBoolean_append {α : Type} :
    ∀ xs ys : List (Option α), filterBoolean (xs ++ ys) = filterBoolean xs ++ filterBoolean ys
  | [], _ => rfl
  | none :: xs, ys => by
    simpa [filterBoolean] using filterBoolean_append xs ys
  | some a :: xs, ys => by
    simpa [filterBoolean] using filterBoolean_append xs ys

theorem resolveAll_append (hass : Hass) (xs ys : List ConfigItem) :
    resolveAll hass (xs ++ ys) = resolveAll hass xs ++ resolveAll hass ys := by
  unfold resolveAll
  rw [List.map_append, filterBoolean_append]

/-- The card-level `_updateEntities`, which reads the table by its own keys,
yields for each group of descriptors the pairs of the Source Normalizer, and a
descriptor whose entity id has no snapshot contributes nothing. -/
theorem updateEntities_eq_normalize (c : Card) (hass : Hass)
    (delivery distribution letters : List Descriptor) :
    (_updateEntities { c with
        hass := some hass
        deliveryConfigs := delivery.map .desc
        distributionConfigs := distribution.map .desc
        lettersConfigs := letters.map .desc }).delivery = normalize delivery hass.states ∧
    (_updateEntities { c with
        hass := some hass
        deliveryConfigs := delivery.map .desc
        distributionConfigs := distribution.map .desc
        lettersConfigs := letters.map .desc }).distribution
      = normalize distribution hass.states ∧
    (_updateEntities { c with
        hass := some hass
        deliveryConfigs := delivery.map .desc
        distributionConfigs := distribution.map .desc
        lettersConfigs := letters.map .desc }).letters = normalize letters hass.states ∧
    (∀ (before after : List Descriptor) (d : Descriptor),
      hass.states.lookup d.entity = none →
        resolveAll hass ((before ++ d :: after).map .desc) =
          resolveAll hass (before.map .desc) ++ resolveAll hass (after.map .desc)) := by
  refine ⟨resolveAll_eq_normalize hass delivery, resolveAll_eq_normalize hass distribution,
    resolveAll_eq_normalize hass letters, ?_⟩
  intro before after d hd
  rw [List.map_append, resolveAll_append, List.map_cons]
  congr 1
  have : resolve hass (.desc d) = none := by rw [resolve_desc, hd]
  simp [resolveAll, filterBoolean, this]

theorem PlainObject.resolve_of_readsOwn (hass : Hass) (x : ConfigItem)
    (h : PlainObject.ReadsOwn hass (propertyKey x.entity)) :
    PlainObject.resolve hass x = .ok ((PostNL.resolve hass x).map Source.toPair) := by
  unfold PlainObject.resolve PlainObject.read PostNL.resolve
  cases hl : hass.states.lookup (propertyKey x.entity) with
  | some state => rfl
  | none =>
    have hn := h hl
    simp [hn]

theorem filterBoolean_map {α β : Type} (g : α → β) :
    ∀ xs : List (Option α), filterBoolean (xs.map (Option.map g)) = (filterBoolean xs).map g
  | [] => rfl
  | none :: xs => by
    simpa [filterBoolean] using filterBoolean_map g xs
  | some a :: xs => by
    simpa [filterBoolean] using filterBoolean_map g xs

theorem PlainObject.mapResolve_of_readsOwn (hass : Hass) :
    ∀ configs : List ConfigItem,
      (∀ x ∈ configs, PlainObject.ReadsOwn hass (propertyKey x.entity)) →
      PlainObject.mapResolve hass configs =
        .ok ((configs.map (PostNL.resolve hass)).map (Option.map Source.toPair))
  | [], _ => rfl
  | x :: xs, h => by
    have h1 := PlainObject.resolve_of_readsOwn hass x (h x (List.mem_cons_self _ _))
    have h2 := PlainObject.mapResolve_of_readsOwn hass xs
      (fun y hy => h y (List.mem_cons_of_mem _ hy))
    simp only [PlainObject.mapResolve, h1, h2, List.map_cons]

/-- Where every key is answered by the own keys of the table, a group resolves
with the property read of a plain object as it does at card level. -/
theorem PlainObject.resolveAll_of_readsOwn (hass : Hass) (configs : List ConfigItem)
    (h : ∀ x ∈ configs, PlainObject.ReadsOwn hass (propertyKey x.entity)) :
    PlainObject.resolveAll hass configs =
      .ok ((PostNL.resolveAll hass configs).map Source.toPair) := by
  unfold PlainObject.resolveAll PostNL.resolveAll
  rw [PlainObject.mapResolve_of_readsOwn hass configs h]
  simp only [filterBoolean_map]

/-- Where every configured key is answered by the own keys of the table,
`_updateEntities` with the property read of a plain object does what the
card-level method does, and raises nothing. -/
theorem PlainObject.updateEntities_agrees (c : PostNL.Card)
    (h : ∀ hass, c.hass = some hass →
      ∀ x ∈ c.deliveryConfigs ++ c.distributionConfigs ++ c.lettersConfigs,
        PlainObject.ReadsOwn hass (propertyKey x.entity)) :
    PlainObject._updateEntities (PlainObject.ofCard c) =
      (PlainObject.ofCard (PostNL._updateEntities c), none) := by
  unfold PlainObject._updateEntities PostNL._updateEntities
  cases hh : c.hass with
  | none => simp [PlainObject.ofCard, hh]
  | some hass =>
    have h1 := PlainObject.resolveAll_of_readsOwn hass c.deliveryConfigs
      (fun x hx => h hass hh x (by simp [hx]))
    have h2 := PlainObject.resolveAll_of_readsOwn hass c.distributionConfigs
      (fun x hx => h hass hh x (by simp [hx]))
    have h3 := PlainObject.resolveAll_of_readsOwn hass c.lettersConfigs
      (fun x hx => h hass hh x (by simp [hx]))
    simp only [PlainObject.ofCard, hh, h1, h2, h3]

theorem PlainObject.resolveAll_descriptors (hass : Hass) (ds : List Descriptor)
    (h : ∀ d ∈ ds, PlainObject.ReadsOwn hass d.entity) :
    PlainObject.resolveAll hass (ds.map .desc) =
      .ok ((normalize ds hass.states).map Source.toPair) := by
  rw [PlainObject.resolveAll_of_readsOwn hass (ds.map .desc), resolveAll_eq_normalize]
  intro x hx
  obtain ⟨d, hd, rfl⟩ := List.mem_map.mp hx
  exact h d hd

theorem normalize_append (snapshots : List (String × Snapshot)) (xs ys : List Descriptor) :
    normalize (xs ++ ys) snapshots = normalize xs snapshots ++ normalize ys snapshots := by
  unfold normalize
  rw [List.filterMap_append]

theorem normalize_absent (snapshots : List (String × Snapshot)) (d : Descriptor)
    (h : snapshots.lookup d.entity = none) : normalize [d] snapshots = [] := by
  simp [normalize, h]

/-- C8: evaluation at the failing input, the delivery descriptors
`[{entity: 'constructor'}, {entity: 'sensor.postnl_delivery'}]` with the
snapshot table of Scenario A. The table has no snapshot under `constructor`, so
the Source Normalizer of the specification omits that descriptor and yields
the pair of the second one. `_updateEntities` finds the inherited property of
that name, which passes the guard `if (!state)`, reads `name` of its missing
`attributes` and raises a `TypeError`: the field `delivery` stays empty and the
second source is not resolved. When the descriptor has a name, nothing is
raised and a pair is made for it although it has no snapshot. For descriptors
whose entity id has a snapshot or is not the name of a property of
`Object.prototype`, `_updateEntities` raises nothing and yields for each group
the pairs of the Source Normalizer, in descriptor order, a descriptor without
snapshot being omitted between the pairs of the others. -/
theorem inherited_name_passes_for_a_snapshot :
    (hassA.states.lookup "constructor" = none ∧
      normalize descriptorsInherited hassA.states = [{ state := snapshotA, name := .null }] ∧
      PlainObject._updateEntities (PlainObject.cardA descriptorsInherited) =
        (PlainObject.cardA descriptorsInherited,
          some "TypeError: Cannot read properties of undefined") ∧
      (PlainObject.cardA descriptorsInherited).delivery = []) ∧
    (normalize descriptorsInheritedNamed hassA.states = [] ∧
      (PlainObject._updateEntities (PlainObject.cardA descriptorsInheritedNamed)).2 = none ∧
      (PlainObject._updateEntities (PlainObject.cardA descriptorsInheritedNamed)).1.delivery =
        [{ state := .inherited "constructor", name := .str "Parcels" }]) ∧
    (∀ (c : PlainObject.Card) (hass : Hass) (delivery distribution letters : List Descriptor),
      (∀ d ∈ delivery ++ distribution ++ letters, PlainObject.ReadsOwn hass d.entity) →
      PlainObject._updateEntities { c with
          hass := some hass
          deliveryConfigs := delivery.map .desc
          distributionConfigs := distribution.map .desc
          lettersConfigs := letters.map .desc } =
        ({ c with
            hass := some hass
            deliveryConfigs := delivery.map .desc
            distributionConfigs := distribution.map .desc
            lettersConfigs := letters.map .desc
            delivery := (normalize delivery hass.states).map Source.toPair
            distribution := (normalize distribution hass.states).map Source.toPair
            letters := (normalize letters hass.states).map Source.toPair }, none)) ∧
    (∀ (hass : Hass) (before after : List Descriptor) (d : Descriptor),
      hass.states.lookup d.entity = none →
      (∀ x ∈ before ++ d :: after, PlainObject.ReadsOwn hass x.entity) →
      PlainObject.resolveAll hass ((before ++ d :: after).map .desc) =
        .ok ((normalize before hass.states ++ normalize after hass.states).map
          Source.toPair)) := by
  refine ⟨by decide, by decide, ?_, ?_⟩
  · intro c hass delivery distribution letters h
    have h1 := PlainObject.resolveAll_descriptors hass delivery
      (fun d hd => h d (by simp [hd]))
    have h2 := PlainObject.resolveAll_descriptors hass distribution
      (fun d hd => h d (by simp [hd]))
    have h3 := PlainObject.resolveAll_descriptors hass letters
      (fun d hd => h d (by simp [hd]))
    simp only [PlainObject._updateEntities, h1, h2, h3]
  · intro hass before after d hd h
    rw [PlainObject.resolveAll_descriptors hass _ h]
    have : before ++ d :: after = before ++ ([d] ++ after) := rfl
    rw [this, normalize_append, normalize_append, normalize_absent _ d hd, List.nil_append]

/-! ## Configuration -/

theorem Group.isEmpty_iff (g : Group) : g.isEmpty = true ↔ g.AbsentOrEmpty := by
  cases g with
  | absent => simp [Group.isEmpty, Group.AbsentOrEmpty]
  | single s => simp [Group.isEmpty, Group.AbsentOrEmpty]
  | list ds => simp [Group.isEmpty, Group.AbsentOrEmpty]

/-- C9: evaluation at the failing input, `delivery: sensor.postnl_delivery` with
the snapshot table of Scenario A, which has a snapshot for that identifier.
`setConfig` accepts the configuration and wraps the identifier in a list;
`_updateEntities` then reads `.entity` of the string, which is `undefined`, and
finds no snapshot: the resolved delivery sources are empty and no record of
the snapshot is aggregated. The same holds for every identifier and every
table without an entry named `undefined`. The single-source card `main.js`
resolves the same configuration to the snapshot. -/
theorem single_identifier_resolves_nothing :
    hassA.states.lookup "sensor.postnl_delivery" = some snapshotA ∧
    (setConfig Card.new configSingle).2 = none ∧
    (setConfig Card.new configSingle).1.deliveryConfigs = [.ident "sensor.postnl_delivery"] ∧
    (setHass (utcClock sampleNow) (setConfig Card.new configSingle).1 hassA).2 = none ∧
    (run configSingle hassA).delivery = [] ∧
    (run configSingle hassA).enrouteShipments = [] ∧
    (run configSingle hassA).deliveredShipments = [] ∧
    (∀ (hass : Hass) (s : String), hass.states.lookup "undefined" = none →
      resolveAll hass (Group.single s).configs = []) ∧
    Main.assignSource none configSingle.delivery hassA = some snapshotA := by
  refine ⟨by decide, by decide, by decide, by decide, by decide, by decide, by decide, ?_,
    by decide⟩
  intro hass s h
  show resolveAll hass (if s = "" then [] else [.ident s]) = []
  split
  · rfl
  · simp [resolveAll, resolve, ConfigItem.entity, propertyKey, h, filterBoolean]

/-- C10: `setConfig` raises if and only if each of the groups `delivery`,
`distribution` and `letters` is absent or empty; what it raises is the
configuration error, and the card is then left as it was; when a group is
non-empty it returns normally and stores the configuration. -/
theorem setConfig_raises_iff_no_source (c : Card) (config : Config) :
    ((setConfig c config).2.isSome = true ↔
      config.delivery.AbsentOrEmpty ∧ config.distribution.AbsentOrEmpty ∧
        config.letters.AbsentOrEmpty) ∧
    ((setConfig c config).2.isSome = true →
      (setConfig c config).2 =
          some "Please define at least one entity (delivery, distribution, or letters)" ∧
        (setConfig c config).1 = c) ∧
    (¬ (config.delivery.AbsentOrEmpty ∧ config.distribution.AbsentOrEmpty ∧
        config.letters.AbsentOrEmpty) →
      (setConfig c config).2 = none ∧ (setConfig c config).1.config = some config) := by
  rw [← Group.isEmpty_iff, ← Group.isEmpty_iff, ← Group.isEmpty_iff]
  unfold setConfig
  by_cases h : (config.delivery.isEmpty && config.distribution.isEmpty &&
      config.letters.isEmpty) = true
  · rw [if_pos h]
    simp only [Bool.and_eq_true] at h
    simp [h.1.1, h.1.2, h.2]
  · rw [if_neg h]
    simp only [Bool.and_eq_true] at h
    refine ⟨?_, ?_, ?_⟩
    · simp only [Option.isSome_none, Bool.false_eq_true, false_iff]
      exact fun hh => h ⟨⟨hh.1, hh.2.1⟩, hh.2.2⟩
    · intro hh; simp at hh
    · intro _; exact ⟨rfl, rfl⟩

/-! ## Totality of the aggregation -/

theorem mem_keptLetters (k : Clock) (cutoff : Int) (e : Source) (p : String × Item) (o : Obj)
    (hp : p ∈ e.state.attributes.letters.getD []) (ho : p.2 = some o)
    (hd : isSameOrAfter (moment k (o.get "delivery_date")) cutoff = true) :
    annotate e.name (some o) ∈ keptLetters k cutoff e := by
  unfold keptLetters
  refine List.mem_map.mpr ⟨o, List.mem_filter.mpr ⟨?_, hd⟩, rfl⟩
  refine List.mem_filterMap.mpr ⟨p.2, List.mem_map.mpr ⟨p, hp, rfl⟩, ?_⟩
  rw [ho]; rfl

theorem moment_of_mem_keptLetters (k : Clock) (cutoff : Int) (e : Source) (o : Obj)
    (ho : o ∈ keptLetters k cutoff e) :
    ∃ t, moment k (o.get "delivery_date") = some t ∧ cutoff ≤ t := by
  unfold keptLetters at ho
  obtain ⟨o2, ho2, rfl⟩ := List.mem_map.mp ho
  have hk := (List.mem_filter.mp ho2).2
  rw [get_delivery_date_annotate]
  simp only [spread]
  unfold isSameOrAfter at hk
  cases hm : moment k (o2.get "delivery_date") with
  | none => rw [hm] at hk; cases hk
  | some t =>
    rw [hm] at hk
    exact ⟨t, rfl, by simpa using hk⟩

theorem isSameOrAfter_of_datedSince (k : Clock) (cutoff : Int) (o : Obj)
    (h : DatedSince k "delivery_date" cutoff o) :
    isSameOrAfter (moment k (o.get "delivery_date")) cutoff = true := by
  obtain ⟨_, t, ht, hle⟩ := h
  rw [ht]
  simpa [isSameOrAfter] using hle

theorem filterLetters_null (k : Clock) (cutoff : Int) :
    ∀ xs : List Item, none ∈ xs → filterLetters k cutoff xs = none
  | [], h => by cases h
  | none :: xs, _ => by simp [filterLetters, keepLetter]
  | some o :: xs, h => by
    have hx : none ∈ xs := by
      rcases List.mem_cons.mp h with h | h
      · cases h
      · exact h
    simp [filterLetters, keepLetter, filterLetters_null k cutoff xs hx]

theorem lettersLoop_null (k : Clock) (cutoff : Int) :
    ∀ (srcs : List Source) (acc : List Obj),
      (∃ e ∈ srcs, ∃ p ∈ e.state.attributes.letters.getD [], p.2 = none) →
      (lettersLoop k cutoff srcs acc).2 = some "TypeError: Cannot read properties of null"
  | [], _, h => by
    obtain ⟨e, he, _⟩ := h
    cases he
  | e :: rest, acc, h => by
    unfold lettersLoop
    cases hl : e.state.attributes.letters with
    | none =>
      simp only
      apply lettersLoop_null k cutoff rest acc
      obtain ⟨e2, he2, p, hp, hn⟩ := h
      rcases List.mem_cons.mp he2 with rfl | he2
      · rw [hl] at hp; cases hp
      · exact ⟨e2, he2, p, hp, hn⟩
    | some m =>
      simp only
      cases hf : filterLetters k cutoff (m.map Prod.snd) with
      | none => rfl
      | some kept =>
        simp only
        apply lettersLoop_null k cutoff rest
        obtain ⟨e2, he2, p, hp, hn⟩ := h
        rcases List.mem_cons.mp he2 with rfl | he2
        · rw [hl] at hp
          have : none ∈ m.map Prod.snd := List.mem_map.mpr ⟨p, hp, hn⟩
          rw [filterLetters_null k cutoff _ this] at hf
          cases hf
        · exact ⟨e2, he2, p, hp, hn⟩

/-- A `null` value in the letters mapping of a resolved letters source makes
`_updateData` raise a `TypeError`, whatever the other records are: the letters
filter reads `delivery_date` of the value before any spread. -/
theorem updateData_raises_on_null_letter (k : Clock) (c : Card)
    (h : ∃ e ∈ c.letters, ∃ p ∈ e.state.attributes.letters.getD [], p.2 = none) :
    (_updateData k c).2 = some "TypeError: Cannot read properties of null" := by
  have hl := lettersLoop_null k (pastDate k c.pastDays) c.letters [] h
  unfold _updateData
  dsimp only
  generalize lettersLoop k (pastDate k c.pastDays) c.letters [] = r at hl
  obtain ⟨items, _ | err⟩ := r
  · cases hl
  · exact hl

/-- The run of `configNullLetter`: with a `null` value in the letters mapping
the snapshot update raises a `TypeError`, and the letter of today next to the
`null` value is not aggregated. The shipment loops spread a `null` entry into
an empty record instead. -/
theorem null_letter_raises :
    (setHass (utcClock sampleNow) (setConfig Card.new configNullLetter).1 hassNullLetter).2 =
      some "TypeError: Cannot read properties of null" ∧
    (run configNullLetter hassNullLetter).letterItems = [] := by
  decide

/-- C11, as stated, fails: the enroute list of `hassMalformed` holds `null` and
a parcel without any date. `_updateData` returns normally and both malformed
records are in the enroute collection, the `null` entry as a record that holds
nothing but `sender_name`: the enroute collection is not filtered. -/
theorem malformed_enroute_is_kept :
    (hassMalformed.states.lookup "sensor.postnl_delivery").map
        (fun s => s.attributes.enroute) =
      some (some [none, some [("name", .str "parcel 4")]]) ∧
    (setHass (utcClock sampleNow) (setConfig Card.new configMalformed).1 hassMalformed).2 = none ∧
    (run configMalformed hassMalformed).enrouteShipments =
      [[("sender_name", .null)], [("name", .str "parcel 4"), ("sender_name", .null)]] := by
  decide

/-- C11, amended: when no letters mapping of a resolved source holds a `null`
value, `_updateData` returns normally, whatever else the lists and mappings
hold (`null` shipment entries, records without dates, dates that are `null` or
no date). The enroute collection is not filtered: every enroute entry is in
it, annotated, malformed or not. The delivered collection holds only records
whose `delivery_date` is present and a valid date at or after the cutoff, and
every such entry is in it. The letters collection holds no letter whose
`delivery_date` is `null` or not a valid date, and every letter with a present,
valid `delivery_date` at or after the cutoff is in it. -/
theorem updateData_total_without_null_letters (k : Clock) (c : Card)
    (h : ∀ e ∈ c.letters, ∀ p ∈ e.state.attributes.letters.getD [], p.2 ≠ none) :
    (_updateData k c).2 = none ∧
    (∀ e ∈ c.delivery ++ c.distribution, ∀ x ∈ e.state.attributes.enroute.getD [],
      annotate e.name x ∈ (_updateData k c).1.enrouteShipments) ∧
    (∀ o ∈ (_updateData k c).1.deliveredShipments,
      DatedSince k "delivery_date" (pastDate k c.pastDays) o) ∧
    (∀ e ∈ c.delivery ++ c.distribution, ∀ x ∈ e.state.attributes.delivered.getD [],
      DatedSince k "delivery_date" (pastDate k c.pastDays) (annotate e.name x) →
        annotate e.name x ∈ (_updateData k c).1.deliveredShipments) ∧
    (∀ o ∈ (_updateData k c).1.letterItems,
      ∃ t, moment k (o.get "delivery_date") = some t ∧ pastDate k c.pastDays ≤ t) ∧
    (∀ e ∈ c.letters, ∀ p ∈ e.state.attributes.letters.getD [], ∀ o, p.2 = some o →
      DatedSince k "delivery_date" (pastDate k c.pastDays) o →
        annotate e.name (some o) ∈ (_updateData k c).1.letterItems) := by
  obtain ⟨hret, hitems⟩ := updateData_letters_of_objects k c h
  refine ⟨hret, ?_, ?_, ?_, ?_, ?_⟩
  · intro e he x hx
    rw [updateData_enroute, mem_jsSort]
    exact List.mem_flatMap.mpr ⟨e, he, List.mem_map.mpr ⟨x, hx, rfl⟩⟩
  · intro o ho
    exact ((mem_delivered_iff k c o).mp ho).2
  · intro e he x hx hd
    exact (mem_delivered_iff k c _).mpr
      ⟨List.mem_flatMap.mpr ⟨e, he, List.mem_map.mpr ⟨x, hx, rfl⟩⟩, hd⟩
  · intro o ho
    rw [hitems, mem_jsSort] at ho
    obtain ⟨e, _, hoe⟩ := List.mem_flatMap.mp ho
    exact moment_of_mem_keptLetters k _ e o hoe
  · intro e he p hp o hpo hd
    rw [hitems, mem_jsSort]
    exact List.mem_flatMap.mpr ⟨e, he,
      mem_keptLetters k _ e p o hp hpo (isSameOrAfter_of_datedSince k _ o hd)⟩

/-- C11, amended, at the run of `configMalformed`: no letter is `null`, the call
returns normally, and the collections are the two enroute entries, the parcel
delivered yesterday and the letter of today. -/
theorem updateData_total_malformed :
    (∀ e ∈ cardMalformed.letters, ∀ p ∈ e.state.attributes.letters.getD [], p.2 ≠ none) ∧
    (_updateData (utcClock sampleNow) cardMalformed).2 = none ∧
    setHass (utcClock sampleNow) (setConfig Card.new configMalformed).1 hassMalformed =
      _updateData (utcClock sampleNow) cardMalformed ∧
    (run configMalformed hassMalformed).enrouteShipments =
      [[("sender_name", .null)], [("name", .str "parcel 4"), ("sender_name", .null)]] ∧
    (run configMalformed hassMalformed).deliveredShipments =
      [[("name", .str "parcel 8"), ("delivery_date", .str "2024-03-09T12:00:00Z"),
        ("sender_name", .null)]] ∧
    (run configMalformed hassMalformed).letterItems =
      [[("id", .str "301"), ("delivery_date", .str "2024-03-10T12:00:00Z"),
        ("sender_name", .null)]] :=
  ⟨by decide,
   (updateData_total_without_null_letters (utcClock sampleNow) cardMalformed (by decide)).1,
   by decide, by decide, by decide, by decide⟩

/-! ## Relative dates -/

theorem formatCalendar_of_valid (k : Clock) (f : Formatter) (tr : Translations)
    (dateFormat date : JsVal) (m : Int) (hm : moment k date = some m) :
    formatCalendar k f (some tr) dateFormat date =
      .ok (f.format m (jsOr
        (calendarFormats tr dateFormat (calendarFormat (diffDaysMs f m (k.startOfDay k.now))))
        (.str (f.calendar (calendarFormat (diffDaysMs f m (k.startOfDay k.now))) m)))) := by
  simp only [formatCalendar, hm]

theorem jsOr_str_of_ne (s : String) (b : JsVal) (h : s ≠ "") : jsOr (.str s) b = .str s := by
  simp [jsOr, truthy, h]

/-- C13, as stated, fails: a timestamp of yesterday noon is not rendered with the
fallback date pattern `DD MMM YYYY` but with the pattern of the locale for
the calendar key `lastDay`, `[Yesterday at] LT`. -/
theorem yesterday_not_fallback_pattern :
    moment (utcClock sampleNow) (.str "2024-03-09T12:00:00Z") = some 1709985600000 ∧
    cardEn.dateFormat = .str "DD MMM YYYY" ∧
    _formatDate (utcClock sampleNow) momentEn cardEn (.str "2024-03-09T12:00:00Z") =
      .ok (momentEn.format 1709985600000 (.str "[Yesterday at] LT")) ∧
    _formatDate (utcClock sampleNow) momentEn cardEn (.str "2024-03-09T12:00:00Z") ≠
      .ok (momentEn.format 1709985600000 cardEn.dateFormat) := by
  decide

theorem truthy_jsOr_default (a : JsVal) (s : String) (hs : s ≠ "") :
    truthy (jsOr a (.str s)) = true := by
  unfold jsOr
  by_cases h : truthy a = true
  · rw [if_pos h]; exact h
  · rw [if_neg h]; simp [truthy, hs]

theorem setHass_dateFormat (k : Clock) (c : Card) (hass : Hass) :
    (setHass k c hass).1.dateFormat = c.dateFormat := by
  have hud : ∀ x : Card, (_updateData k x).1.dateFormat = x.dateFormat := by
    intro x
    unfold _updateData
    dsimp only
    generalize lettersLoop k (pastDate k x.pastDays) x.letters [] = r
    obtain ⟨items, _ | err⟩ := r <;> rfl
  have hue : ∀ x : Card, (_updateEntities x).dateFormat = x.dateFormat := by
    intro x
    unfold _updateEntities
    split <;> rfl
  unfold setHass
  cases c.config with
  | none => rfl
  | some config =>
    dsimp only
    rw [hud, hue]
    split <;> rfl

/-- A fallback date pattern is set in every state of the card: the constructor
and every accepted `setConfig` store a truthy `dateFormat` (`config.date_format`
or `DD MMM YYYY`), and nothing else writes the field. -/
theorem dateFormat_set_of_reachable (c : Card) (h : Reachable anyConfig c) :
    truthy c.dateFormat = true := by
  induction h with
  | start => decide
  | configure c config _ _ ih =>
    unfold setConfig
    split
    · exact ih
    · exact truthy_jsOr_default _ _ (by decide)
  | update k c hass _ ih => rw [setHass_dateFormat]; exact ih
  | select c tab _ _ ih => exact ih

theorem formatCalendar_of_invalid (k : Clock) (f : Formatter) (tr : Translations)
    (dateFormat date : JsVal) (hm : moment k date = none) :
    formatCalendar k f (some tr) dateFormat date = .ok f.invalidDate := by
  simp only [formatCalendar, hm]

/-- On the day of now and on the next day `_formatDate` hands the label itself
to `format` as the pattern, as it does with the fallback date pattern on
other days: the label is not put in brackets, so `moment` reads the letters of
the label that are format tokens as such. -/
theorem formatDate_label_as_pattern (k : Clock) (f : Formatter) (c : Card) (tr : Translations)
    (date : JsVal) (m : Int) (hm : moment k date = some m)
    (htoday : tr.today ≠ "") (htomorrow : tr.tomorrow ≠ "") :
    (0 ≤ diffDaysMs f m (k.startOfDay k.now) ∧
        diffDaysMs f m (k.startOfDay k.now) < msPerDay →
      _formatDate k f { c with t := some tr } date = .ok (f.format m (.str tr.today))) ∧
    (msPerDay ≤ diffDaysMs f m (k.startOfDay k.now) ∧
        diffDaysMs f m (k.startOfDay k.now) < 2 * msPerDay →
      _formatDate k f { c with t := some tr } date = .ok (f.format m (.str tr.tomorrow))) := by
  have hfd : _formatDate k f { c with t := some tr } date =
      .ok (f.format m (jsOr
        (calendarFormats tr c.dateFormat (calendarFormat (diffDaysMs f m (k.startOfDay k.now))))
        (.str (f.calendar (calendarFormat (diffDaysMs f m (k.startOfDay k.now))) m)))) :=
    formatCalendar_of_valid k f tr c.dateFormat date m hm
  rw [hfd]
  generalize diffDaysMs f m (k.startOfDay k.now) = d
  have hD : msPerDay = 86400000 := rfl
  refine ⟨?_, ?_⟩
  · intro h
    have hk : calendarFormat d = .sameDay := by
      unfold calendarFormat
      rw [if_neg (by omega), if_neg (by omega), if_neg (by omega), if_pos (by omega)]
    rw [hk]
    simp only [calendarFormats, jsOr_str_of_ne _ _ htoday]
  · intro h
    have hk : calendarFormat d = .nextDay := by
      unfold calendarFormat
      rw [if_neg (by omega), if_neg (by omega), if_neg (by omega), if_neg (by omega),
        if_pos (by omega)]
    rw [hk]
    simp only [calendarFormats, jsOr_str_of_ne _ _ htomorrow]

/-- C13, amended: with the texts loaded and a fallback date pattern set,
`_formatDate` returns the invalid-date text of the locale for an invalid
timestamp. For a valid timestamp `m` that is neither on the day of now nor on
the next day, with `d` the time from the start of today to `m` (offset changes
taken out), it returns `m` formatted by `moment` with the fallback date pattern
when `m` is more than 6 days before the start of today or at least 7 days
after it, and with the pattern of the locale for the calendar key otherwise:
`lastDay` for yesterday, `lastWeek` for the 5 days before, `nextWeek` for the
days 2 to 6 after today. -/
theorem formatDate_outside_today_and_tomorrow (k : Clock) (f : Formatter) (c : Card)
    (tr : Translations) (date : JsVal) (hpattern : truthy c.dateFormat = true) :
    (moment k date = none →
      _formatDate k f { c with t := some tr } date = .ok f.invalidDate) ∧
    (∀ m, moment k date = some m →
      (diffDaysMs f m (k.startOfDay k.now) < -6 * msPerDay ∨
          7 * msPerDay ≤ diffDaysMs f m (k.startOfDay k.now) →
        _formatDate k f { c with t := some tr } date = .ok (f.format m c.dateFormat)) ∧
      (-1 * msPerDay ≤ diffDaysMs f m (k.startOfDay k.now) ∧
          diffDaysMs f m (k.startOfDay k.now) < 0 →
        _formatDate k f { c with t := some tr } date =
          .ok (f.format m (.str (f.calendar .lastDay m)))) ∧
      (-6 * msPerDay ≤ diffDaysMs f m (k.startOfDay k.now) ∧
          diffDaysMs f m (k.startOfDay k.now) < -1 * msPerDay →
        _formatDate k f { c with t := some tr } date =
          .ok (f.format m (.str (f.calendar .lastWeek m)))) ∧
      (2 * msPerDay ≤ diffDaysMs f m (k.startOfDay k.now) ∧
          diffDaysMs f m (k.startOfDay k.now) < 7 * msPerDay →
        _formatDate k f { c with t := some tr } date =
          .ok (f.format m (.str (f.calendar .nextWeek m))))) := by
  refine ⟨fun hm => formatCalendar_of_invalid k f tr c.dateFormat date hm, ?_⟩
  intro m hm
  have hfd : _formatDate k f { c with t := some tr } date =
      .ok (f.format m (jsOr
        (calendarFormats tr c.dateFormat (calendarFormat (diffDaysMs f m (k.startOfDay k.now))))
        (.str (f.calendar (calendarFormat (diffDaysMs f m (k.startOfDay k.now))) m)))) :=
    formatCalendar_of_valid k f tr c.dateFormat date m hm
  rw [hfd]
  generalize diffDaysMs f m (k.startOfDay k.now) = d
  have hD : msPerDay = 86400000 := rfl
  refine ⟨?_, ?_, ?_, ?_⟩
  · intro h
    have hk : calendarFormat d = .sameElse := by
      unfold calendarFormat
      rcases h with h | h
      · rw [if_pos (by omega)]
      · rw [if_neg (by omega), if_neg (by omega), if_neg (by omega), if_neg (by omega),
          if_neg (by omega), if_neg (by omega)]
    rw [hk]
    simp only [calendarFormats, jsOr, hpattern, if_true]
  · intro h
    have hk : calendarFormat d = .lastDay := by
      unfold calendarFormat
      rw [if_neg (by omega), if_neg (by omega), if_pos (by omega)]
    rw [hk]
    simp [calendarFormats, jsOr, truthy]
  · intro h
    have hk : calendarFormat d = .lastWeek := by
      unfold calendarFormat
      rw [if_neg (by omega), if_pos (by omega)]
    rw [hk]
    simp [calendarFormats, jsOr, truthy]
  · intro h
    have hk : calendarFormat d = .nextWeek := by
      unfold calendarFormat
      rw [if_neg (by omega), if_neg (by omega), if_neg (by omega), if_neg (by omega),
        if_neg (by omega), if_pos (by omega)]
    rw [hk]
    simp [calendarFormats, jsOr, truthy]

/-- C13, amended, with the texts of `en` and the pattern `DD MMM YYYY`: the
timestamp of yesterday noon is valid, less than a day before the start of
today, and rendered with the pattern of the locale for `lastDay`; the
timestamp of five days ago, `2024-03-05`, is rendered with the pattern of the
locale for `lastWeek`; a text that is no date is rendered as the invalid-date
text. -/
theorem formatDate_of_yesterday_noon :
    truthy cardEn.dateFormat = true ∧
    moment (utcClock sampleNow) (.str "2024-03-09T12:00:00Z") = some 1709985600000 ∧
    (-1 * msPerDay ≤ diffDaysMs momentEn 1709985600000
        ((utcClock sampleNow).startOfDay (utcClock sampleNow).now) ∧
      diffDaysMs momentEn 1709985600000
        ((utcClock sampleNow).startOfDay (utcClock sampleNow).now) < 0) ∧
    _formatDate (utcClock sampleNow) momentEn { cardEn with t := some translationsEn }
        (.str "2024-03-09T12:00:00Z") =
      .ok (momentEn.format 1709985600000 (.str (momentEn.calendar .lastDay 1709985600000))) ∧
    _formatDate (utcClock sampleNow) momentEn { cardEn with t := some translationsEn }
        (.str "2024-03-05T12:00:00Z") =
      .ok (momentEn.format 1709640000000 (.str (momentEn.calendar .lastWeek 1709640000000))) ∧
    _formatDate (utcClock sampleNow) momentEn { cardEn with t := some translationsEn }
        (.str "soon") = .ok momentEn.invalidDate :=
  ⟨by decide, by decide, by decide,
   ((formatDate_outside_today_and_tomorrow (utcClock sampleNow) momentEn cardEn translationsEn
     (.str "2024-03-09T12:00:00Z") (by decide)).2 1709985600000 (by decide)).2.1 (by decide),
   ((formatDate_outside_today_and_tomorrow (utcClock sampleNow) momentEn cardEn translationsEn
     (.str "2024-03-05T12:00:00Z") (by decide)).2 1709640000000 (by decide)).2.2.1 (by decide),
   (formatDate_outside_today_and_tomorrow (utcClock sampleNow) momentEn cardEn translationsEn
     (.str "soon") (by decide)).1 (by decide)⟩

/-! ## The date label of a shipment row -/

theorem formatCalendar_ok (k : Clock) (f : Formatter) (tr : Translations)
    (dateFormat date : JsVal) : ∃ d, formatCalendar k f (some tr) dateFormat date = .ok d := by
  unfold formatCalendar
  cases moment k date with
  | none => exact ⟨_, rfl⟩
  | some m => exact ⟨_, rfl⟩

/-- The date label by the words of the amended claim C14, from the formatted
dates and times. -/
theorem deliveryDateLabel_cases (k : Clock) (f : Formatter) (tr : Translations)
    (dateFormat timeFormat : JsVal) (o : Obj) :
    ∃ label, deliveryDateLabel k f (some tr) dateFormat timeFormat o = .ok label ∧
      (truthy (o.get "delivery_date") = true →
        formatCalendar k f (some tr) dateFormat (o.get "delivery_date") = .ok label) ∧
      (truthy (o.get "delivery_date") = false → truthy (o.get "planned_date") = true →
        truthy (o.get "expected_datetime") = true →
        ∃ d, formatCalendar k f (some tr) dateFormat (o.get "expected_datetime") = .ok d ∧
          label = d ++ " " ++ formatClock k f timeFormat (o.get "expected_datetime")) ∧
      (truthy (o.get "delivery_date") = false → truthy (o.get "planned_date") = true →
        truthy (o.get "expected_datetime") = false →
        ∃ d, formatCalendar k f (some tr) dateFormat (o.get "planned_date") = .ok d ∧
          label = d ++ " " ++ formatClock k f timeFormat (o.get "planned_from") ++ " - " ++
            formatClock k f timeFormat (o.get "planned_to")) ∧
      (truthy (o.get "delivery_date") = false → truthy (o.get "planned_date") = false →
        label = tr.unknown) := by
  unfold deliveryDateLabel
  cases h1 : truthy (o.get "delivery_date") with
  | true =>
    obtain ⟨d, hd⟩ := formatCalendar_ok k f tr dateFormat (o.get "delivery_date")
    refine ⟨d, by simpa using hd, fun _ => hd, ?_, ?_, ?_⟩ <;> intro h <;> cases h
  | false =>
    cases h2 : truthy (o.get "planned_date") with
    | false =>
      refine ⟨tr.unknown, by simp, ?_, ?_, ?_, fun _ _ => rfl⟩
      · intro h; cases h
      · intro _ h; cases h
      · intro _ h; cases h
    | true =>
      cases h3 : truthy (o.get "expected_datetime") with
      | true =>
        obtain ⟨d, hd⟩ := formatCalendar_ok k f tr dateFormat (o.get "expected_datetime")
        refine ⟨_, by simp [hd, Except.map], ?_, fun _ _ _ => ⟨d, hd, rfl⟩, ?_, ?_⟩
        · intro h; cases h
        · intro _ _ h; cases h
        · intro _ h; cases h
      | false =>
        obtain ⟨d, hd⟩ := formatCalendar_ok k f tr dateFormat (o.get "planned_date")
        refine ⟨_, by simp [hd, Except.map], ?_, ?_, fun _ _ _ => ⟨d, hd, rfl⟩, ?_⟩
        · intro h; cases h
        · intro _ _ h; cases h
        · intro _ h; cases h

/-- C14, as stated, fails: for a shipment with `expected_datetime` but neither
`delivery_date` nor `planned_date` the date label is the unknown placeholder,
although not all three are absent. -/
theorem expected_only_is_unknown :
    truthy (shipmentExpectedOnly.get "expected_datetime") = true ∧
    Except.map ShipmentRow.deliveryDate
      (_renderShipmentRow (utcClock sampleNow) momentEn cardEn shipmentExpectedOnly "enroute") =
        (.ok "Unknown" : Except String String) ∧
    Except.map ShipmentRow.deliveryDate
      (Main._renderShipmentRow (utcClock sampleNow) momentEn
        { Main.Card.new with t := some translationsEn } (some shipmentExpectedOnly) "enroute") =
        (.ok "Unknown" : Except String String) := by
  decide

/-- C14, amended: for every shipment, `_renderShipmentRow` (of `postnl-card.js`
and of `main.js`, with the texts `tr` loaded) returns a row whose date label
is: `_formatDate(delivery_date)` when `delivery_date` is present; otherwise,
when `planned_date` is present, `_formatDate(expected_datetime)`, a blank and
`_formatTime(expected_datetime)` if `expected_datetime` is present, and
`_formatDate(planned_date)`, a blank, `_formatTime(planned_from)`, ` - ` and
`_formatTime(planned_to)` if it is not; and the unknown placeholder whenever
`delivery_date` and `planned_date` are both absent, whether `expected_datetime`
is present or not. -/
theorem shipment_row_date_label (k : Clock) (f : Formatter) (c : Card) (mc : Main.Card)
    (tr : Translations) (o : Obj) (status : String) :
    (∃ row, _renderShipmentRow k f { c with t := some tr } o status = .ok row ∧
      Main._renderShipmentRow k f { mc with
          t := some tr, dateFormat := c.dateFormat, timeFormat := c.timeFormat }
        (some o) status = .ok { row with title := o.get "name" } ∧
      (truthy (o.get "delivery_date") = true →
        _formatDate k f { c with t := some tr } (o.get "delivery_date") =
          .ok row.deliveryDate) ∧
      (truthy (o.get "delivery_date") = false → truthy (o.get "planned_date") = true →
        truthy (o.get "expected_datetime") = true →
        ∃ d, _formatDate k f { c with t := some tr } (o.get "expected_datetime") = .ok d ∧
          row.deliveryDate = d ++ " " ++
            _formatTime k f { c with t := some tr } (o.get "expected_datetime")) ∧
      (truthy (o.get "delivery_date") = false → truthy (o.get "planned_date") = true →
        truthy (o.get "expected_datetime") = false →
        ∃ d, _formatDate k f { c with t := some tr } (o.get "planned_date") = .ok d ∧
          row.deliveryDate = d ++ " " ++
            _formatTime k f { c with t := some tr } (o.get "planned_from") ++ " - " ++
            _formatTime k f { c with t := some tr } (o.get "planned_to")) ∧
      (truthy (o.get "delivery_date") = false → truthy (o.get "planned_date") = false →
        row.deliveryDate = tr.unknown)) := by
  obtain ⟨label, hl, h1, h2, h3, h4⟩ :=
    deliveryDateLabel_cases k f tr c.dateFormat c.timeFormat o
  refine ⟨{ className := status
            icon := if status = "delivered" then "mdi:check-circle" else "mdi:truck"
            href := o.get "url"
            title :=
              if truthy (o.get "sender_name") then
                .str (jsString (o.get "name") ++ " (" ++ jsString (o.get "sender_name") ++ ")")
              else .str (jsString (o.get "name"))
            status := jsOr (o.get "status_message") (.str tr.unknown)
            deliveryDate := label }, ?_, ?_, h1, h2, h3, h4⟩
  · simp only [_renderShipmentRow, hl, Except.map]
  · simp only [Main._renderShipmentRow, hl, Except.map]

/-- Scenario C: for a shipment with only `planned_date`, `planned_from` and
`planned_to`, planned for tomorrow noon, the date label is the relative date,
a blank, the time of `planned_from`, ` - `, and the time of `planned_to` (the
text of each part names the pattern and the instant that `format` received). -/
theorem scenario_C_label :
    Except.map ShipmentRow.deliveryDate
      (_renderShipmentRow (utcClock sampleNow) momentEn cardEn shipmentPlanned "enroute") =
        (.ok ("format(1710158400000, Tomorrow)" ++ " " ++ "format(1710158400000, HH:mm)" ++
          " - " ++ "format(1710158400000, HH:mm)") : Except String String) := by
  decide

/-! ## The not-found state -/

theorem updateData_frame (k : Clock) (c : Card) :
    (_updateData k c).1.config = c.config ∧
    (_updateData k c).1.hass = c.hass ∧
    (_updateData k c).1.deliveryConfigs = c.deliveryConfigs ∧
    (_updateData k c).1.distributionConfigs = c.distributionConfigs ∧
    (_updateData k c).1.lettersConfigs = c.lettersConfigs ∧
    (_updateData k c).1.delivery = c.delivery ∧
    (_updateData k c).1.distribution = c.distribution ∧
    (_updateData k c).1.letters = c.letters ∧
    (_updateData k c).1.t = c.t ∧
    (_updateData k c).1.currentTab = c.currentTab := by
  unfold _updateData
  dsimp only
  generalize lettersLoop k (pastDate k c.pastDays) c.letters [] = r
  obtain ⟨items, _ | err⟩ := r <;> exact ⟨rfl, rfl, rfl, rfl, rfl, rfl, rfl, rfl, rfl, rfl⟩

theorem updateEntities_frame (c : Card) :
    (_updateEntities c).config = c.config ∧
    (_updateEntities c).deliveryConfigs = c.deliveryConfigs ∧
    (_updateEntities c).distributionConfigs = c.distributionConfigs ∧
    (_updateEntities c).lettersConfigs = c.lettersConfigs ∧
    (_updateEntities c).t = c.t ∧
    (_updateEntities c).currentTab = c.currentTab ∧
    (_updateEntities c).pastDays = c.pastDays := by
  unfold _updateEntities
  split <;> exact ⟨rfl, rfl, rfl, rfl, rfl, rfl, rfl⟩

/-- The card on which `set hass` calls `_updateData`, for a configured card. -/
theorem setHass_eq (k : Clock) (c : Card) (config : Config) (hass : Hass)
    (hc : c.config = some config) :
    setHass k c hass = _updateData k (_updateEntities
      (if truthy config.language = true then { c with hass := some hass }
      else { c with
        hass := some hass
        language := .str (if hass.language = "nl" then "nl" else "en")
        t := TRANSLATIONS (.str (if hass.language = "nl" then "nl" else "en")) })) := by
  unfold setHass
  rw [hc]

/-- The resolved sources after `hass = h` on a configured card. -/
theorem setHass_sources (k : Clock) (c : Card) (config : Config) (hass : Hass)
    (hc : c.config = some config) :
    (setHass k c hass).1.delivery = resolveAll hass c.deliveryConfigs ∧
    (setHass k c hass).1.distribution = resolveAll hass c.distributionConfigs ∧
    (setHass k c hass).1.letters = resolveAll hass c.lettersConfigs := by
  rw [setHass_eq k c config hass hc]
  generalize hx : (if truthy config.language = true then { c with hass := some hass }
      else { c with
        hass := some hass
        language := .str (if hass.language = "nl" then "nl" else "en")
        t := TRANSLATIONS (.str (if hass.language = "nl" then "nl" else "en")) } : Card) = x
  have hh : x.hass = some hass ∧ x.deliveryConfigs = c.deliveryConfigs ∧
      x.distributionConfigs = c.distributionConfigs ∧ x.lettersConfigs = c.lettersConfigs := by
    rw [← hx]
    split <;> exact ⟨rfl, rfl, rfl, rfl⟩
  obtain ⟨_, _, _, _, _, h1, h2, h3, _, _⟩ := updateData_frame k (_updateEntities x)
  rw [h1, h2, h3]
  unfold _updateEntities
  rw [hh.1]
  dsimp only
  rw [hh.2.1, hh.2.2.1, hh.2.2.2]
  exact ⟨rfl, rfl, rfl⟩

theorem resolveAll_eq_nil_iff (hass : Hass) (ds : List Descriptor) :
    resolveAll hass (ds.map .desc) = [] ↔ ∀ d ∈ ds, hass.states.lookup d.entity = none := by
  rw [resolveAll_eq_normalize]
  unfold normalize
  rw [List.filterMap_eq_nil_iff]
  constructor
  · intro h d hd
    have := h d hd
    cases hl : hass.states.lookup d.entity with
    | none => rfl
    | some st => rw [hl] at this; cases this
  · intro h d hd
    rw [h d hd]

theorem updateData_of_no_sources (k : Clock) (c : Card)
    (h1 : c.delivery = []) (h2 : c.distribution = []) (h3 : c.letters = []) :
    (_updateData k c).1.enrouteShipments = [] ∧
    (_updateData k c).1.deliveredShipments = [] ∧
    (_updateData k c).1.letterItems = [] ∧
    (_updateData k c).2 = none := by
  have hl : ∀ e ∈ c.letters, ∀ p ∈ e.state.attributes.letters.getD [], p.2 ≠ none := by
    rw [h3]; intro e he; cases he
  obtain ⟨hret, hitems⟩ := updateData_letters_of_objects k c hl
  refine ⟨?_, ?_, ?_, hret⟩
  · rw [updateData_enroute, h1, h2]; rfl
  · rw [updateData_delivered, h1, h2]; rfl
  · rw [hitems, h3]; rfl

theorem render_notFound_iff (c : Card) (m : String) :
    render c = .ok (.notFound m) ↔
      (c.delivery = [] ∧ c.distribution = [] ∧ c.letters = []) ∧
        ∃ tr, c.t = some tr ∧ m = tr.unavailable_entities := by
  unfold render
  simp only [List.length_eq_zero]
  split
  · rename_i h
    cases ht : c.t with
    | none => simp [h]
    | some tr =>
      simp only [h, true_and, Option.some.injEq, exists_eq_left']
      constructor
      · intro e; cases e; rfl
      · intro e; rw [e]
  · rename_i h
    cases ht : c.t with
    | none => simp [h]
    | some tr => simp [h]

theorem resolveAll_configs_eq_nil_iff (hass : Hass) (g : Group) (hg : g.IsDescriptors) :
    resolveAll hass g.configs = [] ↔ ∀ s ∈ g.ids, hass.states.lookup s = none := by
  cases g with
  | absent => simp [Group.configs, Group.ids, resolveAll, filterBoolean]
  | single s => cases hg
  | list ds =>
    simp only [Group.configs, Group.ids, resolveAll_eq_nil_iff, List.mem_map,
      forall_exists_index, and_imp, forall_apply_eq_imp_iff₂]

theorem setConfig_accepted (c : Card) (config : Config) (h : (setConfig c config).2 = none) :
    (setConfig c config).1.config = some config ∧
    (setConfig c config).1.deliveryConfigs = config.delivery.configs ∧
    (setConfig c config).1.distributionConfigs = config.distribution.configs ∧
    (setConfig c config).1.lettersConfigs = config.letters.configs ∧
    (setConfig c config).1.letters = [] ∧
    (setConfig c config).1.currentTab = c.currentTab := by
  unfold setConfig at h ⊢
  split
  · rename_i hh
    rw [if_pos hh] at h
    cases h
  · exact ⟨rfl, rfl, rfl, rfl, rfl, rfl⟩

/-- C15: evaluation at the failing input, the configuration
`delivery: sensor.postnl_delivery` of C9 with the snapshot table of Scenario A.
The configured source id has a snapshot, yet after the snapshot update no
source is resolved, the shipment collections are empty and `render` selects
the not-found state. Besides, with a `language` that has no texts `render`
raises instead of selecting a state. For configurations whose groups are lists of descriptors
(or absent) the claim holds: if no configured id has a snapshot the three
collections are empty and `render` selects the not-found state (when the
texts of the language are loaded), and `render` selects it only then. -/
theorem not_found_although_snapshot_present :
    ("sensor.postnl_delivery" ∈ configSingle.ids ∧
      hassA.states.lookup "sensor.postnl_delivery" = some snapshotA ∧
      (run configSingle hassA).enrouteShipments = [] ∧
      (run configSingle hassA).deliveredShipments = [] ∧
      render (run configSingle hassA) = .ok (.notFound translationsEn.unavailable_entities)) ∧
    ((setConfig Card.new configGerman).2 = none ∧
      (∀ s ∈ configGerman.ids, ({ } : Hass).states.lookup s = none) ∧
      render (run configGerman { }) =
        .error "TypeError: Cannot read properties of undefined") ∧
    (∀ (k : Clock) (c : Card) (config : Config) (hass : Hass),
      config.delivery.IsDescriptors → config.distribution.IsDescriptors →
      config.letters.IsDescriptors → (setConfig c config).2 = none →
      ((∀ s ∈ config.ids, hass.states.lookup s = none) →
        (setHass k (setConfig c config).1 hass).2 = none ∧
        (setHass k (setConfig c config).1 hass).1.enrouteShipments = [] ∧
        (setHass k (setConfig c config).1 hass).1.deliveredShipments = [] ∧
        (setHass k (setConfig c config).1 hass).1.letterItems = [] ∧
        (∀ tr, (setHass k (setConfig c config).1 hass).1.t = some tr →
          render (setHass k (setConfig c config).1 hass).1 =
            .ok (.notFound tr.unavailable_entities))) ∧
      (∀ m, render (setHass k (setConfig c config).1 hass).1 = .ok (.notFound m) →
        ∀ s ∈ config.ids, hass.states.lookup s = none)) := by
  refine ⟨by decide, by decide, ?_⟩
  intro k c config hass hg1 hg2 hg3 hacc
  obtain ⟨hcfg, hd, hs, hl, _, _⟩ := setConfig_accepted c config hacc
  obtain ⟨h1, h2, h3⟩ := setHass_sources k (setConfig c config).1 config hass hcfg
  rw [hd] at h1
  rw [hs] at h2
  rw [hl] at h3
  have hiff : (∀ s ∈ config.ids, hass.states.lookup s = none) ↔
      ((setHass k (setConfig c config).1 hass).1.delivery = [] ∧
        (setHass k (setConfig c config).1 hass).1.distribution = [] ∧
        (setHass k (setConfig c config).1 hass).1.letters = []) := by
    rw [h1, h2, h3, resolveAll_configs_eq_nil_iff hass _ hg1,
      resolveAll_configs_eq_nil_iff hass _ hg2, resolveAll_configs_eq_nil_iff hass _ hg3]
    unfold Config.ids
    simp only [List.mem_append]
    constructor
    · intro h
      exact ⟨fun s hs => h s (Or.inl (Or.inl hs)), fun s hs => h s (Or.inl (Or.inr hs)),
        fun s hs => h s (Or.inr hs)⟩
    · rintro ⟨ha, hb, hc⟩ s ((hs | hs) | hs)
      · exact ha s hs
      · exact hb s hs
      · exact hc s hs
  constructor
  · intro hnone
    obtain ⟨e1, e2, e3⟩ := hiff.mp hnone
    have hrender : ∀ tr, (setHass k (setConfig c config).1 hass).1.t = some tr →
        render (setHass k (setConfig c config).1 hass).1 =
          .ok (.notFound tr.unavailable_entities) :=
      fun tr ht => (render_notFound_iff _ _).mpr ⟨⟨e1, e2, e3⟩, tr, ht, rfl⟩
    rw [setHass_eq k _ config hass hcfg] at e1 e2 e3 ⊢
    rw [setHass_eq k _ config hass hcfg] at hrender
    generalize (_updateEntities (if truthy config.language = true then
      { (setConfig c config).1 with hass := some hass }
      else { (setConfig c config).1 with
        hass := some hass
        language := .str (if hass.language = "nl" then "nl" else "en")
        t := TRANSLATIONS (.str (if hass.language = "nl" then "nl" else "en")) })) = x
      at e1 e2 e3 hrender ⊢
    obtain ⟨_, _, _, _, _, f1, f2, f3, _, _⟩ := updateData_frame k x
    obtain ⟨r1, r2, r3, r4⟩ := updateData_of_no_sources k x (f1 ▸ e1) (f2 ▸ e2) (f3 ▸ e3)
    exact ⟨r4, r1, r2, r3, hrender⟩
  · intro m hm
    exact hiff.mpr ((render_notFound_iff _ _).mp hm).1

/-! ## The active tab -/

theorem Group.configs_eq_nil_iff (g : Group) : g.configs = [] ↔ g.AbsentOrEmpty := by
  cases g with
  | absent => simp [Group.configs, Group.AbsentOrEmpty]
  | single s =>
    unfold Group.configs Group.AbsentOrEmpty
    split <;> simp_all
  | list ds => simp [Group.configs, Group.AbsentOrEmpty]

theorem resolveAll_nil (hass : Hass) : resolveAll hass [] = [] := rfl

theorem offers_letters (c : Card) (h : Offers c .letters) : c.letters ≠ [] := by
  obtain ⟨tabs, hr, hmem⟩ := h
  intro hl
  unfold render at hr
  split at hr
  · cases hc : c.t with
    | none => rw [hc] at hr; cases hr
    | some tr => rw [hc] at hr; cases hr
  · cases hc : c.t with
    | none => rw [hc] at hr; cases hr
    | some tr =>
      rw [hc] at hr
      injection hr with hr
      injection hr with hr
      rw [← hr] at hmem
      simp [_renderTabs, hl] at hmem

theorem setConfig_raised (c : Card) (config : Config) (h : (setConfig c config).2 ≠ none) :
    (setConfig c config).1 = c := by
  unfold setConfig at h ⊢
  split
  · rfl
  · rename_i hh
    rw [if_neg hh] at h
    exact absurd rfl h

theorem setHass_unconfigured (k : Clock) (c : Card) (hass : Hass) (hc : c.config = none) :
    (setHass k c hass).1 = { c with hass := some hass } := by
  unfold setHass
  rw [hc]

theorem setHass_frame (k : Clock) (c : Card) (hass : Hass) :
    (setHass k c hass).1.config = c.config ∧
    (setHass k c hass).1.lettersConfigs = c.lettersConfigs ∧
    (setHass k c hass).1.currentTab = c.currentTab ∧
    ((setHass k c hass).1.letters = c.letters ∨
      (setHass k c hass).1.letters = resolveAll hass c.lettersConfigs) := by
  cases hc : c.config with
  | none =>
    rw [setHass_unconfigured k c hass hc]
    exact ⟨hc, rfl, rfl, Or.inl rfl⟩
  | some config =>
    obtain ⟨_, _, h3⟩ := setHass_sources k c config hass hc
    refine ⟨?_, ?_, ?_, Or.inr h3⟩
    all_goals
      rw [setHass_eq k c config hass hc]
      generalize hx : (if truthy config.language = true then { c with hass := some hass }
          else { c with
            hass := some hass
            language := .str (if hass.language = "nl" then "nl" else "en")
            t := TRANSLATIONS (.str (if hass.language = "nl" then "nl" else "en")) } : Card) = x
      have hh : x.config = c.config ∧ x.lettersConfigs = c.lettersConfigs ∧
          x.currentTab = c.currentTab := by
        rw [← hx]
        split <;> exact ⟨rfl, rfl, rfl⟩
      obtain ⟨f1, _, _, _, f5, _, _, _, _, f10⟩ := updateData_frame k (_updateEntities x)
      obtain ⟨g1, _, _, g4, _, g6, _⟩ := updateEntities_frame x
    · rw [f1, g1, hh.1, hc]
    · rw [f5, g4, hh.2.1]
    · rw [f10, g6, hh.2.2]

theorem tabInvariant_of_reachable (c : Card) (h : Reachable keepsLetters c) :
    TabInvariant c := by
  induction h with
  | start => exact ⟨rfl, fun h => absurd rfl h, fun h => by cases h⟩
  | configure c config _ hallowed ih =>
    by_cases hacc : (setConfig c config).2 = none
    · obtain ⟨hcfg, _, _, hl, hlet, htab⟩ := setConfig_accepted c config hacc
      refine ⟨by rw [hl, hcfg], fun h => absurd hlet h, ?_⟩
      intro ht
      rw [htab] at ht
      rw [hl]
      intro hnil
      exact hallowed ht hacc ((Group.configs_eq_nil_iff _).mp hnil)
    · rw [setConfig_raised c config hacc]
      exact ih
  | update k c hass _ ih =>
    obtain ⟨h1, h2, h3, h4⟩ := setHass_frame k c hass
    obtain ⟨i1, i2, i3⟩ := ih
    refine ⟨by rw [h1, h2]; exact i1, ?_, by rw [h2, h3]; exact i3⟩
    rw [h2]
    rcases h4 with h4 | h4
    · rw [h4]; exact i2
    · rw [h4]
      intro hl hn
      apply hl
      rw [hn]
      rfl
  | select c tab _ hoffers ih =>
    obtain ⟨i1, i2, i3⟩ := ih
    refine ⟨i1, i2, ?_⟩
    intro ht
    have : tab = .letters := ht
    subst this
    exact i2 (offers_letters c hoffers)

theorem reachable_run (allowed : Card → Config → Prop) (config : Config) (hass : Hass)
    (h : allowed Card.new config) : Reachable allowed (run config hass) :=
  Reachable.update _ _ _ (Reachable.configure _ _ Reachable.start h)

/-- C16, as stated, fails: from the run of Scenario B the Letters tab, which the
card offers, is selected; `setConfig` with a configuration without letters
group and a snapshot update follow. The state reached has the Letters tab
active and shown, while no letter source is configured and the card offers
only the Shipments tab. -/
theorem letters_tab_survives_setConfig :
    Card.new.currentTab = .shipments ∧
    Reachable anyConfig cardStaleTabShown ∧
    cardStaleTabShown.currentTab = .letters ∧
    cardStaleTabShown.config = some configLate ∧
    configLate.letters = .absent ∧
    cardStaleTabShown.lettersConfigs = [] ∧
    render cardStaleTabShown =
      .ok (.content { buttons := [.shipments], shown := .letters }) := by
  refine ⟨rfl, ?_, by decide, by decide, rfl, by decide, by decide⟩
  refine Reachable.update _ _ _ (Reachable.configure _ _ ?_ trivial)
  refine Reachable.select _ _ (reachable_run anyConfig configB hassB trivial) ?_
  exact ⟨_renderTabs (run configB hassB), by decide, by decide⟩

/-- C16, amended: the view state starts as Shipments, and in every state
reachable from the initial one by `setConfig` calls, snapshot updates and
selections of a tab that the card currently offers, where every `setConfig`
call accepted while the Letters tab is active configures at least one letter
source, the active tab is Letters only if at least one letter source is
configured. -/
theorem letters_tab_only_if_configured (c : Card) (h : Reachable keepsLetters c) :
    Card.new.currentTab = .shipments ∧
    (c.currentTab = .letters →
      ∃ config, c.config = some config ∧ ¬ config.letters.AbsentOrEmpty) := by
  refine ⟨rfl, fun ht => ?_⟩
  obtain ⟨i1, _, i3⟩ := tabInvariant_of_reachable c h
  have hne := i3 ht
  cases hc : c.config with
  | none =>
    rw [hc] at i1
    exact absurd i1 hne
  | some config =>
    rw [hc] at i1
    refine ⟨config, rfl, fun hempty => hne ?_⟩
    rw [i1]
    exact (Group.configs_eq_nil_iff _).mpr hempty

/-- C16, amended, at Scenario B with the Letters tab selected: the state is
reachable, its active tab is Letters and a letter source is configured. -/
theorem letters_tab_scenario_B :
    Reachable keepsLetters cardLettersTab ∧
    cardLettersTab.currentTab = .letters ∧
    ∃ config, cardLettersTab.config = some config ∧ ¬ config.letters.AbsentOrEmpty :=
  have hr : Reachable keepsLetters cardLettersTab :=
    Reachable.select _ _
      (reachable_run keepsLetters configB hassB (fun h => absurd h (by decide)))
      ⟨_renderTabs (run configB hassB), by decide, by decide⟩
  ⟨hr, by decide, (letters_tab_only_if_configured cardLettersTab hr).2 (by decide)⟩

/-! ## Agreement of the two cards -/

theorem filter_replace_sender (v : JsVal) :
    ∀ o : Obj, List.filter (fun p => p.1 != "sender_name")
        (o.map (fun p => if p.1 == "sender_name" then ("sender_name", v) else p)) =
      List.filter (fun p => p.1 != "sender_name") o
  | [] => rfl
  | p :: o => by
    have ih := filter_replace_sender v o
    simp only [beq_iff_eq] at ih
    by_cases hp : p.1 = "sender_name"
    · simp [hp, ih]
    · simp [hp, ih]

theorem eraseSender_set (o : Obj) (v : JsVal) :
    eraseSender (o.set "sender_name" v) = eraseSender o := by
  unfold eraseSender Obj.set
  split
  · exact filter_replace_sender v o
  · simp [List.filter_append]

theorem get_eraseSender (o : Obj) (key : String) (h : key ≠ "sender_name") :
    (eraseSender o).get key = o.get key := by
  unfold eraseSender Obj.get
  congr 1
  induction o with
  | nil => rfl
  | cons p o ih =>
    obtain ⟨pk, pv⟩ := p
    by_cases hp : pk = "sender_name"
    · have hk : (key == pk) = false := by
        rw [hp]; exact beq_false_of_ne h
      rw [lookup_cons_ne _ _ _ _ hk]
      simp only [List.filter_cons, hp, bne_self_eq_false, Bool.false_eq_true, if_false]
      exact ih
    · have hb : (pk != "sender_name") = true := by simpa using hp
      simp only [List.filter_cons, hb, if_true]
      by_cases hk : (key == pk) = true
      · rw [lookup_cons_eq _ _ _ _ hk, lookup_cons_eq _ _ _ _ hk]
      · have hk2 : (key == pk) = false := by simpa using hk
        rw [lookup_cons_ne _ _ _ _ hk2, lookup_cons_ne _ _ _ _ hk2]
        exact ih

theorem sortInsert_map {α β : Type} (g : α → β) (cmpA : α → α → Option Int)
    (cmpB : β → β → Option Int) (h : ∀ a b, cmpB (g a) (g b) = cmpA a b) (a : α) :
    ∀ l : List α, sortInsert cmpB (g a) (l.map g) = (sortInsert cmpA a l).map g
  | [] => rfl
  | b :: l => by
    simp only [List.map_cons, sortInsert, h]
    split
    · rw [sortInsert_map g cmpA cmpB h a l]
      rfl
    · rfl

theorem jsSort_map {α β : Type} (g : α → β) (cmpA : α → α → Option Int)
    (cmpB : β → β → Option Int) (h : ∀ a b, cmpB (g a) (g b) = cmpA a b) :
    ∀ l : List α, jsSort cmpB (l.map g) = (jsSort cmpA l).map g
  | [] => rfl
  | a :: l => by
    simp only [List.map_cons, jsSort]
    rw [jsSort_map g cmpA cmpB h l, sortInsert_map g cmpA cmpB h]

theorem sortInsertThrowing_some (k : Clock) (field : String) (a : Obj) :
    ∀ l : List Obj, sortInsertThrowing (byDateDescItem k field) (some a) (l.map some) =
      some ((sortInsert (byDateDesc k field) a l).map some)
  | [] => rfl
  | b :: l => by
    simp only [List.map_cons, sortInsertThrowing, sortInsert, byDateDescItem]
    rw [show diff (moment k (b.get field)) (moment k (a.get field)) = byDateDesc k field a b
      from rfl]
    split
    · rw [sortInsertThrowing_some k field a l]
      rfl
    · rfl

theorem jsSortThrowing_some (k : Clock) (field : String) :
    ∀ l : List Obj, jsSortThrowing (byDateDescItem k field) (l.map some) =
      some ((jsSort (byDateDesc k field) l).map some)
  | [] => rfl
  | a :: l => by
    simp only [List.map_cons, jsSortThrowing, jsSort]
    rw [jsSortThrowing_some k field l]
    exact sortInsertThrowing_some k field a _

theorem filterThrowing_delivered_some (k : Clock) (cutoff : Int) :
    ∀ l : List Obj, filterThrowing (keepDeliveredItem k cutoff) (l.map some) =
      some ((l.filter (keepDelivered k cutoff)).map some)
  | [] => rfl
  | a :: l => by
    simp only [List.map_cons, filterThrowing, keepDeliveredItem,
      filterThrowing_delivered_some k cutoff l, List.filter_cons]
    split <;> rfl

theorem filterThrowing_letters (k : Clock) (cutoff : Int) :
    ∀ xs : List Item, filterThrowing (keepLetterItem k cutoff) xs =
      (filterLetters k cutoff xs).map (fun kept => kept.map some)
  | [] => rfl
  | none :: xs => rfl
  | some o :: xs => by
    simp only [filterThrowing, keepLetterItem, filterLetters, keepLetter,
      filterThrowing_letters k cutoff xs]
    cases filterLetters k cutoff xs with
    | none => rfl
    | some r =>
      simp only [Option.map_some']
      split <;> rfl

/-- A list without `null` entries is the list of its objects. -/
theorem eq_map_some_of_no_null :
    ∀ xs : List Item, (∀ x ∈ xs, x ≠ none) → xs = (xs.filterMap id).map some
  | [], _ => rfl
  | none :: xs, h => absurd rfl (h none (List.mem_cons_self _ _))
  | some o :: xs, h => by
    simp only [List.filterMap_cons, id, List.map_cons]
    rw [← eq_map_some_of_no_null xs (fun x hx => h x (List.mem_cons_of_mem _ hx))]

theorem flatMap_asSources (sel : Attributes → Option (List Item)) (mc : Main.Card) :
    (asSources mc.delivery ++ asSources mc.distribution).flatMap
        (fun e => ((sel e.state.attributes).getD []).map
          (fun x => (spread x).set "sender_name" e.name)) =
      (Main.pushed sel mc).map (fun x => (spread x).set "sender_name" .null) := by
  unfold Main.pushed asSources
  cases mc.delivery <;> cases mc.distribution <;> simp [List.flatMap_cons]

theorem pushed_no_null (sel : Attributes → Option (List Item)) (mc : Main.Card)
    (h1 : ∀ state, mc.delivery = some state → ∀ x ∈ (sel state.attributes).getD [], x ≠ none)
    (h2 : ∀ state, mc.distribution = some state →
      ∀ x ∈ (sel state.attributes).getD [], x ≠ none) :
    ∀ x ∈ Main.pushed sel mc, x ≠ none := by
  unfold Main.pushed
  intro x hx
  rcases List.mem_append.mp hx with hx | hx
  · cases hd : mc.delivery with
    | none => rw [hd] at hx; cases hx
    | some d => rw [hd] at hx; exact h1 d hd x hx
  · cases hd : mc.distribution with
    | none => rw [hd] at hx; cases hx
    | some d => rw [hd] at hx; exact h2 d hd x hx

theorem byDateDesc_set_sender (k : Clock) (field : String) (hf : field ≠ "sender_name")
    (v : JsVal) (a b : Obj) :
    byDateDesc k field (a.set "sender_name" v) (b.set "sender_name" v) =
      byDateDesc k field a b := by
  unfold byDateDesc
  rw [Obj.get_set_other _ _ _ _ hf, Obj.get_set_other _ _ _ _ hf]

theorem keepDelivered_set_sender (k : Clock) (cutoff : Int) (v : JsVal) (o : Obj) :
    keepDelivered k cutoff (o.set "sender_name" v) = keepDelivered k cutoff o := by
  unfold keepDelivered
  rw [Obj.get_set_other _ _ _ _ (by decide)]

theorem map_erase_map_set (v : JsVal) (l : List Obj) :
    (l.map (fun o => o.set "sender_name" v)).map (fun o => some (eraseSender o)) =
      (l.map some).map (Option.map eraseSender) := by
  simp only [List.map_map]
  apply List.map_congr_left
  intro o _
  simp [eraseSender_set]

theorem updateData_letters_single (k : Clock) (c : Card) (l : Option Snapshot)
    (hl : c.letters = asSources l) :
    (l.bind (fun s => s.attributes.letters) = none →
      (_updateData k c).1.letterItems = [] ∧ (_updateData k c).2 = none) ∧
    (∀ m, l.bind (fun s => s.attributes.letters) = some m →
      filterLetters k (pastDate k c.pastDays) (m.map Prod.snd) = none →
      (_updateData k c).1.letterItems = [] ∧
        (_updateData k c).2 = some "TypeError: Cannot read properties of null") ∧
    (∀ m kept, l.bind (fun s => s.attributes.letters) = some m →
      filterLetters k (pastDate k c.pastDays) (m.map Prod.snd) = some kept →
      (_updateData k c).1.letterItems = jsSort (byDateDesc k "delivery_date")
          (kept.map (fun o => o.set "sender_name" .null)) ∧
        (_updateData k c).2 = none) := by
  unfold _updateData
  dsimp only
  rw [hl]
  refine ⟨?_, ?_, ?_⟩
  · intro h
    cases l with
    | none => exact ⟨rfl, rfl⟩
    | some s =>
      have hm : s.attributes.letters = none := h
      simp [asSources, lettersLoop, hm, jsSort]
  · intro m h hf
    cases l with
    | none => cases h
    | some s =>
      have hm : s.attributes.letters = some m := h
      simp [asSources, lettersLoop, hm, hf]
  · intro m kept h hf
    cases l with
    | none => cases h
    | some s =>
      have hm : s.attributes.letters = some m := h
      simp [asSources, lettersLoop, hm, hf, annotate, spread]

theorem main_updateData_letters (k : Clock) (mc : Main.Card) (en de : List Item)
    (hE : jsSortThrowing (byDateDescItem k "planned_date")
      (Main.pushed (fun a => a.enroute) mc) = some en)
    (hD : (filterThrowing (keepDeliveredItem k (pastDate k mc.pastDays))
        (Main.pushed (fun a => a.delivered) mc)).bind
          (jsSortThrowing (byDateDescItem k "delivery_date")) = some de) :
    (Main._updateData k mc).1.enrouteShipments = en ∧
    (Main._updateData k mc).1.deliveredShipments = de ∧
    (mc.letters.bind (fun s => s.attributes.letters) = none →
      (Main._updateData k mc).1.letterItems = [] ∧ (Main._updateData k mc).2 = none) ∧
    (∀ m, mc.letters.bind (fun s => s.attributes.letters) = some m →
      filterLetters k (pastDate k mc.pastDays) (m.map Prod.snd) = none →
      (Main._updateData k mc).1.letterItems = [] ∧
        (Main._updateData k mc).2 = some "TypeError: Cannot read properties of null") ∧
    (∀ m kept, mc.letters.bind (fun s => s.attributes.letters) = some m →
      filterLetters k (pastDate k mc.pastDays) (m.map Prod.snd) = some kept →
      (Main._updateData k mc).1.letterItems =
          (jsSort (byDateDesc k "delivery_date") kept).map some ∧
        (Main._updateData k mc).2 = none) := by
  unfold Main._updateData
  dsimp only
  rw [hE, hD]
  dsimp only
  cases hb : mc.letters.bind (fun s => s.attributes.letters) with
  | none =>
    refine ⟨rfl, rfl, fun _ => ⟨rfl, rfl⟩, ?_, ?_⟩
    · intro m h; cases h
    · intro m kept h; cases h
  | some m0 =>
    dsimp only
    rw [filterThrowing_letters]
    cases hf : filterLetters k (pastDate k mc.pastDays) (m0.map Prod.snd) with
    | none =>
      refine ⟨rfl, rfl, ?_, ?_, ?_⟩
      · intro h; cases h
      · intro m h _; exact ⟨rfl, rfl⟩
      · intro m kept h hk
        cases h
        rw [hf] at hk
        cases hk
    | some kept0 =>
      simp only [Option.map_some']
      rw [show (some (kept0.map some)).bind (jsSortThrowing (byDateDescItem k "delivery_date")) =
        some ((jsSort (byDateDesc k "delivery_date") kept0).map some)
        from jsSortThrowing_some k _ kept0]
      refine ⟨rfl, rfl, ?_, ?_, ?_⟩
      · intro h; cases h
      · intro m h hk
        cases h
        rw [hf] at hk
        cases hk
      · intro m kept h hk
        cases h
        rw [hf] at hk
        cases hk
        exact ⟨rfl, rfl⟩

theorem main_updateData_shipments (k : Clock) (mc : Main.Card)
    (h1 : noNullShipments mc.delivery) (h2 : noNullShipments mc.distribution) :
    jsSortThrowing (byDateDescItem k "planned_date") (Main.pushed (fun a => a.enroute) mc) =
      some ((jsSort (byDateDesc k "planned_date")
        ((Main.pushed (fun a => a.enroute) mc).filterMap id)).map some) ∧
    (filterThrowing (keepDeliveredItem k (pastDate k mc.pastDays))
        (Main.pushed (fun a => a.delivered) mc)).bind
          (jsSortThrowing (byDateDescItem k "delivery_date")) =
      some ((jsSort (byDateDesc k "delivery_date")
        (((Main.pushed (fun a => a.delivered) mc).filterMap id).filter
          (keepDelivered k (pastDate k mc.pastDays)))).map some) := by
  have he := eq_map_some_of_no_null _ (pushed_no_null (fun a => a.enroute) mc
    (fun st hst => (h1 st hst).1) (fun st hst => (h2 st hst).1))
  have hd := eq_map_some_of_no_null _ (pushed_no_null (fun a => a.delivered) mc
    (fun st hst => (h1 st hst).2) (fun st hst => (h2 st hst).2))
  constructor
  · conv_lhs => rw [he]
    exact jsSortThrowing_some k _ _
  · conv_lhs => rw [hd]
    rw [filterThrowing_delivered_some]
    exact jsSortThrowing_some k _ _

theorem card_sorted_single (k : Clock) (field : String) (hf : field ≠ "sender_name")
    (xs : List Item) (hn : ∀ x ∈ xs, x ≠ none) (p : Obj → Bool)
    (hp : ∀ o, p (o.set "sender_name" .null) = p o) :
    (jsSort (byDateDesc k field)
        ((xs.map (fun x => (spread x).set "sender_name" .null)).filter p)).map
          (fun o => some (eraseSender o)) =
      ((jsSort (byDateDesc k field) ((xs.filterMap id).filter p)).map some).map
        (Option.map eraseSender) := by
  have hx : xs.map (fun x => (spread x).set "sender_name" .null) =
      (xs.filterMap id).map (fun o => o.set "sender_name" .null) := by
    conv_lhs => rw [eq_map_some_of_no_null xs hn]
    rw [List.map_map]
    rfl
  have hfilter : ((xs.filterMap id).map (fun o => o.set "sender_name" .null)).filter p =
      ((xs.filterMap id).filter p).map (fun o => o.set "sender_name" .null) := by
    rw [List.filter_map]
    congr 1
    apply List.filter_congr
    intro o _
    exact hp o
  rw [hx, hfilter,
    jsSort_map (fun o => o.set "sender_name" .null) (byDateDesc k field) (byDateDesc k field)
      (byDateDesc_set_sender k field hf .null)]
  exact map_erase_map_set .null _

/-- C17, as stated, fails: with a delivery snapshot whose `enroute` list is
`[null]`, `main.js` yields the enroute collection `[null]`, while
`postnl-card.js` yields one record, which is empty once `sender_name` is
erased. -/
theorem null_entry_disagreement :
    (Main._updateData (utcClock sampleNow)
        { Main.Card.new with delivery := some snapshotNullEnroute }).1.enrouteShipments.map
          (Option.map eraseSender) = [none] ∧
    (_updateData (utcClock sampleNow)
        (asCard Card.new { Main.Card.new with
          delivery := some snapshotNullEnroute })).1.enrouteShipments.map
          (fun o => some (eraseSender o)) = [some []] := by
  decide

/-- C17, amended: for every optional delivery, distribution and letters
snapshot of which the `enroute` and `delivered` lists of the first two hold no
`null` entry, every `pastDays` and every clock, `_updateData` of `main.js` and
`_updateData` of `postnl-card.js` on the corresponding source lists (at most
one source each, display name `null`) raise or return alike and produce the
same enroute, delivered and letters collections, in the same order, once
`sender_name` is erased from the records of both. -/
theorem single_source_agreement (k : Clock) (mc : Main.Card) (c : Card)
    (h1 : noNullShipments mc.delivery) (h2 : noNullShipments mc.distribution) :
    (Main._updateData k mc).2 = (_updateData k (asCard c mc)).2 ∧
    (Main._updateData k mc).1.enrouteShipments.map (Option.map eraseSender) =
      (_updateData k (asCard c mc)).1.enrouteShipments.map (fun o => some (eraseSender o)) ∧
    (Main._updateData k mc).1.deliveredShipments.map (Option.map eraseSender) =
      (_updateData k (asCard c mc)).1.deliveredShipments.map
        (fun o => some (eraseSender o)) ∧
    (Main._updateData k mc).1.letterItems.map (Option.map eraseSender) =
      (_updateData k (asCard c mc)).1.letterItems.map (fun o => some (eraseSender o)) := by
  obtain ⟨hE, hD⟩ := main_updateData_shipments k mc h1 h2
  obtain ⟨me, md, ml1, ml2, ml3⟩ := main_updateData_letters k mc _ _ hE hD
  obtain ⟨cl1, cl2, cl3⟩ := updateData_letters_single k (asCard c mc) mc.letters rfl
  have hne := pushed_no_null (fun a => a.enroute) mc
    (fun st hst => (h1 st hst).1) (fun st hst => (h2 st hst).1)
  have hnd := pushed_no_null (fun a => a.delivered) mc
    (fun st hst => (h1 st hst).2) (fun st hst => (h2 st hst).2)
  have hen : (Main._updateData k mc).1.enrouteShipments.map (Option.map eraseSender) =
      (_updateData k (asCard c mc)).1.enrouteShipments.map (fun o => some (eraseSender o)) := by
    rw [me, updateData_enroute]
    have := card_sorted_single k "planned_date" (by decide) _ hne (fun _ => true) (fun _ => rfl)
    simp only [List.filter_true] at this
    rw [← this, ← flatMap_asSources (fun a => a.enroute) mc]
    rfl
  have hde : (Main._updateData k mc).1.deliveredShipments.map (Option.map eraseSender) =
      (_updateData k (asCard c mc)).1.deliveredShipments.map
        (fun o => some (eraseSender o)) := by
    rw [md, updateData_delivered]
    rw [← card_sorted_single k "delivery_date" (by decide) _ hnd
      (keepDelivered k (pastDate k mc.pastDays)) (keepDelivered_set_sender k _ .null),
      ← flatMap_asSources (fun a => a.delivered) mc]
    rfl
  cases hb : mc.letters.bind (fun s => s.attributes.letters) with
  | none =>
    obtain ⟨m1, m2⟩ := ml1 hb
    obtain ⟨c1, c2⟩ := cl1 hb
    exact ⟨by rw [m2, c2], hen, hde, by rw [m1, c1]; rfl⟩
  | some m =>
    cases hf : filterLetters k (pastDate k mc.pastDays) (m.map Prod.snd) with
    | none =>
      obtain ⟨m1, m2⟩ := ml2 m hb hf
      obtain ⟨c1, c2⟩ := cl2 m hb hf
      exact ⟨by rw [m2, c2], hen, hde, by rw [m1, c1]; rfl⟩
    | some kept =>
      obtain ⟨m1, m2⟩ := ml3 m kept hb hf
      obtain ⟨c1, c2⟩ := cl3 m kept hb hf
      refine ⟨by rw [m2, c2], hen, hde, ?_⟩
      rw [m1, c1,
        jsSort_map (fun o => o.set "sender_name" .null) (byDateDesc k "delivery_date")
          (byDateDesc k "delivery_date")
          (byDateDesc_set_sender k "delivery_date" (by decide) .null)]
      exact (map_erase_map_set .null _).symm

/-- C17, amended, at the delivery snapshot of Scenario A and the letters
snapshot of Scenario B: no shipment entry is `null`, both cards return
normally, and the letters of `main.js` are those of `postnl-card.js` with
`sender_name` erased: today, then yesterday. -/
theorem single_source_agreement_AB :
    noNullShipments mainCardAB.delivery ∧
    noNullShipments mainCardAB.distribution ∧
    ((Main._updateData (utcClock sampleNow) mainCardAB).2 =
        (_updateData (utcClock sampleNow) (asCard Card.new mainCardAB)).2 ∧
      (Main._updateData (utcClock sampleNow) mainCardAB).1.enrouteShipments.map
          (Option.map eraseSender) =
        (_updateData (utcClock sampleNow) (asCard Card.new mainCardAB)).1.enrouteShipments.map
          (fun o => some (eraseSender o)) ∧
      (Main._updateData (utcClock sampleNow) mainCardAB).1.deliveredShipments.map
          (Option.map eraseSender) =
        (_updateData (utcClock sampleNow)
          (asCard Card.new mainCardAB)).1.deliveredShipments.map
            (fun o => some (eraseSender o)) ∧
      (Main._updateData (utcClock sampleNow) mainCardAB).1.letterItems.map
          (Option.map eraseSender) =
        (_updateData (utcClock sampleNow) (asCard Card.new mainCardAB)).1.letterItems.map
          (fun o => some (eraseSender o))) ∧
    (Main._updateData (utcClock sampleNow) mainCardAB).1.letterItems =
      [some [("id", .str "103"), ("delivery_date", .str "2024-03-10T12:00:00Z")],
       some [("id", .str "101"), ("delivery_date", .str "2024-03-09T12:00:00Z")]] :=
  have h1 : noNullShipments mainCardAB.delivery := by
    intro state h
    cases h
    decide
  have h2 : noNullShipments mainCardAB.distribution := by
    intro state h
    cases h
  ⟨h1, h2, single_source_agreement (utcClock sampleNow) mainCardAB Card.new h1 h2, by decide⟩

/-! ## Inputs are not mutated -/

theorem prefix_alloc {h0 g : Heap} (hp : h0 <+: g) (c : Cell) :
    h0 <+: (g.alloc c).1 ∧ h0.length ≤ (g.alloc c).2 :=
  ⟨hp.trans (List.prefix_append g [c]), hp.length_le⟩

theorem prefix_set {h0 g : Heap} (hp : h0 <+: g) (a : Nat) (ha : h0.length ≤ a) (c : Cell) :
    h0 <+: g.set a c := by
  obtain ⟨t, rfl⟩ := hp
  rw [List.set_append_right _ _ ha]
  exact List.prefix_append _ _

theorem prefix_annotateFold {h0 : Heap} (name : JsVal) :
    ∀ (rs : List (Option Nat)) (st : Heap × List (Option Nat)), h0 <+: st.1 →
      h0 <+: (rs.foldl (annotateStep name) st).1
  | [], _, hp => hp
  | r :: rs, st, hp =>
    prefix_annotateFold name rs (annotateStep name st r)
      (hp.trans (List.prefix_append st.1 _))

theorem prefix_mapAnnotate {h0 g : Heap} (hp : h0 <+: g) (arr : Nat) (name : JsVal) :
    h0 <+: (g.mapAnnotate arr name).1 ∧ h0.length ≤ (g.mapAnnotate arr name).2 :=
  prefix_alloc (prefix_annotateFold name (g.elems arr) (g, []) hp) _

theorem prefix_concat {h0 g : Heap} (hp : h0 <+: g) (a b : Nat) :
    h0 <+: (g.concat a b).1 ∧ h0.length ≤ (g.concat a b).2 :=
  prefix_alloc hp _

theorem prefix_objectValues {h0 g : Heap} (hp : h0 <+: g) (m : Nat) :
    h0 <+: (g.objectValues m).1 ∧ h0.length ≤ (g.objectValues m).2 :=
  prefix_alloc hp _

theorem prefix_orEmpty {h0 g : Heap} (hp : h0 <+: g) (list : Option Nat) :
    h0 <+: (g.orEmpty list).1 := by
  cases list with
  | none => exact (prefix_alloc hp _).1
  | some a => exact hp

theorem prefix_filter {h0 g : Heap} (hp : h0 <+: g) (arr : Nat) (p : Item → Option Bool) :
    h0 <+: (g.filter arr p).1 ∧ ∀ r, (g.filter arr p).2 = some r → h0.length ≤ r := by
  unfold Heap.filter
  cases filterThrowing (fun r => p (g.fields r)) (g.elems arr) with
  | none => exact ⟨hp, fun r hr => by cases hr⟩
  | some kept =>
    refine ⟨(prefix_alloc hp _).1, fun r hr => ?_⟩
    cases hr
    exact (prefix_alloc hp _).2

theorem prefix_sortInPlace {h0 g : Heap} (hp : h0 <+: g) (arr : Nat) (ha : h0.length ≤ arr)
    (cmp : Item → Item → Option (Option Int)) : h0 <+: (g.sortInPlace arr cmp).1 := by
  unfold Heap.sortInPlace
  cases jsSortThrowing (fun a b => cmp (g.fields a) (g.fields b)) (g.elems arr) with
  | none => exact hp
  | some sorted => exact prefix_set hp arr ha _

theorem prefix_pushAll {h0 g : Heap} (hp : h0 <+: g) (arr other : Nat) (ha : h0.length ≤ arr) :
    h0 <+: g.pushAll arr other :=
  prefix_set hp arr ha _

theorem prefix_addShipmentsRef {h0 : Heap} (st : ShipmentLoop) (e : SourceRef)
    (hp : h0 <+: st.heap) :
    h0 <+: (addShipmentsRef st e).heap ∧ h0.length ≤ (addShipmentsRef st e).enroute ∧
      h0.length ≤ (addShipmentsRef st e).delivered := by
  unfold addShipmentsRef
  dsimp only
  have e1 := prefix_orEmpty hp e.enroute
  have e2 := prefix_mapAnnotate e1 (st.heap.orEmpty e.enroute).2 e.name
  have d1 := prefix_orEmpty e2.1 e.delivered
  exact ⟨(prefix_concat (prefix_concat (prefix_mapAnnotate d1 _ _).1 _ _).1 _ _).1,
    (prefix_concat (prefix_mapAnnotate d1 _ _).1 _ _).2,
    (prefix_concat (prefix_concat (prefix_mapAnnotate d1 _ _).1 _ _).1 _ _).2⟩

theorem prefix_shipmentLoop {h0 : Heap} :
    ∀ (srcs : List SourceRef) (st : ShipmentLoop), h0 <+: st.heap →
      h0.length ≤ st.enroute → h0.length ≤ st.delivered →
      h0 <+: (srcs.foldl addShipmentsRef st).heap ∧
        h0.length ≤ (srcs.foldl addShipmentsRef st).enroute ∧
        h0.length ≤ (srcs.foldl addShipmentsRef st).delivered
  | [], _, hp, h1, h2 => ⟨hp, h1, h2⟩
  | e :: srcs, st, hp, _, _ =>
    prefix_shipmentLoop srcs (addShipmentsRef st e) (prefix_addShipmentsRef st e hp).1
      (prefix_addShipmentsRef st e hp).2.1 (prefix_addShipmentsRef st e hp).2.2

theorem prefix_addLettersRef {h0 : Heap} (k : Clock) (cutoff : Int) (st : LettersLoop)
    (e : SourceRef) (hp : h0 <+: st.heap) (ha : h0.length ≤ st.letterItems) :
    h0 <+: (addLettersRef k cutoff st e).heap ∧
      h0.length ≤ (addLettersRef k cutoff st e).letterItems := by
  unfold addLettersRef
  by_cases ht : st.thrown = true
  · rw [if_pos ht]
    exact ⟨hp, ha⟩
  · rw [if_neg ht]
    cases hl : e.letters with
    | none => exact ⟨hp, ha⟩
    | some m =>
      dsimp only
      have v := prefix_objectValues hp m
      have f := prefix_filter v.1 (st.heap.objectValues m).2 (keepLetterItem k cutoff)
      generalize (st.heap.objectValues m).1.filter (st.heap.objectValues m).2
        (keepLetterItem k cutoff) = res at f
      obtain ⟨h1, _ | kept⟩ := res
      · exact ⟨f.1, ha⟩
      · have mp := prefix_mapAnnotate f.1 kept e.name
        have j := prefix_concat mp.1 st.letterItems (h1.mapAnnotate kept e.name).2
        exact ⟨j.1, j.2⟩

theorem prefix_lettersLoop {h0 : Heap} (k : Clock) (cutoff : Int) :
    ∀ (srcs : List SourceRef) (st : LettersLoop), h0 <+: st.heap →
      h0.length ≤ st.letterItems →
      h0 <+: (srcs.foldl (addLettersRef k cutoff) st).heap ∧
        h0.length ≤ (srcs.foldl (addLettersRef k cutoff) st).letterItems
  | [], _, hp, ha => ⟨hp, ha⟩
  | e :: srcs, st, hp, ha =>
    prefix_lettersLoop k cutoff srcs (addLettersRef k cutoff st e)
      (prefix_addLettersRef k cutoff st e hp ha).1 (prefix_addLettersRef k cutoff st e hp ha).2

theorem prefix_pushShipments {h0 g : Heap} (hp : h0 <+: g) (enroute delivered : Nat)
    (h1 : h0.length ≤ enroute) (h2 : h0.length ≤ delivered) (source : Option SourceRef) :
    h0 <+: Main.pushShipments g enroute delivered source := by
  unfold Main.pushShipments
  cases source with
  | none => exact hp
  | some s =>
    dsimp only
    exact prefix_pushAll (prefix_pushAll (prefix_orEmpty (prefix_orEmpty hp _) _) _ _ h1) _ _ h2

theorem prefix_finishOnHeap {h0 : Heap} (k : Clock) (cutoff : Int) (f1 f2 f3 : Nat)
    (loop : ShipmentLoop) (letters : List SourceRef) (hp : h0 <+: loop.heap)
    (hen : h0.length ≤ loop.enroute) (hf3 : h0.length ≤ f3) :
    h0 <+: (finishOnHeap k cutoff f1 f2 f3 loop letters).heap := by
  have s1 := prefix_sortInPlace hp loop.enroute hen (byDateDescItem k "planned_date")
  have d1 := prefix_filter s1 loop.delivered (keepDeliveredItem k cutoff)
  unfold finishOnHeap
  dsimp only
  split
  · exact s1
  · generalize Heap.filter _ loop.delivered (keepDeliveredItem k cutoff) = res at d1 ⊢
    obtain ⟨h2, _ | kept⟩ := res
    · exact d1.1
    · dsimp only
      have s2 := prefix_sortInPlace d1.1 kept (d1.2 kept rfl) (byDateDescItem k "delivery_date")
      split
      · exact s2
      · have ll := prefix_lettersLoop k cutoff letters
          { heap := (h2.sortInPlace kept (byDateDescItem k "delivery_date")).1,
            letterItems := f3, thrown := false } s2 hf3
        split
        · exact ll.1
        · exact prefix_sortInPlace ll.1 _ ll.2 _

theorem prefix_mainFinishOnHeap {h0 : Heap} (k : Clock) (cutoff : Int) (f1 f2 f3 : Nat)
    (pushed : Heap) (enroute delivered : Nat) (letters : Option SourceRef)
    (hp : h0 <+: pushed) (hen : h0.length ≤ enroute) :
    h0 <+: (Main.finishOnHeap k cutoff f1 f2 f3 pushed enroute delivered letters).heap := by
  have s1 := prefix_sortInPlace hp enroute hen (byDateDescItem k "planned_date")
  have d1 := prefix_filter s1 delivered (keepDeliveredItem k cutoff)
  unfold Main.finishOnHeap
  dsimp only
  split
  · exact s1
  · generalize Heap.filter _ delivered (keepDeliveredItem k cutoff) = res at d1 ⊢
    obtain ⟨h2, _ | kept⟩ := res
    · exact d1.1
    · dsimp only
      have s2 := prefix_sortInPlace d1.1 kept (d1.2 kept rfl) (byDateDescItem k "delivery_date")
      split
      · exact s2
      · cases letters.bind (fun l => l.letters) with
        | none => exact s2
        | some m =>
          dsimp only
          have v := prefix_objectValues s2 m
          have f := prefix_filter v.1
            ((h2.sortInPlace kept (byDateDescItem k "delivery_date")).1.objectValues m).2
            (keepLetterItem k cutoff)
          generalize Heap.filter _ _ (keepLetterItem k cutoff) = res at f ⊢
          obtain ⟨h3, _ | keptLetters⟩ := res
          · exact f.1
          · dsimp only
            have s3 := prefix_sortInPlace f.1 keptLetters (f.2 keptLetters rfl)
              (byDateDescItem k "delivery_date")
            split
            · exact s3
            · exact s3

theorem prefix_updateDataOnHeap (k : Clock) (h : Heap)
    (delivery distribution letters : List SourceRef) (pastDays : Int) :
    h <+: (updateDataOnHeap k h delivery distribution letters pastDays).heap := by
  have f1 := prefix_alloc (List.prefix_refl h) (.array [])
  have f2 := prefix_alloc f1.1 (.array [])
  have f3 := prefix_alloc f2.1 (.array [])
  have en0 := prefix_alloc f3.1 (.array [])
  have de0 := prefix_alloc en0.1 (.array [])
  have l1 := prefix_shipmentLoop delivery
    { heap := (((((h.alloc (.array [])).1.alloc (.array [])).1.alloc (.array [])).1.alloc
        (.array [])).1.alloc (.array [])).1
      enroute := ((((h.alloc (.array [])).1.alloc (.array [])).1.alloc (.array [])).1.alloc
        (.array [])).2
      delivered := (((((h.alloc (.array [])).1.alloc (.array [])).1.alloc (.array [])).1.alloc
        (.array [])).1.alloc (.array [])).2 } de0.1 en0.2 de0.2
  have l2 := prefix_shipmentLoop distribution _ l1.1 l1.2.1 l1.2.2
  exact prefix_finishOnHeap k _ _ _ _ _ letters l2.1 l2.2.1 f3.2

theorem prefix_mainUpdateDataOnHeap (k : Clock) (h : Heap)
    (delivery distribution letters : Option SourceRef) (pastDays : Int) :
    h <+: (Main.updateDataOnHeap k h delivery distribution letters pastDays).heap := by
  have f1 := prefix_alloc (List.prefix_refl h) (.array [])
  have f2 := prefix_alloc f1.1 (.array [])
  have f3 := prefix_alloc f2.1 (.array [])
  have en0 := prefix_alloc f3.1 (.array [])
  have de0 := prefix_alloc en0.1 (.array [])
  have p1 := prefix_pushShipments de0.1 _ _ en0.2 de0.2 delivery
  have p2 := prefix_pushShipments p1 _ _ en0.2 de0.2 distribution
  exact prefix_mainFinishOnHeap k _ _ _ _ _ _ _ letters p2 en0.2

theorem get?_of_prefix {h g : Heap} (hp : h <+: g) (a : Nat) (cell : Cell)
    (ha : h.get? a = some cell) : g.get? a = some cell := by
  obtain ⟨t, rfl⟩ := hp
  rw [List.get?_eq_getElem?] at ha ⊢
  have hlt : a < h.length := by
    by_contra hge
    rw [List.getElem?_eq_none (by omega)] at ha
    cases ha
  rw [List.getElem?_append_left hlt]
  exact ha

/-- On `sampleHeap` the run of `postnl-card.js` on the heap returns normally, and
the arrays it leaves in the three fields hold the collections that `_updateData`
computes on the values of the sources; every record of the collections is a
new cell. -/
theorem heap_run_agrees :
    (updateDataOnHeap (utcClock sampleNow) sampleHeap [sampleDelivery] [] [sampleLetters]
      1).thrown = false ∧
    (updateDataOnHeap (utcClock sampleNow) sampleHeap [sampleDelivery] [] [sampleLetters]
        1).heap.items
      (updateDataOnHeap (utcClock sampleNow) sampleHeap [sampleDelivery] [] [sampleLetters]
        1).enrouteShipments =
      (_updateData (utcClock sampleNow) { Card.new with
        delivery := [sampleDelivery.toSource sampleHeap]
        letters := [sampleLetters.toSource sampleHeap] }).1.enrouteShipments.map some ∧
    (updateDataOnHeap (utcClock sampleNow) sampleHeap [sampleDelivery] [] [sampleLetters]
        1).heap.items
      (updateDataOnHeap (utcClock sampleNow) sampleHeap [sampleDelivery] [] [sampleLetters]
        1).deliveredShipments =
      (_updateData (utcClock sampleNow) { Card.new with
        delivery := [sampleDelivery.toSource sampleHeap]
        letters := [sampleLetters.toSource sampleHeap] }).1.deliveredShipments.map some ∧
    (updateDataOnHeap (utcClock sampleNow) sampleHeap [sampleDelivery] [] [sampleLetters]
        1).heap.items
      (updateDataOnHeap (utcClock sampleNow) sampleHeap [sampleDelivery] [] [sampleLetters]
        1).letterItems =
      (_updateData (utcClock sampleNow) { Card.new with
        delivery := [sampleDelivery.toSource sampleHeap]
        letters := [sampleLetters.toSource sampleHeap] }).1.letterItems.map some ∧
    (∀ r ∈ (updateDataOnHeap (utcClock sampleNow) sampleHeap [sampleDelivery] []
        [sampleLetters] 1).heap.elems
          (updateDataOnHeap (utcClock sampleNow) sampleHeap [sampleDelivery] []
            [sampleLetters] 1).letterItems,
      ∃ a, r = some a ∧ sampleHeap.length ≤ a) := by
  decide

/-- On `sampleHeap`, without the `null` entry of the delivered list, the run of
`main.js` on the heap returns normally and the arrays it leaves in the three
fields hold the collections that `Main._updateData` computes on the values of
the snapshots; the records are the cells of the input. -/
theorem main_heap_run_agrees :
    (Main.updateDataOnHeap (utcClock sampleNow) sampleHeap
      (some { sampleDelivery with delivered := none }) none (some sampleLetters) 1).thrown
        = false ∧
    (Main.updateDataOnHeap (utcClock sampleNow) sampleHeap
        (some { sampleDelivery with delivered := none }) none (some sampleLetters) 1).heap.items
      (Main.updateDataOnHeap (utcClock sampleNow) sampleHeap
        (some { sampleDelivery with delivered := none }) none
        (some sampleLetters) 1).enrouteShipments =
      (Main._updateData (utcClock sampleNow) { Main.Card.new with
        delivery := some ({ sampleDelivery with delivered := none }.toSource sampleHeap).state
        letters := some (sampleLetters.toSource sampleHeap).state }).1.enrouteShipments ∧
    (Main.updateDataOnHeap (utcClock sampleNow) sampleHeap
        (some { sampleDelivery with delivered := none }) none (some sampleLetters) 1).heap.items
      (Main.updateDataOnHeap (utcClock sampleNow) sampleHeap
        (some { sampleDelivery with delivered := none }) none
        (some sampleLetters) 1).letterItems =
      (Main._updateData (utcClock sampleNow) { Main.Card.new with
        delivery := some ({ sampleDelivery with delivered := none }.toSource sampleHeap).state
        letters := some (sampleLetters.toSource sampleHeap).state }).1.letterItems ∧
    (Main.updateDataOnHeap (utcClock sampleNow) sampleHeap
        (some { sampleDelivery with delivered := none }) none (some sampleLetters) 1).heap.elems
      (Main.updateDataOnHeap (utcClock sampleNow) sampleHeap
        (some { sampleDelivery with delivered := none }) none
        (some sampleLetters) 1).letterItems = [some 7, some 5] ∧
    (Main.updateDataOnHeap (utcClock sampleNow) sampleHeap
      (some sampleDelivery) none (some sampleLetters) 1).thrown = true ∧
    (Main._updateData (utcClock sampleNow) { Main.Card.new with
        delivery := some (sampleDelivery.toSource sampleHeap).state
        letters := some (sampleLetters.toSource sampleHeap).state }).2 =
      some "TypeError: Cannot read properties of null" := by
  decide

/-- C12: `_updateData` does not mutate its inputs, in `postnl-card.js` and in
`main.js`. On a heap that holds the arrays, mappings and records of the
snapshots (and anything else), the heap after the call starts with the heap
before it: every cell that was there, be it an `enroute` or `delivered` array,
a `letters` mapping or a record, holds what it held, so every list has the same
elements in the same order and every record the same fields and values (no
`sender_name` is added to an input record); whatever the call builds or sorts
is a cell that did not exist before. This holds also when the call raises. -/
theorem updateData_leaves_inputs (k : Clock) (h : Heap)
    (delivery distribution letters : List SourceRef)
    (mainDelivery mainDistribution mainLetters : Option SourceRef) (pastDays : Int) :
    (h <+: (updateDataOnHeap k h delivery distribution letters pastDays).heap ∧
      ∀ a cell, h.get? a = some cell →
        (updateDataOnHeap k h delivery distribution letters pastDays).heap.get? a =
          some cell) ∧
    (h <+: (Main.updateDataOnHeap k h mainDelivery mainDistribution mainLetters
        pastDays).heap ∧
      ∀ a cell, h.get? a = some cell →
        (Main.updateDataOnHeap k h mainDelivery mainDistribution mainLetters
          pastDays).heap.get? a = some cell) :=
  ⟨⟨prefix_updateDataOnHeap k h delivery distribution letters pastDays,
    fun a cell ha => get?_of_prefix
      (prefix_updateDataOnHeap k h delivery distribution letters pastDays) a cell ha⟩,
   ⟨prefix_mainUpdateDataOnHeap k h mainDelivery mainDistribution mainLetters pastDays,
    fun a cell ha => get?_of_prefix
      (prefix_mainUpdateDataOnHeap k h mainDelivery mainDistribution mainLetters pastDays)
      a cell ha⟩⟩

end PostNL
